import Mathlib

/-!
# Discrete sound system: math and logic nodes (`src/emu/sound/disc_mth.c`)

A shallow embedding of node step functions of the discrete sound library and
proofs of properties of them.

## Modelling conventions

* A C `double` is a value of `Double`: an exact rational, `+inf`, `-inf` or NaN.
  Arithmetic on finite values is exact (rounding, overflow to infinity and the
  sign of zero are not modelled); the special values follow the IEEE-754 rules.
* A C `int` is a Lean `Int`.  The conversion `(int)x` truncates toward zero; for
  a value that does not fit in 32 bits (or is not finite) it yields `INT_MIN`,
  as the x86 conversion instruction does.
* `*(node->input[i])` is `node.input i`: the value the slot holds on this tick.
* `discrete_log(...)` appends one `Diag` to the diagnostic log, which is
  threaded through every step function.
* `assert(...)` failing makes the enclosing function return `none`, and so does,
  in `dst_tvca_op_amp_step`, a read of a two-element array outside its bounds.
* The nodes whose properties are formulas of real arithmetic (DAC, mixer,
  component adder, diode mixer, op-amps, ramp, one-shot, integrator) are embedded over
  an arbitrary
  linearly ordered field `K` with a floor function: the rationals to evaluate
  them, the reals for exact real arithmetic.  There the arithmetic is exact,
  there are no special values, and a division by zero has the value 0; a
  theorem that rests on a division has the hypothesis that its divisor is not 0.
  Where the rounding of doubles decides the matter (the countdown of the
  one-shot, the underflow of `exp`), the rounded operation is a parameter of
  the definition, and `round_double` is the rounding of IEEE 754.
* The constants of `discrete.h`, the structures it declares and the functions
  of libm and of the node framework are not among the sources: the constants
  are the fields of a parameter `discrete_h`, the structures are declared with
  the fields `disc_mth.c` uses, and `exp` and `discrete_find_node` are
  parameters of the functions that call them.
-/

/-! ## The model of `double` -/

/-- A C `double`: a finite value (an exact rational), an infinity, or NaN. -/
inductive Double where
  | fin (q : ℚ)
  | pinf
  | ninf
  | nan
  deriving DecidableEq

namespace Double

instance : Inhabited Double := ⟨fin 0⟩

/-- A numeric literal is the finite value it names. -/
instance instOfNat (n : Nat) : OfNat Double n := ⟨fin (n : ℚ)⟩

/-- Unary minus. -/
def neg : Double → Double
  | fin a => fin (-a)
  | pinf => ninf
  | ninf => pinf
  | nan => nan

/-- Addition: exact on finite values, IEEE rules on the special values. -/
def add : Double → Double → Double
  | fin a, fin b => fin (a + b)
  | fin _, pinf => pinf
  | fin _, ninf => ninf
  | pinf, fin _ => pinf
  | pinf, pinf => pinf
  | pinf, ninf => nan
  | ninf, fin _ => ninf
  | ninf, pinf => nan
  | ninf, ninf => ninf
  | nan, _ => nan
  | fin _, nan => nan
  | pinf, nan => nan
  | ninf, nan => nan

/-- Subtraction, `a - b = a + (-b)`. -/
def sub (a b : Double) : Double := add a (neg b)

/-- The infinity with the sign of `a * s`, NaN when `a = 0` (`0 * inf`). -/
def infTimes (a : ℚ) (positive : Bool) : Double :=
  if a = 0 then nan else if (0 < a) = positive then pinf else ninf

/-- Multiplication. -/
def mul : Double → Double → Double
  | fin a, fin b => fin (a * b)
  | fin a, pinf => infTimes a true
  | fin a, ninf => infTimes a false
  | pinf, fin b => infTimes b true
  | ninf, fin b => infTimes b false
  | pinf, pinf => pinf
  | pinf, ninf => ninf
  | ninf, pinf => ninf
  | ninf, ninf => pinf
  | nan, _ => nan
  | fin _, nan => nan
  | pinf, nan => nan
  | ninf, nan => nan

/-- Division.  A zero divisor is taken to be `+0`: `a / 0` is the infinity with
the sign of `a`, and `0 / 0` is NaN. -/
def div : Double → Double → Double
  | fin a, fin b => if b = 0 then infTimes a true else fin (a / b)
  | fin _, pinf => fin 0
  | fin _, ninf => fin 0
  | pinf, fin b => if 0 ≤ b then pinf else ninf
  | ninf, fin b => if 0 ≤ b then ninf else pinf
  | pinf, pinf => nan
  | pinf, ninf => nan
  | ninf, pinf => nan
  | ninf, ninf => nan
  | nan, _ => nan
  | fin _, nan => nan
  | pinf, nan => nan
  | ninf, nan => nan

instance : Neg Double := ⟨neg⟩
instance : Add Double := ⟨add⟩
instance : Sub Double := ⟨sub⟩
instance : Mul Double := ⟨mul⟩
instance : Div Double := ⟨div⟩

/-- The C comparison `a < b` (false when either side is NaN). -/
def lt : Double → Double → Bool
  | fin a, fin b => decide (a < b)
  | fin _, pinf => true
  | ninf, fin _ => true
  | ninf, pinf => true
  | _, _ => false

/-- The C comparison `a <= b` (false when either side is NaN). -/
def le : Double → Double → Bool
  | fin a, fin b => decide (a ≤ b)
  | fin _, pinf => true
  | ninf, fin _ => true
  | ninf, pinf => true
  | pinf, pinf => true
  | ninf, ninf => true
  | _, _ => false

/-- The C comparison `a > b`. -/
def gt (a b : Double) : Bool := lt b a

/-- The C comparison `a >= b`. -/
def ge (a b : Double) : Bool := le b a

/-- The C comparison `x == 0`. -/
def isZero : Double → Bool
  | fin a => decide (a = 0)
  | _ => false

/-- The truth value of `x` in a C condition, `if (x)`: `x != 0`. -/
def truthy (x : Double) : Bool := !isZero x

/-- The smallest `int`. -/
def INT_MIN : Int := -2147483648

/-- The largest `int`. -/
def INT_MAX : Int := 2147483647

/-- Truncation of a rational toward zero. -/
def truncQ (a : ℚ) : Int := if 0 ≤ a then ⌊a⌋ else ⌈a⌉

/-- The conversion `(int)x`. -/
def toInt : Double → Int
  | fin a => if INT_MIN ≤ truncQ a ∧ truncQ a ≤ INT_MAX then truncQ a else INT_MIN
  | _ => INT_MIN

/-- The conversion of an `int` to `double`. -/
def ofInt (n : Int) : Double := fin (n : ℚ)

/-- The conversion to `double` of the `int` result (0 or 1) of a C comparison or
logical operator. -/
def ofBool (b : Bool) : Double := if b then 1 else 0

/-- `DBL_MAX` of `<float.h>`: the largest finite double, `(2 - 2^-52) * 2^1023`. -/
def DBL_MAX : Double := fin (2 ^ 1024 - 2 ^ 971)

/-- `HUGE_VAL` of `<math.h>`: positive infinity. -/
def HUGE_VAL : Double := pinf

end Double

open Double (truthy isZero toInt ofInt ofBool DBL_MAX HUGE_VAL)

/-! ## Nodes and diagnostics -/

/-- One call of `discrete_log`; a constructor per call site, carrying the values
the message is formatted from.  `node` is `node->node`, which the message prints
as an index (`NODE_INDEX(node->node)`, `node->node - NODE_00`). -/
inductive Diag where
  /-- The message "dst_divider_step() - Divide by Zero attempted in NODE_%02d." -/
  | divide_by_zero (node : Int)
  /-- The message "NODE_%02d - Address = %d. Out of bounds". -/
  | multiplex_out_of_bounds (node : Int) (addr : Int)
  /-- The message "dst_transform_step - Invalid function type/variable passed". -/
  | transform_invalid_function
  /-- The message "dst_dac_r1_reset - Ladder length too small". -/
  | dac_r1_ladder_too_small
  /-- The message "dst_dac_r1_reset - Ladder length exceeds DISC_LADDER_MAXRES". -/
  | dac_r1_ladder_exceeds_maxres
  /-- The message "dst_samphold_step - Invalid clocktype passed". -/
  | samphold_invalid_clocktype
  deriving DecidableEq

/-- The fields of `node_description` the step functions use.  `Context` is the
type of the node's mutable `context` block and `Custom` that of its static
`custom` block. -/
structure node_description (Context Custom : Type) where
  /-- The node's identifier, `node->node`. -/
  node : Int
  /-- The value each input slot points at on this tick, `*(node->input[i])`. -/
  input : Nat → Double
  /-- The number of input slots wired for this node. -/
  active_inputs : Int
  /-- The node's output, `node->output[0]`. -/
  output : Double
  context : Context
  custom : Custom

/-- The context of nodes that only record a size (`struct dst_size_context`). -/
structure dst_size_context where
  size : Int
  deriving DecidableEq

/-- The context of the flip-flops (`struct dst_flipflop_context`). -/
structure dst_flipflop_context where
  last_clk : Int
  deriving DecidableEq

/-! ## DST_DIVIDE -/

/-- `dst_divide_step`: input 0 enable, input 1 dividend, input 2 divisor. -/
def dst_divide_step (node : node_description Unit Unit) (log : List Diag) :
    node_description Unit Unit × List Diag :=
  if truthy (node.input 0) then
    if isZero (node.input 2) then
      ({ node with output := DBL_MAX }, log ++ [Diag.divide_by_zero node.node])
    else
      ({ node with output := node.input 1 / node.input 2 }, log)
  else
    ({ node with output := 0 }, log)

/-! ## DST_LOGIC_DFF -/

/-- `dst_logic_dff_step`: input 0 enable, 1 /Reset, 2 /Set, 3 clock, 4 data. -/
def dst_logic_dff_step (node : node_description dst_flipflop_context Unit)
    (log : List Diag) : node_description dst_flipflop_context Unit × List Diag :=
  let clk : Int := toInt (node.input 3)
  let node1 :=
    if truthy (node.input 0) then
      if isZero (node.input 1) then { node with output := 0 }
      else if isZero (node.input 2) then { node with output := 1 }
      else if node.context.last_clk = 0 ∧ clk ≠ 0 then
        { node with output := node.input 4 }
      else node
    else { node with output := 0 }
  ({ node1 with context := { last_clk := clk } }, log)

/-- `dst_logic_ff_reset`. -/
def dst_logic_ff_reset (node : node_description dst_flipflop_context Unit)
    (log : List Diag) : node_description dst_flipflop_context Unit × List Diag :=
  ({ node with context := { last_clk := 0 }, output := 0 }, log)

/-! ## DST_LOOKUP_TABLE -/

/-- `dst_lookup_table_step`: input 0 enable, input 1 address, input 2 table
size; `custom` is the table, `table i` being the element `table[i]`. -/
def dst_lookup_table_step (node : node_description Unit (Int → Double))
    (log : List Diag) : node_description Unit (Int → Double) × List Diag :=
  let table := node.custom
  let addr : Int := toInt (node.input 1)
  if !truthy (node.input 0) || decide (addr < 0) || Double.ge (ofInt addr) (node.input 2) then
    ({ node with output := 0 }, log)
  else
    ({ node with output := table addr }, log)

/-! ## DST_MULTIPLEX -/

/-- `dst_multiplex_step`: input 0 enable, input 1 address, inputs 2.. data. -/
def dst_multiplex_step (node : node_description dst_size_context Unit)
    (log : List Diag) : node_description dst_size_context Unit × List Diag :=
  if truthy (node.input 0) then
    let addr : Int := toInt (node.input 1)
    if addr ≥ 0 ∧ addr < node.context.size then
      ({ node with output := node.input (2 + addr).toNat }, log)
    else
      (node, log ++ [Diag.multiplex_out_of_bounds node.node addr])
  else
    ({ node with output := 0 }, log)

/-- `dst_multiplex_reset`. -/
def dst_multiplex_reset (node : node_description dst_size_context Unit)
    (log : List Diag) : node_description dst_size_context Unit × List Diag :=
  dst_multiplex_step { node with context := { size := node.active_inputs - 2 } } log

/-! ## DST_TRANSFORM -/

/-- The size of the transform's operand stack array. -/
def MAX_TRANS_STACK : Int := 16

/-- `dst_transform_pop`: `assert(*pointer > 0)`, decrement, then read.  Returns
the value read and the new pointer. -/
def dst_transform_pop (stack : Nat → Double) (pointer : Int) : Option (Double × Int) :=
  if pointer > 0 then some (stack (pointer - 1).toNat, pointer - 1) else none

/-- `dst_transform_push`: `assert(*pointer < MAX_TRANS_STACK)`, store, then
increment.  Returns the new array contents and the new pointer. -/
def dst_transform_push (stack : Nat → Double) (pointer : Int) (value : Double) :
    Option ((Nat → Double) × Int) :=
  if pointer < MAX_TRANS_STACK then
    some (Function.update stack pointer.toNat value, pointer + 1)
  else none

/-- The variables `dst_transform_step` works on inside its loop. -/
structure transform_state where
  /-- The local array `trans_stack`, by index. -/
  trans_stack : Nat → Double
  trans_stack_ptr : Int
  top : Double
  /-- The node's output, `node->output[0]`. -/
  output : Double
  log : List Diag

/-- A case of the switch that pops `number1` and sets `top = f number1 top`. -/
def transform_binary (f : Double → Double → Double) (s : transform_state) :
    Option transform_state :=
  match dst_transform_pop s.trans_stack s.trans_stack_ptr with
  | none => none
  | some (number1, p) => some { s with trans_stack_ptr := p, top := f number1 s.top }

/-- A case of the switch that pushes `top` and then sets `top = value`. -/
def transform_load (value : Double) (s : transform_state) : Option transform_state :=
  match dst_transform_push s.trans_stack s.trans_stack_ptr s.top with
  | none => none
  | some (st, p) => some { s with trans_stack := st, trans_stack_ptr := p, top := value }

/-- One pass through the body of the loop of `dst_transform_step`: the switch
on the opcode `c`, with the node's inputs `input`. -/
def transform_case (input : Nat → Double) (c : Char) (s : transform_state) :
    Option transform_state :=
  match c with
  | '*' => transform_binary (fun number1 top => number1 * top) s
  | '/' => transform_binary (fun number1 top => number1 / top) s
  | '+' => transform_binary (fun number1 top => number1 + top) s
  | '-' => transform_binary (fun number1 top => number1 - top) s
  | '0' => transform_load (input 1) s
  | '1' => transform_load (input 2) s
  | '2' => transform_load (input 3) s
  | '3' => transform_load (input 4) s
  | '4' => transform_load (input 5) s
  | 'P' => transform_load s.top s
  | 'i' => some { s with top := - s.top }
  | '!' => some { s with top := ofBool (isZero s.top) }
  | '=' => transform_binary (fun number1 top => ofBool (decide (toInt number1 = toInt top))) s
  | '>' => transform_binary (fun number1 top => ofBool (Double.gt number1 top)) s
  | '<' => transform_binary (fun number1 top => ofBool (Double.lt number1 top)) s
  | '&' => transform_binary (fun number1 top => ofInt (Int.land (toInt number1) (toInt top))) s
  | '|' => transform_binary (fun number1 top => ofInt (Int.lor (toInt number1) (toInt top))) s
  | '^' => transform_binary (fun number1 top => ofInt (Int.xor (toInt number1) (toInt top))) s
  | _ => some { s with log := s.log ++ [Diag.transform_invalid_function], output := 0 }

/-- The loop `while (*fPTR != 0) switch (*fPTR++) ...` over the characters at
`fPTR`; the end of the list is the terminating NUL. -/
def transform_loop (input : Nat → Double) : List Char → transform_state → Option transform_state
  | [], s => some s
  | c :: cs, s =>
    if c.val = 0 then some s
    else
      match transform_case input c s with
      | none => none
      | some s1 => transform_loop input cs s1

/-- The variables of `dst_transform_step` when it enters its loop:
`trans_stack_ptr = 0`, `node->output[0] = 0`, `top = HUGE_VAL`.  The array
`trans_stack` is uninitialised at entry; its cells are given the value 0 here
(no cell is read before it is written). -/
def transform_init (log : List Diag) : transform_state :=
  { trans_stack := fun _ => 0, trans_stack_ptr := 0, top := HUGE_VAL, output := 0, log := log }

/-- `dst_transform_step`: input 0 enable, inputs 1..5 the channels; `custom` is
the expression.  After the loop, `node->output[0] = top`. -/
def dst_transform_step (node : node_description Unit (List Char)) (log : List Diag) :
    Option (node_description Unit (List Char) × List Diag) :=
  if truthy (node.input 0) then
    match transform_loop node.input node.custom (transform_init log) with
    | none => none
    | some s => some ({ node with output := s.top }, s.log)
  else
    some ({ node with output := 0 }, log)

/-! ### The reference evaluator of postfix expressions -/

/-- The operation a binary opcode stands for, applied as
`(second-from-top) op (top)`. -/
def ref_binary (c : Char) : Option (Double → Double → Double) :=
  match c with
  | '+' => some (fun a b => a + b)
  | '-' => some (fun a b => a - b)
  | '*' => some (fun a b => a * b)
  | '/' => some (fun a b => a / b)
  | '=' => some (fun a b => ofBool (decide (toInt a = toInt b)))
  | '>' => some (fun a b => ofBool (Double.gt a b))
  | '<' => some (fun a b => ofBool (Double.lt a b))
  | '&' => some (fun a b => ofInt (Int.land (toInt a) (toInt b)))
  | '|' => some (fun a b => ofInt (Int.lor (toInt a) (toInt b)))
  | '^' => some (fun a b => ofInt (Int.xor (toInt a) (toInt b)))
  | _ => none

/-- The input channel a push opcode `'0'`..`'4'` names. -/
def ref_channel (c : Char) : Option Nat :=
  match c with
  | '0' => some 0
  | '1' => some 1
  | '2' => some 2
  | '3' => some 3
  | '4' => some 4
  | _ => none

/-- One opcode of the reference evaluator, on a stack held as a list with the
top first.  It fails when an operator does not find its operands, when a push
would make more than 16 values live, and on a character that is no opcode. -/
def ref_step (channel : Nat → Double) (c : Char) (st : List Double) : Option (List Double) :=
  match ref_channel c with
  | some k => if st.length < 16 then some (channel k :: st) else none
  | none =>
    match ref_binary c with
    | some f =>
      match st with
      | b :: a :: rest => some (f a b :: rest)
      | _ => none
    | none =>
      if c = 'P' then
        match st with
        | v :: rest => if st.length < 16 then some (v :: v :: rest) else none
        | [] => none
      else if c = 'i' then
        match st with
        | v :: rest => some (-v :: rest)
        | [] => none
      else if c = '!' then
        match st with
        | v :: rest => some (ofBool (isZero v) :: rest)
        | [] => none
      else none

/-- The reference evaluator: the opcodes of the expression in order. -/
def ref_eval (channel : Nat → Double) : List Char → List Double → Option (List Double)
  | [], st => some st
  | c :: cs, st =>
    match ref_step channel c st with
    | none => none
    | some st1 => ref_eval channel cs st1

/-- The opcodes that push a value: `'0'`..`'4'` and `'P'`. -/
def is_push_opcode (c : Char) : Bool :=
  c = '0' || c = '1' || c = '2' || c = '3' || c = '4' || c = 'P'

/-- The binary operators. -/
def is_binary_opcode (c : Char) : Bool :=
  c = '*' || c = '/' || c = '+' || c = '-' || c = '=' || c = '>' || c = '<' ||
    c = '&' || c = '|' || c = '^'

/-! ## Concrete nodes -/

/-- The node with the given values in its input slots (a slot past the end of
the list holds 0), the given output, context and custom block, and identifier
`NODE_00 + 0`. -/
def test_node {Context Custom : Type} (inputs : List Double) (output : Double)
    (context : Context) (custom : Custom) : node_description Context Custom :=
  { node := 0, input := fun i => inputs.getD i 0, active_inputs := inputs.length,
    output := output, context := context, custom := custom }

/-- The real value of an address input lies outside the interval `[0, size)`. -/
def address_outside (x : Double) (size : Int) : Prop :=
  ∀ q : ℚ, x = Double.fin q → q < 0 ∨ (size : ℚ) ≤ q

/-- The values in the cells `k, k-1, .., 1` of the stack array, highest first. -/
def cells_below (stack : Nat → Double) : Nat → List Double
  | 0 => []
  | k + 1 => stack (k + 1) :: cells_below stack k

/-- The state of the loop of `dst_transform_step` holds the operand stack `st`
of the reference evaluator: the top value is in `top`, the values under it are
in the cells `1 ..` of the array (cell 0 holds the initial `top`), and the
pointer is the number of values. -/
def represents (s : transform_state) : List Double → Prop
  | [] => s.trans_stack_ptr = 0
  | v :: rest =>
    s.top = v ∧ s.trans_stack_ptr = (rest.length : Int) + 1 ∧
      cells_below s.trans_stack rest.length = rest

/-- The number of push opcodes in a list of characters. -/
def push_count (l : List Char) : Nat := (l.filter is_push_opcode).length

/-- The number of binary operators in a list of characters. -/
def binary_count (l : List Char) : Nat := (l.filter is_binary_opcode).length

/-! ## The constants of `discrete.h` -/

/-- The integer constants of `discrete.h` that the functions below use. -/
structure discrete_h where
  DISC_LADDER_MAXRES : Int
  DISC_COMP_P_CAPACITOR : Int
  DISC_COMP_P_RESISTOR : Int
  DISC_MIXER_IS_RESISTOR : Int
  DISC_MIXER_IS_OP_AMP : Int
  DISC_MIXER_IS_OP_AMP_WITH_RI : Int
  DISC_OP_AMP_IS_NORTON : Int
  DISC_SAMPHOLD_REDGE : Int
  DISC_SAMPHOLD_FEDGE : Int
  DISC_SAMPHOLD_HLATCH : Int
  DISC_SAMPHOLD_LLATCH : Int
  DISC_ONESHOT_REDGE : Int
  DISC_ONESHOT_RETRIG : Int
  DISC_OUT_ACTIVE_LOW : Int
  DISC_OP_AMP_TRIGGER_FUNCTION_TRG0 : Int
  DISC_OP_AMP_TRIGGER_FUNCTION_TRG0_INV : Int
  DISC_OP_AMP_TRIGGER_FUNCTION_TRG1 : Int
  DISC_OP_AMP_TRIGGER_FUNCTION_TRG1_INV : Int
  DISC_OP_AMP_TRIGGER_FUNCTION_TRG2 : Int
  DISC_OP_AMP_TRIGGER_FUNCTION_TRG2_INV : Int
  DISC_OP_AMP_TRIGGER_FUNCTION_TRG01_AND : Int
  DISC_OP_AMP_TRIGGER_FUNCTION_TRG01_NAND : Int
  DISC_INTEGRATE_OP_AMP_1 : Int
  DISC_INTEGRATE_OP_AMP_2 : Int

/-- A choice of values for the constants, to evaluate the functions on concrete
nodes. -/
def test_discrete_h : discrete_h :=
  { DISC_LADDER_MAXRES := 8,
    DISC_COMP_P_CAPACITOR := 0, DISC_COMP_P_RESISTOR := 1,
    DISC_MIXER_IS_RESISTOR := 0, DISC_MIXER_IS_OP_AMP := 1, DISC_MIXER_IS_OP_AMP_WITH_RI := 2,
    DISC_OP_AMP_IS_NORTON := 1,
    DISC_SAMPHOLD_REDGE := 0, DISC_SAMPHOLD_FEDGE := 1, DISC_SAMPHOLD_HLATCH := 2,
    DISC_SAMPHOLD_LLATCH := 3,
    DISC_ONESHOT_REDGE := 1, DISC_ONESHOT_RETRIG := 2, DISC_OUT_ACTIVE_LOW := 4,
    DISC_OP_AMP_TRIGGER_FUNCTION_TRG0 := 1, DISC_OP_AMP_TRIGGER_FUNCTION_TRG0_INV := 2,
    DISC_OP_AMP_TRIGGER_FUNCTION_TRG1 := 3, DISC_OP_AMP_TRIGGER_FUNCTION_TRG1_INV := 4,
    DISC_OP_AMP_TRIGGER_FUNCTION_TRG2 := 5, DISC_OP_AMP_TRIGGER_FUNCTION_TRG2_INV := 6,
    DISC_OP_AMP_TRIGGER_FUNCTION_TRG01_AND := 7,
    DISC_OP_AMP_TRIGGER_FUNCTION_TRG01_NAND := 8,
    DISC_INTEGRATE_OP_AMP_1 := 0, DISC_INTEGRATE_OP_AMP_2 := 16 }

/-! ## DST_LOGIC_JKFF -/

/-- `dst_logic_jkff_step`: input 0 enable, 1 /Reset, 2 /Set, 3 clock, 4 J, 5 K. -/
def dst_logic_jkff_step (node : node_description dst_flipflop_context Unit)
    (log : List Diag) : node_description dst_flipflop_context Unit × List Diag :=
  let clk : Int := toInt (node.input 3)
  let j : Int := toInt (node.input 4)
  let k : Int := toInt (node.input 5)
  let node1 :=
    if truthy (node.input 0) then
      if isZero (node.input 1) then { node with output := 0 }
      else if isZero (node.input 2) then { node with output := 1 }
      else if node.context.last_clk ≠ 0 ∧ clk = 0 then
        if j = 0 then
          if k ≠ 0 then { node with output := 0 } else node
        else
          if k = 0 then { node with output := 1 }
          else { node with output := ofBool (decide (toInt node.output = 0)) }
      else node
    else { node with output := 0 }
  ({ node1 with context := { last_clk := clk } }, log)

/-! ## DST_ADDER, DST_GAIN, DST_CLAMP -/

/-- `dst_adder_step`: input 0 enable, inputs 1..4 the channels. -/
def dst_adder_step (node : node_description Unit Unit) (log : List Diag) :
    node_description Unit Unit × List Diag :=
  if truthy (node.input 0) then
    ({ node with output := node.input 1 + node.input 2 + node.input 3 + node.input 4 }, log)
  else
    ({ node with output := 0 }, log)

/-- `dst_gain_step`: input 0 enable, 1 input, 2 gain, 3 offset. -/
def dst_gain_step (node : node_description Unit Unit) (log : List Diag) :
    node_description Unit Unit × List Diag :=
  if truthy (node.input 0) then
    ({ node with output := node.input 1 * node.input 2 + node.input 3 }, log)
  else
    ({ node with output := 0 }, log)

/-- `dst_clamp_step`: input 0 enable, 1 input, 2 minimum, 3 maximum, 4 the
output when disabled. -/
def dst_clamp_step (node : node_description Unit Unit) (log : List Diag) :
    node_description Unit Unit × List Diag :=
  if truthy (node.input 0) then
    if Double.lt (node.input 1) (node.input 2) then ({ node with output := node.input 2 }, log)
    else if Double.gt (node.input 1) (node.input 3) then
      ({ node with output := node.input 3 }, log)
    else ({ node with output := node.input 1 }, log)
  else
    ({ node with output := node.input 4 }, log)

/-! ## The logic gates -/

/-- `dst_logic_inv_step`: input 0 enable, input 1 the input. -/
def dst_logic_inv_step (node : node_description Unit Unit) (log : List Diag) :
    node_description Unit Unit × List Diag :=
  if truthy (node.input 0) then
    ({ node with output := if truthy (node.input 1) then 0 else 1 }, log)
  else
    ({ node with output := 0 }, log)

/-- `dst_logic_and_step`: input 0 enable, inputs 1..4. -/
def dst_logic_and_step (node : node_description Unit Unit) (log : List Diag) :
    node_description Unit Unit × List Diag :=
  if truthy (node.input 0) then
    ({ node with output :=
        if truthy (node.input 1) && truthy (node.input 2) && truthy (node.input 3) &&
            truthy (node.input 4) then 1 else 0 }, log)
  else
    ({ node with output := 0 }, log)

/-- `dst_logic_nand_step`: input 0 enable, inputs 1..4. -/
def dst_logic_nand_step (node : node_description Unit Unit) (log : List Diag) :
    node_description Unit Unit × List Diag :=
  if truthy (node.input 0) then
    ({ node with output :=
        if truthy (node.input 1) && truthy (node.input 2) && truthy (node.input 3) &&
            truthy (node.input 4) then 0 else 1 }, log)
  else
    ({ node with output := 0 }, log)

/-- `dst_logic_or_step`: input 0 enable, inputs 1..4. -/
def dst_logic_or_step (node : node_description Unit Unit) (log : List Diag) :
    node_description Unit Unit × List Diag :=
  if truthy (node.input 0) then
    ({ node with output :=
        if truthy (node.input 1) || truthy (node.input 2) || truthy (node.input 3) ||
            truthy (node.input 4) then 1 else 0 }, log)
  else
    ({ node with output := 0 }, log)

/-- `dst_logic_nor_step`: input 0 enable, inputs 1..4. -/
def dst_logic_nor_step (node : node_description Unit Unit) (log : List Diag) :
    node_description Unit Unit × List Diag :=
  if truthy (node.input 0) then
    ({ node with output :=
        if truthy (node.input 1) || truthy (node.input 2) || truthy (node.input 3) ||
            truthy (node.input 4) then 0 else 1 }, log)
  else
    ({ node with output := 0 }, log)

/-- `dst_logic_xor_step`: input 0 enable, inputs 1 and 2. -/
def dst_logic_xor_step (node : node_description Unit Unit) (log : List Diag) :
    node_description Unit Unit × List Diag :=
  if truthy (node.input 0) then
    ({ node with output :=
        if (truthy (node.input 1) && !truthy (node.input 2)) ||
            (!truthy (node.input 1) && truthy (node.input 2)) then 1 else 0 }, log)
  else
    ({ node with output := 0 }, log)

/-- `dst_logic_nxor_step`: input 0 enable, inputs 1 and 2. -/
def dst_logic_nxor_step (node : node_description Unit Unit) (log : List Diag) :
    node_description Unit Unit × List Diag :=
  if truthy (node.input 0) then
    ({ node with output :=
        if (truthy (node.input 1) && !truthy (node.input 2)) ||
            (!truthy (node.input 1) && truthy (node.input 2)) then 0 else 1 }, log)
  else
    ({ node with output := 0 }, log)

/-! ## DST_SAMPHOLD -/

/-- The context of the sample and hold (`struct dst_samphold_context`). -/
structure dst_samphold_context where
  last_input : Double
  clocktype : Int

/-- `dst_samphold_step`: input 0 enable, 1 the signal, 2 the clock, 3 the clock
type.  The cases of the switch have distinct labels, so its cases are tried in
order. -/
def dst_samphold_step (h : discrete_h) (node : node_description dst_samphold_context Unit)
    (log : List Diag) : node_description dst_samphold_context Unit × List Diag :=
  let r : node_description dst_samphold_context Unit × List Diag :=
    if truthy (node.input 0) then
      if node.context.clocktype = h.DISC_SAMPHOLD_REDGE then
        (if Double.gt (node.input 2) node.context.last_input then
          { node with output := node.input 1 } else node, log)
      else if node.context.clocktype = h.DISC_SAMPHOLD_FEDGE then
        (if Double.lt (node.input 2) node.context.last_input then
          { node with output := node.input 1 } else node, log)
      else if node.context.clocktype = h.DISC_SAMPHOLD_HLATCH then
        (if truthy (node.input 2) then { node with output := node.input 1 } else node, log)
      else if node.context.clocktype = h.DISC_SAMPHOLD_LLATCH then
        (if isZero (node.input 2) then { node with output := node.input 1 } else node, log)
      else
        (node, log ++ [Diag.samphold_invalid_clocktype])
    else
      ({ node with output := 0 }, log)
  ({ r.1 with context := { r.1.context with last_input := node.input 2 } }, r.2)

/-- `dst_samphold_reset`. -/
def dst_samphold_reset (h : discrete_h) (node : node_description dst_samphold_context Unit)
    (log : List Diag) : node_description dst_samphold_context Unit × List Diag :=
  dst_samphold_step h
    { node with output := 0,
                context := { last_input := - 1, clocktype := toInt (node.input 3) } } log

/-! ## DSS_SWITCH, DSS_ASWITCH -/

/-- `dst_switch_step`: input 0 enable, 1 the switch position, 2 and 3 the
inputs. -/
def dst_switch_step (node : node_description Unit Unit) (log : List Diag) :
    node_description Unit Unit × List Diag :=
  if truthy (node.input 0) then
    ({ node with output := if truthy (node.input 1) then node.input 3 else node.input 2 }, log)
  else
    ({ node with output := 0 }, log)

/-- `dst_aswitch_step`: input 0 enable (the function tests `DSS_SWITCH__ENABLE`,
which is input 0 as well), 1 control, 2 input, 3 threshold. -/
def dst_aswitch_step (node : node_description Unit Unit) (log : List Diag) :
    node_description Unit Unit × List Diag :=
  if truthy (node.input 0) then
    ({ node with output :=
        if Double.gt (node.input 1) (node.input 3) then node.input 2 else 0 }, log)
  else
    ({ node with output := 0 }, log)

/-! ## Nodes over a field of exact values -/

section exact_values

variable {K : Type} [LinearOrderedField K] [FloorRing K]

/-- The conversion `(int)x` of a value of `K`: truncation toward zero, and
`INT_MIN` when the result does not fit in 32 bits (as `Double.toInt`). -/
def trunc32 (x : K) : Int :=
  if Double.INT_MIN ≤ (if 0 ≤ x then ⌊x⌋ else ⌈x⌉) ∧
      (if 0 ≤ x then ⌊x⌋ else ⌈x⌉) ≤ Double.INT_MAX then
    (if 0 ≤ x then ⌊x⌋ else ⌈x⌉)
  else Double.INT_MIN

end exact_values

/-- The fields of `node_description`, for a node whose values are in `K`. -/
structure node_description_over (K Context Custom : Type) where
  /-- The node's identifier, `node->node`. -/
  node : Int
  /-- The value each input slot points at on this tick, `*(node->input[i])`. -/
  input : Nat → K
  /-- The number of input slots wired for this node. -/
  active_inputs : Int
  /-- The node's output, `node->output[0]`. -/
  output : K
  context : Context
  custom : Custom

/-! ## DST_DAC_R1 -/

/-- The fields of `discrete_dac_r1_ladder` that `disc_mth.c` uses; `r bit` is
`r[bit]`.  The table `r` of the code has `DISC_LADDER_MAXRES` cells: for a
greater `bit` there is no `r[bit]`, and `r bit` stands for no value the code
is defined to read. -/
structure discrete_dac_r1_ladder (K : Type) where
  ladderLength : Int
  r : Nat → K
  vBias : K
  rBias : K
  rGnd : K
  cFilter : K

/-- The context of the DAC (`struct dst_dac_r1_context`). -/
structure dst_dac_r1_context (K : Type) where
  i_bias : K
  exponent : K
  r_total : K
  last_data : Int

section exact_values

variable {K : Type} [LinearOrderedField K] [FloorRing K]

/-- The body of the loop of `dst_dac_r1_step` for one `bit`: the new value of
`i_total`.  `von` is `DST_DAC_R1__VON`. -/
def dac_r1_step_bit (info : discrete_dac_r1_ladder K) (context : dst_dac_r1_context K)
    (von : K) (data : Int) (x_time : K) (i_total : K) (bit : Nat) : K :=
  if info.r bit ≠ 0 then
    i_total +
      (if x_time ≠ 0 ∧
          Int.land (Int.shiftRight data bit) 1 ≠
            Int.land (Int.shiftRight context.last_data bit) 1 then
        von / info.r bit *
          (if Int.land (Int.shiftRight data bit) 1 ≠ 0 then x_time else 1 - x_time)
      else if Int.land (Int.shiftRight data bit) 1 = 0 then 0
      else von / info.r bit)
  else i_total

/-- The voltage `v = i_total * context->r_total` that `dst_dac_r1_step` computes
when enabled.  `DST_DAC_R1__DATA` is `(int)(*(node->input[1]))`, so `data` and
`x_time = DST_DAC_R1__DATA - data` are both computed from the truncated input. -/
def dac_r1_voltage
    (node : node_description_over K (dst_dac_r1_context K) (discrete_dac_r1_ladder K)) : K :=
  (List.range node.custom.ladderLength.toNat).foldl
      (dac_r1_step_bit node.custom node.context (node.input 2) (trunc32 (node.input 1))
        (((trunc32 (node.input 1) - trunc32 (node.input 1) : Int) : K)))
      node.context.i_bias
    * node.context.r_total

/-- `dst_dac_r1_step`: input 0 enable, 1 the binary data, 2 the data-on
voltage.  When disabled nothing is written. -/
def dst_dac_r1_step
    (node : node_description_over K (dst_dac_r1_context K) (discrete_dac_r1_ladder K))
    (log : List Diag) :
    node_description_over K (dst_dac_r1_context K) (discrete_dac_r1_ladder K) × List Diag :=
  if node.input 0 ≠ 0 then
    ({ node with output :=
        if node.custom.cFilter ≠ 0 then
          node.output + (dac_r1_voltage node - node.output) * node.context.exponent
        else dac_r1_voltage node }, log)
  else
    (node, log)

/-- `dst_dac_r1_reset`; `exp` is the function of libm and `sample_rate` is
`discrete_current_context->sample_rate`. -/
def dst_dac_r1_reset (h : discrete_h) (exp : K → K) (sample_rate : K)
    (node : node_description_over K (dst_dac_r1_context K) (discrete_dac_r1_ladder K))
    (log : List Diag) :
    node_description_over K (dst_dac_r1_context K) (discrete_dac_r1_ladder K) × List Diag :=
  let info := node.custom
  let i_bias : K := if info.rBias ≠ 0 then info.vBias / info.rBias else 0
  let log1 := if info.ladderLength < 2 then log ++ [Diag.dac_r1_ladder_too_small] else log
  let log2 :=
    if info.ladderLength > h.DISC_LADDER_MAXRES then
      log1 ++ [Diag.dac_r1_ladder_exceeds_maxres]
    else log1
  let r_sum : K := (List.range info.ladderLength.toNat).foldl
    (fun r_total bit => if info.r bit ≠ 0 then r_total + 1 / info.r bit else r_total) 0
  let r_sum1 : K := if info.rBias ≠ 0 then r_sum + 1 / info.rBias else r_sum
  let r_sum2 : K := if info.rGnd ≠ 0 then r_sum1 + 1 / info.rGnd else r_sum1
  let r_total : K := 1 / r_sum2
  let exponent : K :=
    if info.cFilter ≠ 0 then 1 - exp ((-1) / (r_total * info.cFilter * sample_rate))
    else node.context.exponent
  ({ node with output := 0,
               context := { node.context with
                 i_bias := i_bias, r_total := r_total, exponent := exponent } }, log2)

end exact_values

/-! ## DST_MIXER -/

/-- The fields of `discrete_mixer_desc` that `disc_mth.c` uses; `r bit`,
`r_node bit` and `c bit` are `r[bit]`, `r_node[bit]` and `c[bit]`. -/
structure discrete_mixer_desc (K : Type) where
  type : Int
  r : Nat → K
  /-- The identifier of the node in series with `r[bit]`, 0 when there is none. -/
  r_node : Nat → Int
  c : Nat → K
  rI : K
  rF : K
  cF : K
  cAmp : K
  vRef : K
  gain : K

/-- The context of the mixer (`struct dst_mixer_context`).  A pointer
`r_node[bit]` to the output of a resistor node is the address of that output
among the outputs of the nodes, `none` for `NULL`. -/
structure dst_mixer_context (K : Type) where
  type : Int
  size : Int
  has_r_node : Int
  r_total : K
  r_node : Nat → Option Nat
  exponent_rc : Nat → K
  v_cap : Nat → K
  exponent_c_f : K
  exponent_c_amp : K
  v_cap_f : K
  v_cap_amp : K
  gain : K

/-- The local variables of `dst_mixer_step` that its loops update, with the
context. -/
structure mixer_step_state (K : Type) where
  /-- The total current of the inputs, `i`. -/
  i : K
  r_total : K
  rTemp2 : K
  context : dst_mixer_context K

/-- The local variables of `dst_mixer_reset` that its loop updates, with the
context. -/
structure mixer_reset_state (K : Type) where
  rTemp : K
  context : dst_mixer_context K

section exact_values

variable {K : Type} [LinearOrderedField K] [FloorRing K]

/-- The end of the body of both loops of `dst_mixer_step`, for a connected
input `bit` of resistance `rTemp`: the high pass filter of the input and its
current.  The code divides by `rTemp`: the definition is that of the code for
`rTemp` not 0. -/
def mixer_step_input (h : discrete_h) (info : discrete_mixer_desc K) (input : Nat → K)
    (rTemp : K) (s : mixer_step_state K) (bit : Nat) : mixer_step_state K :=
  if info.c bit ≠ 0 then
    { s with
      context := { s.context with
        v_cap := Function.update s.context.v_cap bit
          (s.context.v_cap bit +
            (input (bit + 1) - info.vRef - s.context.v_cap bit) * s.context.exponent_rc bit) },
      i := s.i +
        (if s.context.type = h.DISC_MIXER_IS_OP_AMP then
          info.vRef - (input (bit + 1) - (s.context.v_cap bit +
            (input (bit + 1) - info.vRef - s.context.v_cap bit) * s.context.exponent_rc bit))
        else
          input (bit + 1) - (s.context.v_cap bit +
            (input (bit + 1) - info.vRef - s.context.v_cap bit) * s.context.exponent_rc bit))
          / rTemp }
  else
    { s with
      i := s.i +
        (if s.context.type = h.DISC_MIXER_IS_OP_AMP then info.vRef - input (bit + 1)
          else input (bit + 1)) / rTemp }

/-- The value the switch on `context->type` gives `rTemp2` in `dst_mixer_step`
(and `rTemp` in `dst_mixer_reset`), for an input of resistance `rTemp`; `old` is
the value the variable keeps when no case applies. -/
def mixer_filter_resistance (h : discrete_h) (info : discrete_mixer_desc K) (type : Int)
    (rTemp old : K) : K :=
  if type = h.DISC_MIXER_IS_RESISTOR then
    if info.rF ≠ 0 then 1 / (1 / rTemp + 1 / info.rF) else rTemp
  else if type = h.DISC_MIXER_IS_OP_AMP then rTemp
  else if type = h.DISC_MIXER_IS_OP_AMP_WITH_RI then rTemp + info.rI
  else old

/-- The body of the first loop of `dst_mixer_step` (some input has a resistor
node).  `outputs` holds the outputs of the nodes, by address. -/
def mixer_step_r_node_bit (h : discrete_h) (exp : K → K) (sample_rate : K)
    (outputs : Nat → K) (info : discrete_mixer_desc K) (input : Nat → K)
    (s : mixer_step_state K) (bit : Nat) : mixer_step_state K :=
  match s.context.r_node bit with
  | none => mixer_step_input h info input (info.r bit) s bit
  | some p =>
    if outputs p = 0 then s
    else if info.c bit ≠ 0 then
      mixer_step_input h info input (info.r bit + outputs p)
        { s with
          r_total := s.r_total + 1 / (info.r bit + outputs p),
          rTemp2 := mixer_filter_resistance h info s.context.type
            (info.r bit + outputs p) s.rTemp2,
          context := { s.context with
            exponent_rc := Function.update s.context.exponent_rc bit
              (1 - exp ((-1) /
                (mixer_filter_resistance h info s.context.type (info.r bit + outputs p) s.rTemp2
                  * info.c bit * sample_rate))) } } bit
    else
      mixer_step_input h info input (info.r bit + outputs p)
        { s with r_total := s.r_total + 1 / (info.r bit + outputs p) } bit

/-- The body of the second loop of `dst_mixer_step` (no resistor nodes). -/
def mixer_step_bit (h : discrete_h) (info : discrete_mixer_desc K) (input : Nat → K)
    (s : mixer_step_state K) (bit : Nat) : mixer_step_state K :=
  mixer_step_input h info input (info.r bit) s bit

/-- The part of `dst_mixer_step` after the loops: from the current `i` and the
conductance `r_total` to the output and the context. -/
def mixer_step_finish (h : discrete_h) (exp : K → K) (sample_rate : K)
    (info : discrete_mixer_desc K) (s : mixer_step_state K) : K × dst_mixer_context K :=
  let i : K :=
    if s.context.type = h.DISC_MIXER_IS_OP_AMP_WITH_RI then s.i + info.vRef / info.rI else s.i
  let r_total : K := 1 / s.r_total
  let v0 : K := i * (if s.context.type = h.DISC_MIXER_IS_OP_AMP then info.rF else r_total)
  let v1 : K :=
    if s.context.type = h.DISC_MIXER_IS_OP_AMP_WITH_RI then
      info.vRef + s.context.gain * (info.vRef - v0)
    else v0
  let c1 : dst_mixer_context K :=
    if info.cF ≠ 0 then
      let e : K :=
        if s.context.has_r_node ≠ 0 then
          1 - exp ((-1) / (r_total * info.cF * sample_rate))
        else s.context.exponent_c_f
      { s.context with
        exponent_c_f := e,
        v_cap_f := s.context.v_cap_f + (v1 - info.vRef - s.context.v_cap_f) * e }
    else s.context
  let v2 : K := if info.cF ≠ 0 then c1.v_cap_f else v1
  let c2 : dst_mixer_context K :=
    if info.cAmp ≠ 0 then
      { c1 with v_cap_amp := c1.v_cap_amp + (v2 - c1.v_cap_amp) * c1.exponent_c_amp }
    else c1
  let v3 : K := if info.cAmp ≠ 0 then v2 - c2.v_cap_amp else v2
  (v3 * info.gain, c2)

/-- `dst_mixer_step`: input 0 enable, inputs 1.. the channels.  `outputs` holds
the outputs of the nodes, by address, for the resistor nodes. -/
def dst_mixer_step (h : discrete_h) (exp : K → K) (sample_rate : K) (outputs : Nat → K)
    (node : node_description_over K (dst_mixer_context K) (discrete_mixer_desc K))
    (log : List Diag) :
    node_description_over K (dst_mixer_context K) (discrete_mixer_desc K) × List Diag :=
  if node.input 0 ≠ 0 then
    let s0 : mixer_step_state K :=
      { i := 0, r_total := node.context.r_total, rTemp2 := 0, context := node.context }
    let s1 : mixer_step_state K :=
      if node.context.has_r_node ≠ 0 then
        (List.range node.context.size.toNat).foldl
          (mixer_step_r_node_bit h exp sample_rate outputs node.custom node.input) s0
      else
        (List.range node.context.size.toNat).foldl
          (mixer_step_bit h node.custom node.input) s0
    ({ node with
        output := (mixer_step_finish h exp sample_rate node.custom s1).1,
        context := (mixer_step_finish h exp sample_rate node.custom s1).2 }, log)
  else
    ({ node with output := 0 }, log)

/-- The body of the second loop of `dst_mixer_reset`, for one `bit`. -/
def mixer_reset_bit (h : discrete_h) (exp : K → K) (sample_rate : K)
    (info : discrete_mixer_desc K) (s : mixer_reset_state K) (bit : Nat) :
    mixer_reset_state K :=
  let r_total : K :=
    if info.r bit ≠ 0 ∧ info.r_node bit = 0 then s.context.r_total + 1 / info.r bit
    else s.context.r_total
  if info.c bit ≠ 0 ∧ info.r_node bit = 0 then
    { rTemp := mixer_filter_resistance h info s.context.type (info.r bit) s.rTemp,
      context := { s.context with
        r_total := r_total,
        v_cap := Function.update s.context.v_cap bit 0,
        exponent_rc := Function.update s.context.exponent_rc bit
          (1 - exp ((-1) /
            (mixer_filter_resistance h info s.context.type (info.r bit) s.rTemp
              * info.c bit * sample_rate))) } }
  else
    { rTemp := s.rTemp,
      context := { s.context with
        r_total := r_total,
        v_cap := Function.update s.context.v_cap bit 0,
        exponent_rc := Function.update s.context.exponent_rc bit 0 } }

/-- `dst_mixer_reset`.  `find_node id` stands for
`discrete_find_node(NULL, id)`: the address of the output
`r_node->output[NODE_CHILD_NODE_NUM(id)]` of the node found, `none` when there
is none. -/
def dst_mixer_reset (h : discrete_h) (exp : K → K) (sample_rate : K)
    (find_node : Int → Option Nat)
    (node : node_description_over K (dst_mixer_context K) (discrete_mixer_desc K))
    (log : List Diag) :
    node_description_over K (dst_mixer_context K) (discrete_mixer_desc K) × List Diag :=
  let info := node.custom
  let type : Int :=
    if info.type = h.DISC_MIXER_IS_OP_AMP ∧ info.rI ≠ 0 then h.DISC_MIXER_IS_OP_AMP_WITH_RI
    else info.type
  let c0 : dst_mixer_context K :=
    { node.context with
      has_r_node :=
        if ∃ bit ∈ List.range 8, (find_node (info.r_node bit)).isSome = true then 1 else 0,
      r_node := fun bit =>
        if bit < 8 then find_node (info.r_node bit) else node.context.r_node bit,
      size := node.active_inputs - 1,
      type := type,
      r_total := 0 }
  let s1 : mixer_reset_state K :=
    (List.range c0.size.toNat).foldl (mixer_reset_bit h exp sample_rate info)
      { rTemp := 0, context := c0 }
  let r_total1 : K :=
    if info.rF ≠ 0 ∧ type = h.DISC_MIXER_IS_RESISTOR then s1.context.r_total + 1 / info.rF
    else s1.context.r_total
  let r_total2 : K :=
    if type = h.DISC_MIXER_IS_OP_AMP_WITH_RI then r_total1 + 1 / info.rI else r_total1
  let exponent_c_f : K :=
    if info.cF ≠ 0 then
      1 - exp ((-1) /
        ((if info.type = h.DISC_MIXER_IS_OP_AMP then info.rF else 1 / r_total2)
          * info.cF * sample_rate))
    else 0
  let exponent_c_amp : K :=
    if info.cAmp ≠ 0 then 1 - exp ((-1) / (100000 * info.cAmp * sample_rate)) else 0
  ({ node with
      output := 0,
      context := { s1.context with
        r_total := r_total2,
        v_cap_f := 0,
        exponent_c_f := exponent_c_f,
        v_cap_amp := 0,
        exponent_c_amp := exponent_c_amp,
        gain :=
          if type = h.DISC_MIXER_IS_OP_AMP_WITH_RI then info.rF / info.rI
          else s1.context.gain } }, log)

end exact_values

/-! ## DST_COMP_ADDER -/

/-- The fields of `discrete_comp_adder_table` that `disc_mth.c` uses; `c bit`
is `c[bit]`. -/
structure discrete_comp_adder_table (K : Type) where
  type : Int
  cDefault : K
  length : Int
  c : Nat → K

section exact_values

variable {K : Type} [LinearOrderedField K] [FloorRing K]

/-- The test `DST_COMP_ADDER__SELECT & (1 << bit)` of `dst_comp_adder_step`. -/
def comp_adder_selected (select : Int) (bit : Nat) : Bool :=
  decide (Int.land select (2 ^ bit) ≠ 0)

/-- `dst_comp_adder_step`: input 0 enable, input 1 the bit select.  For a type
that is neither constant the switch has no case and the output is left as it
was.  For the resistors the code divides by each selected `c[bit]`: the
definition is that of the code for the tables whose selected components are not
0. -/
def dst_comp_adder_step (h : discrete_h)
    (node : node_description_over K Unit (discrete_comp_adder_table K)) (log : List Diag) :
    node_description_over K Unit (discrete_comp_adder_table K) × List Diag :=
  if node.input 0 ≠ 0 then
    if node.custom.type = h.DISC_COMP_P_CAPACITOR then
      ({ node with
        output :=
          (List.range node.custom.length.toNat).foldl
            (fun out bit =>
              if comp_adder_selected (trunc32 (node.input 1)) bit = true then
                out + node.custom.c bit
              else out)
            node.custom.cDefault }, log)
    else if node.custom.type = h.DISC_COMP_P_RESISTOR then
      ({ node with
        output :=
          if (List.range node.custom.length.toNat).foldl
              (fun out bit =>
                if comp_adder_selected (trunc32 (node.input 1)) bit = true then
                  out + 1 / node.custom.c bit
                else out)
              (if node.custom.cDefault ≠ 0 then 1 / node.custom.cDefault else 0) ≠ 0 then
            1 / (List.range node.custom.length.toNat).foldl
              (fun out bit =>
                if comp_adder_selected (trunc32 (node.input 1)) bit = true then
                  out + 1 / node.custom.c bit
                else out)
              (if node.custom.cDefault ≠ 0 then 1 / node.custom.cDefault else 0)
          else
            (List.range node.custom.length.toNat).foldl
              (fun out bit =>
                if comp_adder_selected (trunc32 (node.input 1)) bit = true then
                  out + 1 / node.custom.c bit
                else out)
              (if node.custom.cDefault ≠ 0 then 1 / node.custom.cDefault else 0) }, log)
    else
      (node, log)
  else
    ({ node with output := 0 }, log)

/-! ## DST_DIODE_MIX -/

/-- `dst_diode_mix_step`: input 0 enable, input 1 the junction voltage drop,
inputs 2.. the inputs; `vmax` is the variable `max`. -/
def dst_diode_mix_step (node : node_description_over K dst_size_context Unit)
    (log : List Diag) : node_description_over K dst_size_context Unit × List Diag :=
  if node.input 0 ≠ 0 then
    ({ node with
      output :=
        if (List.range node.context.size.toNat).foldl
            (fun vmax addr => if node.input (2 + addr) > vmax then node.input (2 + addr) else vmax)
            0 - node.input 1 < 0 then 0
        else
          (List.range node.context.size.toNat).foldl
            (fun vmax addr => if node.input (2 + addr) > vmax then node.input (2 + addr) else vmax)
            0 - node.input 1 }, log)
  else
    ({ node with output := 0 }, log)

end exact_values

/-! ## DST_OP_AMP -/

/-- The fields of `discrete_op_amp_info` that `dst_op_amp_step` and
`dst_op_amp_reset` use. -/
structure discrete_op_amp_info (K : Type) where
  type : Int
  r1 : K
  r2 : K
  r3 : K
  r4 : K
  c : K
  vN : K
  vP : K

/-- The context of the op-amp (`struct dst_op_amp_context`); the three flags are
of type `UINT8`. -/
structure dst_op_amp_context (K : Type) where
  has_cap : Nat
  has_r1 : Nat
  has_r4 : Nat
  v_max : K
  i_fixed : K
  v_cap : K
  exponent : K

/-! ## DST_RAMP -/

/-- The context of the ramp (`struct dss_ramp_context`). -/
structure dss_ramp_context (K : Type) where
  step : K
  dir : Int
  last_en : Int

section exact_values

variable {K : Type} [LinearOrderedField K] [FloorRing K]

/-- The output of the Norton op-amp before it is clamped, in
`dst_op_amp_step`; `vbe` is `OP_AMP_NORTON_VBE`. -/
def op_amp_norton_output (vbe : K) (info : discrete_op_amp_info K)
    (context : dst_op_amp_context K) (input : Nat → K) : K :=
  let i_neg : K :=
    (if context.has_r1 ≠ 0 then
      (if (input 1 - vbe) / info.r1 < 0 then 0 else (input 1 - vbe) / info.r1)
    else 0) + context.i_fixed
  let i_pos : K := if (input 2 - vbe) / info.r2 < 0 then 0 else (input 2 - vbe) / info.r2
  let i : K := i_pos - i_neg
  if context.has_cap ≠ 0 then
    if context.has_r4 ≠ 0 then
      context.v_cap + (i * info.r4 - context.v_cap) * context.exponent
    else
      context.v_cap + i / context.exponent
  else i * info.r4

/-- `dst_op_amp_step`: input 0 enable, inputs 1 and 2; `vbe` is
`OP_AMP_NORTON_VBE`. -/
def dst_op_amp_step (h : discrete_h) (vbe : K)
    (node : node_description_over K (dst_op_amp_context K) (discrete_op_amp_info K))
    (log : List Diag) :
    node_description_over K (dst_op_amp_context K) (discrete_op_amp_info K) × List Diag :=
  if node.input 0 ≠ 0 then
    if node.custom.type = h.DISC_OP_AMP_IS_NORTON then
      let out : K :=
        if op_amp_norton_output vbe node.custom node.context node.input > node.context.v_max then
          node.context.v_max
        else if op_amp_norton_output vbe node.custom node.context node.input < node.custom.vN then
          node.custom.vN
        else op_amp_norton_output vbe node.custom node.context node.input
      ({ node with output := out, context := { node.context with v_cap := out } }, log)
    else
      ({ node with output := 0 }, log)
  else
    ({ node with output := 0 }, log)

/-- `dst_ramp_step`: input 0 enable, 1 the direction switch, 2 the gradient,
3 the start value, 4 the end value, 5 the output when disabled. -/
def dst_ramp_step (node : node_description_over K (dss_ramp_context K) Unit)
    (log : List Diag) : node_description_over K (dss_ramp_context K) Unit × List Diag :=
  if node.input 0 ≠ 0 then
    let out0 : K := if node.context.last_en = 0 then node.input 3 else node.output
    let out1 : K :=
      if (if node.context.dir ≠ 0 then decide (node.input 1 ≠ 0)
          else decide (node.input 1 = 0)) = true then
        out0 + node.context.step
      else out0 - node.context.step
    let out2 : K :=
      if (if node.context.dir ≠ 0 then decide (out1 < node.input 3)
          else decide (out1 > node.input 3)) = true then
        node.input 3
      else out1
    let out3 : K :=
      if (if node.context.dir ≠ 0 then decide (out2 > node.input 4)
          else decide (out2 < node.input 4)) = true then
        node.input 4
      else out2
    ({ node with
        output := out3,
        context := { node.context with
          last_en := if node.context.last_en = 0 then 1 else node.context.last_en } }, log)
  else
    ({ node with output := node.input 5, context := { node.context with last_en := 0 } }, log)

end exact_values

/-! ## Concrete nodes over the rationals -/

/-- The node over the rationals with the given values in its input slots (a
slot past the end of the list holds 0), the given output, context and custom
block, and identifier `NODE_00 + 0`. -/
def test_node_over {Context Custom : Type} (inputs : List ℚ) (output : ℚ)
    (context : Context) (custom : Custom) : node_description_over ℚ Context Custom :=
  { node := 0, input := fun i => inputs.getD i 0, active_inputs := inputs.length,
    output := output, context := context, custom := custom }

/-! ## Runs of the JK flip-flop -/

/-- The node after one `dst_logic_jkff_step` per element of `ticks`, each
element giving the values of the input slots on that tick. -/
def jkff_run : List (Nat → Double) → node_description dst_flipflop_context Unit →
    node_description dst_flipflop_context Unit
  | [], node => node
  | tick :: rest, node => jkff_run rest (dst_logic_jkff_step { node with input := tick } []).1

/-- The number of falling edges in a sequence of clock values, as the flip-flop
reads them: the ticks on which the integer truncation of the previous clock,
`last`, is nonzero and the integer truncation of the current clock is 0. -/
def falling_edge_count : Int → List Double → Nat
  | _, [] => 0
  | last, clock :: rest =>
    (if last ≠ 0 ∧ toInt clock = 0 then 1 else 0) + falling_edge_count (toInt clock) rest

/-! ## Runs of the DAC -/

section exact_values

variable {K : Type} [LinearOrderedField K] [FloorRing K]

/-- The node after `n` calls of `dst_dac_r1_step`, the inputs being held. -/
def dac_r1_run : Nat →
    node_description_over K (dst_dac_r1_context K) (discrete_dac_r1_ladder K) →
    node_description_over K (dst_dac_r1_context K) (discrete_dac_r1_ladder K)
  | 0, node => node
  | n + 1, node => dac_r1_run n (dst_dac_r1_step node []).1

end exact_values

/-- A ladder of three resistors with a filter capacitor, over the rationals. -/
def test_dac_ladder : discrete_dac_r1_ladder ℚ :=
  { ladderLength := 3, r := fun bit => [1000, 2000, 4000].getD bit 0,
    vBias := 5, rBias := 10000, rGnd := 0, cFilter := 1 }

/-- A context of the DAC, over the rationals. -/
def test_dac_context : dst_dac_r1_context ℚ :=
  { i_bias := 0, exponent := 1 / 2, r_total := 500, last_data := 0 }

/-! ## Concrete mixers -/

/-- A mixer with input resistors of 1000 ohm, no resistor nodes, no capacitors,
`vRef = 0` and the gain 1, of the given type and with the given `rI` and `rF`. -/
def test_mixer_desc (type : Int) (rI rF : ℚ) : discrete_mixer_desc ℚ :=
  { type := type, r := fun _ => 1000, r_node := fun _ => 0, c := fun _ => 0,
    rI := rI, rF := rF, cF := 0, cAmp := 0, vRef := 0, gain := 1 }

/-- A context of the mixer, over the rationals, before its reset. -/
def test_mixer_context : dst_mixer_context ℚ :=
  { type := 7, size := 9, has_r_node := 3, r_total := 3, r_node := fun _ => some 1,
    exponent_rc := fun _ => 4, v_cap := fun _ => 3, exponent_c_f := 1, exponent_c_amp := 3,
    v_cap_f := 3, v_cap_amp := 2, gain := 3 }

/-! ## The ramp, from a given value -/

section exact_values

variable {K : Type} [LinearOrderedField K] [FloorRing K]

/-- The output of an enabled `dst_ramp_step` that continues from the value `v`:
`v` moved by `context->step` in the direction the inputs give, then clamped to
the START and END inputs. -/
def ramp_advance (context : dss_ramp_context K) (input : Nat → K) (v : K) : K :=
  let out1 : K :=
    if (if context.dir ≠ 0 then decide (input 1 ≠ 0) else decide (input 1 = 0)) = true then
      v + context.step
    else v - context.step
  let out2 : K :=
    if (if context.dir ≠ 0 then decide (out1 < input 3) else decide (out1 > input 3)) = true then
      input 3
    else out1
  if (if context.dir ≠ 0 then decide (out2 > input 4) else decide (out2 < input 4)) = true then
    input 4
  else out2

end exact_values

/-! ## DST_ONESHOT -/

/-- The context of the one-shot (`struct dst_oneshot_context`). -/
structure dst_oneshot_context (K : Type) where
  countdown : K
  state : Int
  last_trig : Int

section exact_values

variable {K : Type} [LinearOrderedField K] [FloorRing K]

/-- The part of `dst_oneshot_step` that looks for a trigger edge, when the
reset input is 0: the node after it and the value of `do_count` (which entered
as `context->state`).  `trigger` is `(DST_ONESHOT__TRIG != 0)` and `type` is
`DST_ONESHOT__TYPE`. -/
def oneshot_edge (h : discrete_h) (trigger type : Int)
    (node : node_description_over K (dst_oneshot_context K) Unit) :
    node_description_over K (dst_oneshot_context K) Unit × Int :=
  if trigger ≠ node.context.last_trig then
    if (if Int.land type h.DISC_ONESHOT_REDGE ≠ 0 then decide (trigger ≠ 0)
        else decide (trigger = 0)) = true then
      if node.context.state = 0 then
        ({ node with
            output := if Int.land type h.DISC_OUT_ACTIVE_LOW ≠ 0 then 0 else node.input 2,
            context := { countdown := node.input 3, state := 1, last_trig := trigger } },
          node.context.state)
      else if Int.land type h.DISC_ONESHOT_RETRIG ≠ 0 then
        ({ node with
            context := { node.context with last_trig := trigger, countdown := node.input 3 } },
          0)
      else
        ({ node with context := { node.context with last_trig := trigger } },
          node.context.state)
    else
      ({ node with context := { node.context with last_trig := trigger } }, node.context.state)
  else
    (node, node.context.state)

/-- The part of `dst_oneshot_step` that counts down, `if (do_count) ...`;
`sample_time` is `discrete_current_context->sample_time`.  The subtraction is
the exact one; `oneshot_count_with` has the subtraction of doubles, which rounds
its result, as a parameter. -/
def oneshot_count (h : discrete_h) (sample_time : K) (type do_count : Int)
    (node : node_description_over K (dst_oneshot_context K) Unit) :
    node_description_over K (dst_oneshot_context K) Unit :=
  if do_count ≠ 0 then
    if node.context.countdown - sample_time ≤ 0 then
      { node with
        output := if Int.land type h.DISC_OUT_ACTIVE_LOW ≠ 0 then node.input 2 else 0,
        context := { node.context with countdown := 0, state := 0 } }
    else
      { node with
        context := { node.context with countdown := node.context.countdown - sample_time } }
  else node

/-- `dst_oneshot_step`: input 0 reset, 1 trigger, 2 amplitude, 3 width of the
pulse, 4 type. -/
def dst_oneshot_step (h : discrete_h) (sample_time : K)
    (node : node_description_over K (dst_oneshot_context K) Unit) (log : List Diag) :
    node_description_over K (dst_oneshot_context K) Unit × List Diag :=
  if node.input 0 ≠ 0 then
    ({ node with output := 0, context := { node.context with state := 0 } }, log)
  else
    (oneshot_count h sample_time (trunc32 (node.input 4))
      (oneshot_edge h (if node.input 1 ≠ 0 then 1 else 0) (trunc32 (node.input 4)) node).2
      (oneshot_edge h (if node.input 1 ≠ 0 then 1 else 0) (trunc32 (node.input 4)) node).1, log)

/-- `dst_oneshot_reset`. -/
def dst_oneshot_reset (h : discrete_h)
    (node : node_description_over K (dst_oneshot_context K) Unit) (log : List Diag) :
    node_description_over K (dst_oneshot_context K) Unit × List Diag :=
  ({ node with
      output :=
        if Int.land (trunc32 (node.input 4)) h.DISC_OUT_ACTIVE_LOW ≠ 0 then node.input 2 else 0,
      context := { countdown := 0, state := 0, last_trig := 0 } }, log)

end exact_values

/-! ## The trigger function -/

/-- `dst_trigger_function`; `!x` is 1 when `x` is 0 and 0 otherwise, and
`x && y` is 1 when both are nonzero.  The cases of the switch have distinct
labels, so they are tried in order. -/
def dst_trigger_function (h : discrete_h) (trig0 trig1 trig2 function : Int) : Int :=
  if function = h.DISC_OP_AMP_TRIGGER_FUNCTION_TRG0 then trig0
  else if function = h.DISC_OP_AMP_TRIGGER_FUNCTION_TRG0_INV then (if trig0 = 0 then 1 else 0)
  else if function = h.DISC_OP_AMP_TRIGGER_FUNCTION_TRG1 then trig1
  else if function = h.DISC_OP_AMP_TRIGGER_FUNCTION_TRG1_INV then (if trig1 = 0 then 1 else 0)
  else if function = h.DISC_OP_AMP_TRIGGER_FUNCTION_TRG2 then trig2
  else if function = h.DISC_OP_AMP_TRIGGER_FUNCTION_TRG2_INV then (if trig2 = 0 then 1 else 0)
  else if function = h.DISC_OP_AMP_TRIGGER_FUNCTION_TRG01_AND then
    (if trig0 ≠ 0 ∧ trig1 ≠ 0 then 1 else 0)
  else if function = h.DISC_OP_AMP_TRIGGER_FUNCTION_TRG01_NAND then
    (if trig0 ≠ 0 ∧ trig1 ≠ 0 then 0 else 1)
  else 1

/-- The case labels of the switch of `dst_trigger_function`. -/
def trigger_function_labels (h : discrete_h) : List Int :=
  [h.DISC_OP_AMP_TRIGGER_FUNCTION_TRG0, h.DISC_OP_AMP_TRIGGER_FUNCTION_TRG0_INV,
    h.DISC_OP_AMP_TRIGGER_FUNCTION_TRG1, h.DISC_OP_AMP_TRIGGER_FUNCTION_TRG1_INV,
    h.DISC_OP_AMP_TRIGGER_FUNCTION_TRG2, h.DISC_OP_AMP_TRIGGER_FUNCTION_TRG2_INV,
    h.DISC_OP_AMP_TRIGGER_FUNCTION_TRG01_AND, h.DISC_OP_AMP_TRIGGER_FUNCTION_TRG01_NAND]

/-! ## The resets of the ramp and of the op-amp -/

section exact_values

variable {K : Type} [LinearOrderedField K] [FloorRing K]

/-- `dst_ramp_reset`.  `abs` is the function of `<stdlib.h>`, `int abs(int)`:
its argument `DST_RAMP__END - DST_RAMP__START` is converted to `int`, and its
result back to `double` for the comparison. -/
def dst_ramp_reset (sample_rate : K)
    (node : node_description_over K (dss_ramp_context K) Unit) (log : List Diag) :
    node_description_over K (dss_ramp_context K) Unit × List Diag :=
  ({ node with
      output := node.input 5,
      context :=
        { step := node.input 2 / sample_rate,
          dir :=
            if node.input 4 - node.input 3 =
                ((|trunc32 (node.input 4 - node.input 3)| : Int) : K) then 1 else 0,
          last_en := 0 } }, log)

/-- `dst_op_amp_reset`; `vbe` is `OP_AMP_NORTON_VBE`.  The function does not
write `node->output[0]`, and it writes `has_cap` and `exponent` only when
`c > 0` and `i_fixed` only when `r3 >= 0`. -/
def dst_op_amp_reset (vbe : K) (exp : K → K) (sample_rate : K)
    (node : node_description_over K (dst_op_amp_context K) (discrete_op_amp_info K))
    (log : List Diag) :
    node_description_over K (dst_op_amp_context K) (discrete_op_amp_info K) × List Diag :=
  let info := node.custom
  let has_r4 : Nat := if info.r4 > 0 then 1 else 0
  ({ node with
      context :=
        { has_r1 := if info.r1 > 0 then 1 else 0,
          has_r4 := has_r4,
          v_max := info.vP - vbe,
          v_cap := 0,
          has_cap := if info.c > 0 then 1 else node.context.has_cap,
          exponent :=
            if info.c > 0 then
              if has_r4 ≠ 0 then 1 - exp ((-1) / (info.r4 * info.c * sample_rate))
              else sample_rate * info.c
            else node.context.exponent,
          i_fixed :=
            if info.r3 ≥ 0 then (info.vP - vbe) / info.r3 else node.context.i_fixed } }, log)

end exact_values

/-! ## DST_OP_AMP_1SHT -/

/-- The fields of `discrete_op_amp_1sht_info` that `disc_mth.c` uses. -/
structure discrete_op_amp_1sht_info (K : Type) where
  r1 : K
  r2 : K
  r3 : K
  r4 : K
  r5 : K
  c1 : K
  c2 : K
  vN : K
  vP : K

/-- The context of the op-amp one-shot (`struct dst_op_amp_1sht_context`). -/
structure dst_op_amp_1sht_context (K : Type) where
  i_fixed : K
  v_max : K
  r34ratio : K
  v_cap1 : K
  v_cap2 : K
  exponent1c : K
  exponent1d : K
  exponent2 : K

section exact_values

variable {K : Type} [LinearOrderedField K] [FloorRing K]

/-- `dst_op_amp_1sht_step`: input 0 the trigger; `vbe` is `OP_AMP_NORTON_VBE`.
The current `i_pos` is computed from `node->output[0]` as the call finds it. -/
def dst_op_amp_1sht_step (vbe : K)
    (node : node_description_over K (dst_op_amp_1sht_context K) (discrete_op_amp_1sht_info K))
    (log : List Diag) :
    node_description_over K (dst_op_amp_1sht_context K) (discrete_op_amp_1sht_info K) ×
      List Diag :=
  let info := node.custom
  let context := node.context
  let i_pos : K := (node.input 0 - context.v_cap2) / info.r2 + node.output / info.r5
  let v_cap2 : K := context.v_cap2 + (node.input 0 - context.v_cap2) * context.exponent2
  let i_neg : K :=
    (if (context.v_cap1 - vbe) / info.r3 < 0 then 0 else (context.v_cap1 - vbe) / info.r3)
      + context.i_fixed
  let out : K := if i_pos > i_neg then context.v_max else info.vN
  let v : K := out + 6 / 10
  let v_cap1 : K :=
    if context.v_cap1 > out then
      if context.v_cap1 > v then v
      else context.v_cap1 + (out - context.v_cap1) * context.exponent1d
    else
      context.v_cap1 +
        ((out - vbe) * context.r34ratio + vbe - context.v_cap1) * context.exponent1c
  ({ node with
      output := out,
      context := { context with v_cap2 := v_cap2, v_cap1 := v_cap1 } }, log)

/-- `dst_op_amp_1sht_reset`.  The function does not write `node->output[0]`. -/
def dst_op_amp_1sht_reset (vbe : K) (exp : K → K) (sample_rate : K)
    (node : node_description_over K (dst_op_amp_1sht_context K) (discrete_op_amp_1sht_info K))
    (log : List Diag) :
    node_description_over K (dst_op_amp_1sht_context K) (discrete_op_amp_1sht_info K) ×
      List Diag :=
  let info := node.custom
  ({ node with
      context :=
        { exponent1c :=
            1 - exp ((-1) / ((1 / (1 / info.r3 + 1 / info.r4)) * info.c1 * sample_rate)),
          exponent1d := 1 - exp ((-1) / (info.r4 * info.c1 * sample_rate)),
          exponent2 := 1 - exp ((-1) / (info.r2 * info.c2 * sample_rate)),
          i_fixed := (info.vP - vbe) / info.r1,
          v_cap1 := 0,
          v_cap2 := 0,
          v_max := info.vP - vbe,
          r34ratio := info.r3 / (info.r3 + info.r4) } }, log)

/-! ## The mixer, over some of its inputs -/

/-- `dst_mixer_step` with its loop running over the inputs `bits` only, instead
of over every `bit` below `context->size`. -/
def mixer_step_on (bits : List Nat) (h : discrete_h) (exp : K → K) (sample_rate : K)
    (outputs : Nat → K)
    (node : node_description_over K (dst_mixer_context K) (discrete_mixer_desc K))
    (log : List Diag) :
    node_description_over K (dst_mixer_context K) (discrete_mixer_desc K) × List Diag :=
  if node.input 0 ≠ 0 then
    let s0 : mixer_step_state K :=
      { i := 0, r_total := node.context.r_total, rTemp2 := 0, context := node.context }
    let s1 : mixer_step_state K :=
      if node.context.has_r_node ≠ 0 then
        bits.foldl (mixer_step_r_node_bit h exp sample_rate outputs node.custom node.input) s0
      else
        bits.foldl (mixer_step_bit h node.custom node.input) s0
    ({ node with
        output := (mixer_step_finish h exp sample_rate node.custom s1).1,
        context := (mixer_step_finish h exp sample_rate node.custom s1).2 }, log)
  else
    ({ node with output := 0 }, log)

end exact_values

/-! ## Concrete nodes for the resets -/

/-- A one-shot circuit around a Norton op-amp, over the rationals: every
resistor 1 ohm, every capacitor 1 farad, supply from 0 to 10 volt. -/
def test_op_amp_1sht_info : discrete_op_amp_1sht_info ℚ :=
  { r1 := 1, r2 := 1, r3 := 1, r4 := 1, r5 := 1, c1 := 1, c2 := 1, vN := 0, vP := 10 }

/-- A context of the op-amp one-shot, over the rationals, before its reset. -/
def test_op_amp_1sht_context : dst_op_amp_1sht_context ℚ :=
  { i_fixed := 0, v_max := 0, r34ratio := 0, v_cap1 := 0, v_cap2 := 0,
    exponent1c := 0, exponent1d := 0, exponent2 := 0 }

/-- A Norton op-amp, over the rationals, whose type is 1. -/
def test_op_amp_info : discrete_op_amp_info ℚ :=
  { type := 1, r1 := 1, r2 := 1, r3 := 1, r4 := 1, c := 1, vN := 0, vP := 10 }

/-- A context of the op-amp, over the rationals, before its reset. -/
def test_op_amp_context : dst_op_amp_context ℚ :=
  { has_cap := 0, has_r1 := 0, has_r4 := 0, v_max := 0, i_fixed := 0, v_cap := 0,
    exponent := 0 }

/-- A context of the one-shot, over the rationals: idle, the trigger last seen
low. -/
def test_oneshot_context : dst_oneshot_context ℚ :=
  { countdown := 0, state := 0, last_trig := 0 }

/-- A mixer of two inputs of 1000 ohm, over the rationals, the first with the
resistor node 5 in series; no capacitors, `vRef = 0`, gain 1, of type
`DISC_MIXER_IS_RESISTOR` of `test_discrete_h`. -/
def test_r_node_mixer_desc : discrete_mixer_desc ℚ :=
  { type := 0, r := fun _ => 1000, r_node := fun bit => if bit = 0 then 5 else 0,
    c := fun _ => 0, rI := 0, rF := 0, cF := 0, cAmp := 0, vRef := 0, gain := 1 }

/-- The context of `test_r_node_mixer_desc` after its reset, when the output of
node 5 is at address 0. -/
def test_r_node_mixer_context : dst_mixer_context ℚ :=
  { type := 0, size := 2, has_r_node := 1, r_total := 1 / 1000,
    r_node := fun bit => if bit = 0 then some 0 else none,
    exponent_rc := fun _ => 0, v_cap := fun _ => 0, exponent_c_f := 0, exponent_c_amp := 0,
    v_cap_f := 0, v_cap_amp := 0, gain := 0 }

/-! ## Trigger edges of the one-shot -/

section exact_values

variable {K : Type} [LinearOrderedField K] [FloorRing K]

/-- The trigger level of a tick changes in the direction the type of the
one-shot configures: from 0 (the level `last_trig` of the tick before) to
nonzero when `DISC_ONESHOT_REDGE` is set in the type, from nonzero to 0
otherwise. -/
def oneshot_trigger_edge (h : discrete_h) (last_trig : Int) (input : Nat → K) : Prop :=
  if Int.land (trunc32 (input 4)) h.DISC_ONESHOT_REDGE ≠ 0 then last_trig = 0 ∧ input 1 ≠ 0
  else last_trig ≠ 0 ∧ input 1 = 0

/-- On every tick of `ticks` the reset input is 0 and the trigger level makes
no edge of the configured direction; `last_trig` is the level (0 or 1) of the
tick before the first. -/
def oneshot_quiet (h : discrete_h) : Int → List (Nat → K) → Prop
  | _, [] => True
  | last_trig, tick :: rest =>
    tick 0 = 0 ∧ ¬ oneshot_trigger_edge h last_trig tick ∧
      oneshot_quiet h (if tick 1 ≠ 0 then 1 else 0) rest

end exact_values

/-! ## DST_INTEGRATE -/

section exact_values

variable {K : Type} [LinearOrderedField K] [FloorRing K]

/-- `dst_diode_mix_reset`. -/
def dst_diode_mix_reset (node : node_description_over K dst_size_context Unit)
    (log : List Diag) : node_description_over K dst_size_context Unit × List Diag :=
  dst_diode_mix_step { node with context := { size := node.active_inputs - 2 } } log

/-- The divisors of the divisions that `dst_op_amp_reset` executes, in the
order of the source: `info->r4 * info->c * sample_rate` when `info->c > 0` and
`has_r4` is set, and `info->r3` when `info->r3 >= 0`. -/
def op_amp_reset_divisors (sample_rate : K) (info : discrete_op_amp_info K) : List K :=
  (if info.c > 0 ∧ info.r4 > 0 then [info.r4 * info.c * sample_rate] else []) ++
    (if info.r3 ≥ 0 then [info.r3] else [])

end exact_values

/-- The fields of `discrete_op_amp_tvca_info` that `disc_mth.c` uses. -/
structure discrete_op_amp_tvca_info (K : Type) where
  r1 : K
  r2 : K
  r3 : K
  r4 : K
  r5 : K
  r6 : K
  r7 : K
  r8 : K
  r9 : K
  r10 : K
  r11 : K
  c1 : K
  c2 : K
  c3 : K
  v1 : K
  v2 : K
  v3 : K
  vP : K
  f0 : Int
  f1 : Int
  f2 : Int
  f3 : Int
  f4 : Int
  f5 : Int

/-- The context of the triggered op-amp VCA (`struct dst_tvca_op_amp_context`).
The fields `v_trig`, `exponent_c`, `exponent_d`, `exponent2` and `exponent3` are
arrays of two elements: only the values at 0 and 1 are elements of them. -/
structure dst_tvca_op_amp_context (K : Type) where
  v_out_max : K
  v_trig : Nat → K
  v_trig2 : K
  v_trig3 : K
  i_fixed : K
  exponent_c : Nat → K
  exponent_d : Nat → K
  exponent2 : Nat → K
  exponent3 : Nat → K
  v_cap1 : K
  v_cap2 : K
  v_cap3 : K
  r67 : K

/-- The read `a[i]` of an array of two elements: `none` when the index is
neither 0 nor 1. -/
def tvca_read {K : Type} (a : Nat → K) (i : Int) : Option K :=
  if i = 0 ∨ i = 1 then some (a i.toNat) else none

section exact_values

variable {K : Type} [LinearOrderedField K] [FloorRing K]

/-- The result of `dst_trigger_function` for the three trigger inputs of the
node, truncated to integers, and the function `function`. -/
def tvca_trigger (h : discrete_h) (input : Nat → K) (function : Int) : Int :=
  dst_trigger_function h (trunc32 (input 0)) (trunc32 (input 1)) (trunc32 (input 2)) function

/-- The new value of `context->v_cap1` in `dst_tvca_op_amp_step`, "Update the c1
cap voltage"; `f2` and `f3` are the results of the trigger function for
`info->f2` and `info->f3`. -/
def tvca_v_cap1 (vbe : K) (context : dst_tvca_op_amp_context K) (f2 f3 : Int) : Option K :=
  if f2 ≠ 0 then
    (tvca_read context.v_trig f3).bind fun v =>
      (tvca_read context.exponent_c f3).map fun e =>
        context.v_cap1 + (v - context.v_cap1) * e
  else
    (tvca_read context.exponent_d f3).map fun e =>
      context.v_cap1 + ((if f3 ≠ 0 then vbe else 0) - context.v_cap1) * e

/-- The new value of `context->v_cap2`, "Update the c2 cap voltage and
current"; `f4` is the result of the trigger function for `info->f4`, which the
source assigns to the variable `f3`. -/
def tvca_v_cap2 (info : discrete_op_amp_tvca_info K) (context : dst_tvca_op_amp_context K)
    (f4 : Int) : Option K :=
  if info.r9 ≠ 0 then
    (tvca_read context.exponent2 f4).map fun e =>
      context.v_cap2 + ((if f4 ≠ 0 then context.v_trig2 else 0) - context.v_cap2) * e
  else some context.v_cap2

/-- The new value of `context->v_cap3`, "Update the c3 cap voltage and
current"; `f5` is the result of the trigger function for `info->f5`. -/
def tvca_v_cap3 (info : discrete_op_amp_tvca_info K) (context : dst_tvca_op_amp_context K)
    (f5 : Int) : Option K :=
  if info.r11 ≠ 0 then
    (tvca_read context.exponent3 f5).map fun e =>
      context.v_cap3 + ((if f5 ≠ 0 then context.v_trig3 else 0) - context.v_cap3) * e
  else some context.v_cap3

/-- The output of `dst_tvca_op_amp_step`, from the new voltages of the three
capacitors; `vbe` is `OP_AMP_NORTON_VBE`. -/
def tvca_output (h : discrete_h) (vbe : K)
    (node : node_description_over K (dst_tvca_op_amp_context K) (discrete_op_amp_tvca_info K))
    (v_cap1 v_cap2 v_cap3 : K) : K :=
  let info := node.custom
  let context := node.context
  let i2 : K :=
    if info.r2 ≠ 0 ∧ tvca_trigger h node.input info.f0 ≠ 0 then
      (if (node.input 3 - vbe) / info.r2 < 0 then 0 else (node.input 3 - vbe) / info.r2)
    else 0
  let i3 : K :=
    if info.r3 ≠ 0 ∧ tvca_trigger h node.input info.f1 ≠ 0 then
      (if (node.input 4 - vbe) / info.r3 < 0 then 0 else (node.input 4 - vbe) / info.r3)
    else 0
  let i_neg : K := context.i_fixed + i2 + i3
  let i_pos1 : K :=
    if (v_cap1 - vbe) / context.r67 < 0 ∨ tvca_trigger h node.input info.f3 = 0 then 0
    else (v_cap1 - vbe) / context.r67
  let i_pos2 : K := if info.r9 ≠ 0 then i_pos1 + v_cap2 / info.r9 else i_pos1
  let i_pos3 : K := if info.r11 ≠ 0 then i_pos2 + v_cap3 / info.r11 else i_pos2
  let i_out : K := if i_pos3 - i_neg < 0 then 0 else i_pos3 - i_neg
  if i_out * info.r4 > context.v_out_max then context.v_out_max else i_out * info.r4

/-- `dst_tvca_op_amp_step`: inputs 0, 1, 2 are the triggers, 3 and 4 the
inputs; `vbe` is `OP_AMP_NORTON_VBE`.  The three capacitors are updated in the
order of the source, each update reading its arrays at the result of the
trigger function. -/
def dst_tvca_op_amp_step (h : discrete_h) (vbe : K)
    (node : node_description_over K (dst_tvca_op_amp_context K) (discrete_op_amp_tvca_info K))
    (log : List Diag) :
    Option (node_description_over K (dst_tvca_op_amp_context K) (discrete_op_amp_tvca_info K)
      × List Diag) :=
  (tvca_v_cap1 vbe node.context (tvca_trigger h node.input node.custom.f2)
      (tvca_trigger h node.input node.custom.f3)).bind fun v_cap1 =>
    (tvca_v_cap2 node.custom node.context (tvca_trigger h node.input node.custom.f4)).bind
      fun v_cap2 =>
        (tvca_v_cap3 node.custom node.context
            (tvca_trigger h node.input node.custom.f5)).map
          fun v_cap3 =>
            ({ node with
                output := tvca_output h vbe node v_cap1 v_cap2 v_cap3,
                context := { node.context with
                  v_cap1 := v_cap1, v_cap2 := v_cap2, v_cap3 := v_cap3 } },
              log)

/-- The context that `dst_tvca_op_amp_reset` has set up when it calls the step.
`exponent_d[0]` is assigned only when `info->r6 != 0`. -/
def tvca_reset_context (vbe : K) (exp : K → K) (sample_rate : K)
    (info : discrete_op_amp_tvca_info K) (context : dst_tvca_op_amp_context K) :
    dst_tvca_op_amp_context K :=
  let r67 : K := info.r6 + info.r7
  { r67 := r67,
    v_out_max := info.vP - vbe,
    v_trig := fun i =>
      if i = 0 then (info.v1 - 6 / 10) * (info.r6 / (info.r6 + info.r5))
      else if i = 1 then (info.v1 - 6 / 10 - vbe) * (r67 / (r67 + info.r5)) + vbe
      else context.v_trig i,
    i_fixed := (info.vP - vbe) / info.r1,
    v_cap1 := 0,
    exponent_c := fun i =>
      if i = 0 then
        1 - exp ((-1) / ((1 / (1 / info.r5 + 1 / info.r6)) * info.c1 * sample_rate))
      else if i = 1 then
        1 - exp ((-1) / ((1 / (1 / info.r5 + 1 / r67)) * info.c1 * sample_rate))
      else context.exponent_c i,
    exponent_d := fun i =>
      if i = 1 then 1 - exp ((-1) / (r67 * info.c1 * sample_rate))
      else if i = 0 ∧ info.r6 ≠ 0 then 1 - exp ((-1) / (info.r6 * info.c1 * sample_rate))
      else context.exponent_d i,
    v_cap2 := 0,
    v_trig2 := (info.v2 - 6 / 10 - vbe) * (info.r9 / (info.r8 + info.r9)),
    exponent2 := fun i =>
      if i = 0 then 1 - exp ((-1) / (info.r9 * info.c2 * sample_rate))
      else if i = 1 then
        1 - exp ((-1) / ((1 / (1 / info.r8 + 1 / info.r9)) * info.c2 * sample_rate))
      else context.exponent2 i,
    v_cap3 := 0,
    v_trig3 := (info.v3 - 6 / 10 - vbe) * (info.r11 / (info.r10 + info.r11)),
    exponent3 := fun i =>
      if i = 0 then 1 - exp ((-1) / (info.r11 * info.c3 * sample_rate))
      else if i = 1 then
        1 - exp ((-1) / ((1 / (1 / info.r10 + 1 / info.r11)) * info.c3 * sample_rate))
      else context.exponent3 i }

/-- `dst_tvca_op_amp_reset`: the constants, then one step. -/
def dst_tvca_op_amp_reset (h : discrete_h) (vbe : K) (exp : K → K) (sample_rate : K)
    (node : node_description_over K (dst_tvca_op_amp_context K) (discrete_op_amp_tvca_info K))
    (log : List Diag) :
    Option (node_description_over K (dst_tvca_op_amp_context K) (discrete_op_amp_tvca_info K)
      × List Diag) :=
  dst_tvca_op_amp_step h vbe
    { node with context := tvca_reset_context vbe exp sample_rate node.custom node.context } log

end exact_values

/-- A triggered op-amp VCA, over the rationals: every component 1, the supply 10
volt, every function `DISC_OP_AMP_TRIGGER_FUNCTION_TRG0` of `test_discrete_h`. -/
def test_tvca_info : discrete_op_amp_tvca_info ℚ :=
  { r1 := 1, r2 := 1, r3 := 1, r4 := 1, r5 := 1, r6 := 1, r7 := 1, r8 := 1, r9 := 1,
    r10 := 1, r11 := 1, c1 := 1, c2 := 1, c3 := 1, v1 := 5, v2 := 5, v3 := 5, vP := 10,
    f0 := 1, f1 := 1, f2 := 1, f3 := 1, f4 := 1, f5 := 1 }

/-- A context of the triggered op-amp VCA, over the rationals. -/
def test_tvca_context : dst_tvca_op_amp_context ℚ :=
  { v_out_max := 9, v_trig := fun _ => 1, v_trig2 := 1, v_trig3 := 1, i_fixed := 0,
    exponent_c := fun _ => 1 / 2, exponent_d := fun _ => 1 / 2, exponent2 := fun _ => 1 / 2,
    exponent3 := fun _ => 1 / 2, v_cap1 := 0, v_cap2 := 0, v_cap3 := 0, r67 := 2 }

/-! ## The greatest input of the diode mixer -/

/-- The greatest of 0 and the inputs `in_0, ..., in_{size-1}` of the diode
mixer, which are in the slots `2, ..., size + 1`. -/
def diode_mix_max {K : Type} [LinearOrderedField K] (input : Nat → K) (size : Int) : K :=
  ((List.range size.toNat).map (fun addr => input (2 + addr))).foldl max 0

/-- A table of two components of the values 2 and 4 with the default 1, over
the rationals, of the given type. -/
def test_comp_adder_table (type : Int) : discrete_comp_adder_table ℚ :=
  { type := type, cDefault := 1, length := 2, c := fun bit => [2, 4].getD bit 0 }

/-! ## Charge constants -/

/-- A ladder of the one resistor 1024 with no bias, no ground resistor and no
filter capacitor, over the rationals. -/
def test_short_ladder : discrete_dac_r1_ladder ℚ :=
  { ladderLength := 1, r := fun bit => [1024].getD bit 0,
    vBias := 0, rBias := 0, rGnd := 0, cFilter := 0 }

/-! ## The subtraction of doubles in the one-shot -/

/-- The number of binary digits of `n`, for `n` below `2 ^ fuel`. -/
def bit_length : Nat → Nat → Nat
  | 0, _ => 0
  | fuel + 1, n => if n = 0 then 0 else bit_length fuel (n / 2) + 1

/-- The double nearest to the rational `q`, a tie going to the one with the even
significand (the rounding of IEEE 754 that the arithmetic of `double` uses), for
`q` in the range of the normal doubles: `|q|` is scaled by a power of two to a
number from `2^52` up to `2^53`, that number is rounded to an integer, and the
integer is scaled back. -/
def round_double (q : ℚ) : ℚ :=
  if q = 0 then 0
  else
    let n : Nat := q.num.natAbs
    let d : Nat := q.den
    let e0 : Int := (bit_length n n : Int) - (bit_length d d : Int)
    let e : Int :=
      if (if 0 ≤ e0 then decide (d * 2 ^ e0.toNat ≤ n)
          else decide (d ≤ n * 2 ^ (-e0).toNat)) = true then e0
      else e0 - 1
    let s : Int := 52 - e
    let num : Nat := if 0 ≤ s then n * 2 ^ s.toNat else n
    let den : Nat := if 0 ≤ s then d else d * 2 ^ (-s).toNat
    let f : Nat := num / den
    let r : Nat := num % den
    let m : Nat :=
      if 2 * r < den then f
      else if den < 2 * r then f + 1
      else if f % 2 = 0 then f
      else f + 1
    let v : ℚ := if 0 ≤ s then (m : ℚ) / 2 ^ s.toNat else (m : ℚ) * 2 ^ (-s).toNat
    if 0 ≤ q then v else -v

/-- The subtraction of two doubles: the exact difference, rounded. -/
def double_sub (a b : ℚ) : ℚ := round_double (a - b)

/-- The double nearest to 1/10, the sample time at the sample rate 10. -/
def double_tenth : ℚ := 3602879701896397 / 36028797018963968

section exact_values

variable {K : Type} [LinearOrderedField K] [FloorRing K]

/-- The part of `dst_oneshot_step` that counts down, `if (do_count) ...`, with
the subtraction of `context->countdown -= sample_time` as the parameter `sub`:
on doubles the result of that subtraction is rounded.  With the exact
subtraction this is `oneshot_count`. -/
def oneshot_count_with (sub : K → K → K) (h : discrete_h) (sample_time : K)
    (type do_count : Int) (node : node_description_over K (dst_oneshot_context K) Unit) :
    node_description_over K (dst_oneshot_context K) Unit :=
  if do_count ≠ 0 then
    if sub node.context.countdown sample_time ≤ 0 then
      { node with
        output := if Int.land type h.DISC_OUT_ACTIVE_LOW ≠ 0 then node.input 2 else 0,
        context := { node.context with countdown := 0, state := 0 } }
    else
      { node with
        context := { node.context with countdown := sub node.context.countdown sample_time } }
  else node

/-- `dst_oneshot_step` with the subtraction `sub` of the countdown: input 0
reset, 1 trigger, 2 amplitude, 3 width of the pulse, 4 type.  With the exact
subtraction this is `dst_oneshot_step`. -/
def dst_oneshot_step_with (sub : K → K → K) (h : discrete_h) (sample_time : K)
    (node : node_description_over K (dst_oneshot_context K) Unit) (log : List Diag) :
    node_description_over K (dst_oneshot_context K) Unit × List Diag :=
  if node.input 0 ≠ 0 then
    ({ node with output := 0, context := { node.context with state := 0 } }, log)
  else
    (oneshot_count_with sub h sample_time (trunc32 (node.input 4))
      (oneshot_edge h (if node.input 1 ≠ 0 then 1 else 0) (trunc32 (node.input 4)) node).2
      (oneshot_edge h (if node.input 1 ≠ 0 then 1 else 0) (trunc32 (node.input 4)) node).1, log)

/-- The node after one `dst_oneshot_step_with` per element of `ticks`, each
element giving the values of the input slots on that tick. -/
def oneshot_run_with (sub : K → K → K) (h : discrete_h) (sample_time : K) :
    List (Nat → K) →
    node_description_over K (dst_oneshot_context K) Unit →
    node_description_over K (dst_oneshot_context K) Unit
  | [], node => node
  | tick :: rest, node =>
    oneshot_run_with sub h sample_time rest
      (dst_oneshot_step_with sub h sample_time { node with input := tick } []).1

end exact_values

/-- The countdown `c` after `k` executions of `countdown -= sample_time`, `sub`
being the subtraction. -/
def countdown_after {K : Type} (sub : K → K → K) (sample_time : K) : Nat → K → K
  | 0, c => c
  | k + 1, c => countdown_after sub sample_time k (sub c sample_time)

/-! ## The mixer with a static resistor in the place of a resistor node -/

section exact_values

variable {K : Type} [LinearOrderedField K] [FloorRing K]

/-- The state of the loop of `dst_mixer_step` for the mixer that has, for its
input `i`, a static resistor and no resistor node, before the loop reaches `i`,
when `s` is the state for the mixer with the resistor node: the conductance `G`
of the input is in the totals from the start, and so is, when the input has a
capacitor, its charge constant `E`. -/
def mixer_series_before (info : discrete_mixer_desc K) (i : Nat) (G E : K)
    (s : mixer_step_state K) : mixer_step_state K :=
  { s with
    r_total := s.r_total + G,
    context := { s.context with
      r_total := s.context.r_total + G,
      r_node := Function.update s.context.r_node i none,
      exponent_rc := Function.update s.context.exponent_rc i
        (if info.c i ≠ 0 then E else s.context.exponent_rc i) } }

/-- The state of the loop of `dst_mixer_step` for the mixer that has, for its
input `i`, a static resistor and no resistor node, after the loop has passed
`i`, when `s` is the state for the mixer with the resistor node; `t` is the
value of the local variable `rTemp2`. -/
def mixer_series_after (i : Nat) (G t : K) (s : mixer_step_state K) : mixer_step_state K :=
  { s with
    rTemp2 := t,
    context := { s.context with
      r_total := s.context.r_total + G,
      r_node := Function.update s.context.r_node i none } }

end exact_values

/-- A mixer of two inputs of 1000 ohm, over the rationals, with the resistor
node 5 in series with the first and the resistor node 6 in series with the
second; no capacitors, `vRef = 0`, gain 1, of type `DISC_MIXER_IS_RESISTOR` of
`test_discrete_h`. -/
def test_two_r_node_mixer_desc : discrete_mixer_desc ℚ :=
  { type := 0, r := fun _ => 1000, r_node := fun bit => if bit = 0 then 5 else 6,
    c := fun _ => 0, rI := 0, rF := 0, cF := 0, cAmp := 0, vRef := 0, gain := 1 }

/-- The context of `test_two_r_node_mixer_desc` after its reset, when the output
of node 5 is at address 0 and that of node 6 at address 1. -/
def test_two_r_node_mixer_context : dst_mixer_context ℚ :=
  { type := 0, size := 2, has_r_node := 1, r_total := 0,
    r_node := fun bit => if bit = 0 then some 0 else some 1,
    exponent_rc := fun _ => 0, v_cap := fun _ => 0, exponent_c_f := 0, exponent_c_amp := 0,
    v_cap_f := 0, v_cap_amp := 0, gain := 0 }

/-! ## Charge constants in the arithmetic of doubles -/

namespace Double

theorem zero_def : (0 : Double) = fin 0 := by
  show fin ((0 : Nat) : ℚ) = fin 0
  simp

theorem one_def : (1 : Double) = fin 1 := by
  show fin ((1 : Nat) : ℚ) = fin 1
  simp

theorem isZero_iff (x : Double) : isZero x = true ↔ x = 0 := by
  cases x <;> simp [isZero, zero_def]

theorem isZero_eq_false_iff (x : Double) : isZero x = false ↔ x ≠ 0 := by
  cases x <;> simp [isZero, zero_def]

theorem truthy_iff (x : Double) : truthy x = true ↔ x ≠ 0 := by
  simp [truthy, isZero_eq_false_iff]

theorem truncQ_intCast (n : Int) : truncQ (n : ℚ) = n := by
  unfold truncQ
  split <;> simp

theorem toInt_ofInt (n : Int) (h1 : INT_MIN ≤ n) (h2 : n ≤ INT_MAX) : toInt (ofInt n) = n := by
  simp [toInt, ofInt, truncQ_intCast, h1, h2]

theorem toInt_one : toInt 1 = 1 := by
  have h := toInt_ofInt 1 (by decide) (by decide)
  simpa [ofInt, one_def] using h

theorem ge_eq_not_lt (a b : Double) (ha : a ≠ nan) (hb : b ≠ nan) : ge a b = !lt a b := by
  cases a <;> cases b <;> simp_all [ge, le, lt]
  rw [Bool.eq_iff_iff]
  simp

@[simp] theorem fin_add_fin (a b : ℚ) : fin a + fin b = fin (a + b) := rfl

@[simp] theorem fin_sub_fin (a b : ℚ) : fin a - fin b = fin (a - b) := by
  show add (fin a) (neg (fin b)) = fin (a - b)
  simp [add, neg, sub_eq_add_neg]

@[simp] theorem fin_mul_fin (a b : ℚ) : fin a * fin b = fin (a * b) := rfl

theorem fin_div_fin (a b : ℚ) (hb : b ≠ 0) : fin a / fin b = fin (a / b) := by
  show div (fin a) (fin b) = fin (a / b)
  simp [div, hb]

@[simp] theorem neg_fin (a : ℚ) : - fin a = fin (-a) := rfl

@[simp] theorem pinf_add_fin (a : ℚ) : pinf + fin a = pinf := rfl

theorem truncQ_neg_half : truncQ (-1 / 2) = 0 := by
  unfold truncQ
  rw [if_neg (by norm_num)]
  rw [Int.ceil_eq_iff]
  norm_num

theorem toInt_neg_half : toInt (fin (-1 / 2)) = 0 := by
  simp [toInt, truncQ_neg_half, INT_MIN, INT_MAX]

end Double



/-! ## DST_TRANSFORM: the loop and the reference evaluator -/

theorem cells_below_update (stack : Nat → Double) (i : Nat) (x : Double) (k : Nat) (h : k < i) :
    cells_below (Function.update stack i x) k = cells_below stack k := by
  induction k with
  | zero => rfl
  | succ n ih =>
    have hne : n + 1 ≠ i := by omega
    simp [cells_below, Function.update, hne, ih (by omega)]

theorem transform_case_of_channel (input : Nat → Double) (c : Char) (s : transform_state)
    (k : Nat) (h : ref_channel c = some k) :
    transform_case input c s = transform_load (input (k + 1)) s := by
  unfold ref_channel at h
  split at h <;> first | (cases h; rfl) | (simp at h)

theorem transform_case_of_binary (input : Nat → Double) (c : Char) (s : transform_state)
    (f : Double → Double → Double) (h : ref_binary c = some f) :
    transform_case input c s = transform_binary f s := by
  unfold ref_binary at h
  split at h <;> first | (cases h; rfl) | (simp at h)

theorem transform_load_represents (s : transform_state) (st : List Double) (v : Double)
    (hrep : represents s st) (hlen : st.length < 16) :
    ∃ s1, transform_load v s = some s1 ∧ represents s1 (v :: st) ∧ s1.log = s.log := by
  cases st with
  | nil =>
    have hp : s.trans_stack_ptr = 0 := hrep
    refine ⟨{ s with trans_stack := Function.update s.trans_stack 0 s.top,
                     trans_stack_ptr := 1, top := v }, ?_, ?_, rfl⟩
    · simp [transform_load, dst_transform_push, hp, MAX_TRANS_STACK]
    · exact ⟨rfl, rfl, rfl⟩
  | cons w rest =>
    obtain ⟨htop, hp, hcells⟩ := hrep
    have hlen2 : rest.length + 1 < 16 := by simpa using hlen
    have hnat : s.trans_stack_ptr.toNat = rest.length + 1 := by omega
    refine ⟨{ s with trans_stack := Function.update s.trans_stack (rest.length + 1) s.top,
                     trans_stack_ptr := (rest.length : Int) + 1 + 1, top := v }, ?_, ?_, rfl⟩
    · have hlt : (rest.length : Int) + 1 < MAX_TRANS_STACK := by
        unfold MAX_TRANS_STACK
        omega
      rw [hp] at hnat
      simp [transform_load, dst_transform_push, hlt, hnat, hp]
    · refine ⟨rfl, ?_, ?_⟩
      · simp
      · show cells_below _ (rest.length + 1) = w :: rest
        simp [cells_below, cells_below_update, htop, hcells]

theorem transform_binary_represents (s : transform_state) (a b : Double) (rest : List Double)
    (f : Double → Double → Double) (hrep : represents s (b :: a :: rest)) :
    ∃ s1, transform_binary f s = some s1 ∧ represents s1 (f a b :: rest) ∧ s1.log = s.log := by
  obtain ⟨htop, hp, hcells⟩ := hrep
  have hp2 : s.trans_stack_ptr = (rest.length : Int) + 1 + 1 := by simpa using hp
  have hcells2 : s.trans_stack (rest.length + 1) = a ∧
      cells_below s.trans_stack rest.length = rest := by
    have h : cells_below s.trans_stack (rest.length + 1) = a :: rest := hcells
    simpa [cells_below] using h
  have hnat : (s.trans_stack_ptr - 1).toNat = rest.length + 1 := by omega
  have hpos : s.trans_stack_ptr > 0 := by omega
  refine ⟨{ s with trans_stack_ptr := s.trans_stack_ptr - 1, top := f a b }, ?_, ?_, rfl⟩
  · simp [transform_binary, dst_transform_pop, hpos, hnat, hcells2.1, htop]
  · refine ⟨rfl, ?_, hcells2.2⟩
    show s.trans_stack_ptr - 1 = _
    omega

theorem ref_step_not_nul (channel : Nat → Double) (c : Char) (st st1 : List Double)
    (h : ref_step channel c st = some st1) : c.val ≠ 0 := by
  intro h0
  have hc : c = Char.ofNat 0 := Char.ext h0
  subst hc
  simp [ref_step, ref_channel, ref_binary] at h

theorem transform_case_represents (input : Nat → Double) (c : Char) (s : transform_state)
    (st st1 : List Double) (hrep : represents s st)
    (h : ref_step (fun k => input (k + 1)) c st = some st1) :
    ∃ s1, transform_case input c s = some s1 ∧ represents s1 st1 ∧ s1.log = s.log := by
  unfold ref_step at h
  cases hch : ref_channel c with
  | some k =>
    rw [hch] at h
    simp only at h
    split_ifs at h with hlen
    cases h
    rw [transform_case_of_channel input c s k hch]
    exact transform_load_represents s st _ hrep hlen
  | none =>
    rw [hch] at h
    simp only at h
    cases hbin : ref_binary c with
    | some f =>
      rw [hbin] at h
      simp only at h
      rw [transform_case_of_binary input c s f hbin]
      match st, hrep, h with
      | b :: a :: rest, hrep, h =>
        cases h
        exact transform_binary_represents s a b rest f hrep
    | none =>
      rw [hbin] at h
      simp only at h
      by_cases hP : c = 'P'
      · subst hP
        rw [if_pos rfl] at h
        cases st with
        | nil => simp at h
        | cons v rest =>
          simp only at h
          by_cases hlen : (v :: rest).length < 16
          · rw [if_pos hlen] at h
            cases h
            have hv : s.top = v := hrep.1
            have hcase : transform_case input 'P' s = transform_load s.top s := rfl
            rw [hcase, hv]
            exact transform_load_represents s (v :: rest) v hrep hlen
          · rw [if_neg hlen] at h
            cases h
      · rw [if_neg hP] at h
        by_cases hi : c = 'i'
        · subst hi
          rw [if_pos rfl] at h
          cases st with
          | nil => simp at h
          | cons v rest =>
            simp only at h
            cases h
            refine ⟨{ s with top := - s.top }, rfl, ?_, rfl⟩
            exact ⟨by rw [← hrep.1], hrep.2.1, hrep.2.2⟩
        · rw [if_neg hi] at h
          by_cases hn : c = '!'
          · subst hn
            rw [if_pos rfl] at h
            cases st with
            | nil => simp at h
            | cons v rest =>
              simp only at h
              cases h
              refine ⟨{ s with top := ofBool (isZero s.top) }, rfl, ?_, rfl⟩
              exact ⟨by rw [← hrep.1], hrep.2.1, hrep.2.2⟩
          · rw [if_neg hn] at h
            cases h

theorem transform_loop_represents (input : Nat → Double) (expr : List Char) :
    ∀ (s : transform_state) (st st1 : List Double), represents s st →
      ref_eval (fun k => input (k + 1)) expr st = some st1 →
      ∃ s1, transform_loop input expr s = some s1 ∧ represents s1 st1 ∧ s1.log = s.log := by
  induction expr with
  | nil =>
    intro s st st1 hrep h
    simp only [ref_eval] at h
    cases h
    exact ⟨s, rfl, hrep, rfl⟩
  | cons c cs ih =>
    intro s st st1 hrep h
    simp only [ref_eval] at h
    cases hstep : ref_step (fun k => input (k + 1)) c st with
    | none => simp [hstep] at h
    | some st2 =>
      rw [hstep] at h
      simp only at h
      obtain ⟨s2, hcase, hrep2, hlog2⟩ := transform_case_represents input c s st st2 hrep hstep
      obtain ⟨s3, hloop, hrep3, hlog3⟩ := ih s2 st2 st1 hrep2 h
      refine ⟨s3, ?_, hrep3, hlog3.trans hlog2⟩
      have hnul := ref_step_not_nul _ c st st2 hstep
      simp [transform_loop, hnul, hcase, hloop]

/-! ## DST_TRANSFORM: the stack pointer -/

theorem transform_binary_some (f : Double → Double → Double) (s s1 : transform_state)
    (h : transform_binary f s = some s1) :
    0 < s.trans_stack_ptr ∧ s1.trans_stack_ptr = s.trans_stack_ptr - 1 := by
  unfold transform_binary dst_transform_pop at h
  by_cases hp : s.trans_stack_ptr > 0
  · rw [if_pos hp] at h
    simp only [Option.some.injEq] at h
    subst h
    exact ⟨hp, rfl⟩
  · rw [if_neg hp] at h
    cases h

theorem transform_load_some (v : Double) (s s1 : transform_state)
    (h : transform_load v s = some s1) :
    s.trans_stack_ptr < 16 ∧ s1.trans_stack_ptr = s.trans_stack_ptr + 1 := by
  unfold transform_load dst_transform_push at h
  by_cases hp : s.trans_stack_ptr < MAX_TRANS_STACK
  · rw [if_pos hp] at h
    simp only [Option.some.injEq] at h
    subst h
    exact ⟨hp, rfl⟩
  · rw [if_neg hp] at h
    cases h

theorem transform_case_of_push (input : Nat → Double) (c : Char) (s : transform_state)
    (h : is_push_opcode c = true) :
    c.val ≠ 0 ∧ ∃ v, transform_case input c s = transform_load v s := by
  simp only [is_push_opcode, Bool.or_eq_true, decide_eq_true_eq] at h
  rcases h with ((((h | h) | h) | h) | h) | h <;> subst h <;> exact ⟨by decide, _, rfl⟩

theorem transform_case_of_binary_opcode (input : Nat → Double) (c : Char) (s : transform_state)
    (h : is_binary_opcode c = true) :
    c.val ≠ 0 ∧ ∃ f, transform_case input c s = transform_binary f s := by
  simp only [is_binary_opcode, Bool.or_eq_true, decide_eq_true_eq] at h
  have hf : c.val ≠ 0 ∧ ∃ f, ref_binary c = some f := by
    rcases h with ((((((((h | h) | h) | h) | h) | h) | h) | h) | h) | h <;> subst h <;>
      exact ⟨by decide, _, rfl⟩
  obtain ⟨h0, f, hf⟩ := hf
  exact ⟨h0, f, transform_case_of_binary input c s f hf⟩

theorem transform_case_of_other (input : Nat → Double) (c : Char) (s s1 : transform_state)
    (hpush : is_push_opcode c = false) (hbin : is_binary_opcode c = false)
    (h : transform_case input c s = some s1) :
    s1.trans_stack_ptr = s.trans_stack_ptr := by
  simp only [is_push_opcode, is_binary_opcode, Bool.or_eq_false_iff, decide_eq_false_iff_not]
    at hpush hbin
  unfold transform_case at h
  split at h
  all_goals first
    | (exfalso; simp_all; done)
    | (simp only [Option.some.injEq] at h; subst h; rfl)

theorem transform_case_pointer (input : Nat → Double) (c : Char) (s s1 : transform_state)
    (h : transform_case input c s = some s1) :
    (is_binary_opcode c = true → 0 < s.trans_stack_ptr) ∧
    (is_push_opcode c = true → s.trans_stack_ptr < 16) ∧
    s1.trans_stack_ptr = s.trans_stack_ptr + (if is_push_opcode c = true then 1 else 0)
      - (if is_binary_opcode c = true then 1 else 0) := by
  cases hpush : is_push_opcode c with
  | true =>
    have hbin : is_binary_opcode c = false := by
      simp only [is_push_opcode, Bool.or_eq_true, decide_eq_true_eq] at hpush
      rcases hpush with ((((h | h) | h) | h) | h) | h <;> subst h <;> decide
    obtain ⟨_, v, hv⟩ := transform_case_of_push input c s hpush
    rw [hv] at h
    obtain ⟨h1, h2⟩ := transform_load_some v s s1 h
    simp [hbin, h1, h2]
  | false =>
    cases hbin : is_binary_opcode c with
    | true =>
      obtain ⟨_, f, hf⟩ := transform_case_of_binary_opcode input c s hbin
      rw [hf] at h
      obtain ⟨h1, h2⟩ := transform_binary_some f s s1 h
      simp [h1, h2]
    | false =>
      have h1 := transform_case_of_other input c s s1 hpush hbin h
      simp [h1]

theorem transform_loop_pointer (input : Nat → Double) (expr : List Char) :
    ∀ (s s1 : transform_state), (∀ c ∈ expr, c.val ≠ 0) → 0 ≤ s.trans_stack_ptr →
      s.trans_stack_ptr ≤ 16 → transform_loop input expr s = some s1 →
      0 ≤ s1.trans_stack_ptr ∧ s1.trans_stack_ptr ≤ 16 ∧
      s1.trans_stack_ptr = s.trans_stack_ptr + push_count expr - binary_count expr := by
  induction expr with
  | nil =>
    intro s s1 _ h0 h16 h
    simp only [transform_loop, Option.some.injEq] at h
    subst h
    simp [push_count, binary_count, h0, h16]
  | cons c cs ih =>
    intro s s1 hnul h0 h16 h
    have hc : c.val ≠ 0 := hnul c (List.mem_cons_self _ _)
    simp only [transform_loop, if_neg hc] at h
    cases hcase : transform_case input c s with
    | none => simp [hcase] at h
    | some s2 =>
      rw [hcase] at h
      simp only at h
      obtain ⟨hb, hp, hd⟩ := transform_case_pointer input c s s2 hcase
      have h0' : 0 ≤ s2.trans_stack_ptr := by
        rw [hd]
        split_ifs with h1 h2 h2
        · omega
        · omega
        · have := hb h2
          omega
        · omega
      have h16' : s2.trans_stack_ptr ≤ 16 := by
        rw [hd]
        split_ifs with h1 h2 h2
        · have := hp h1
          omega
        · have := hp h1
          omega
        · omega
        · omega
      obtain ⟨r0, r16, rd⟩ := ih s2 s1 (fun x hx => hnul x (List.mem_cons_of_mem _ hx)) h0' h16' h
      refine ⟨r0, r16, ?_⟩
      rw [rd, hd]
      simp only [push_count, binary_count, List.filter_cons]
      split_ifs <;> simp <;> omega

theorem transform_loop_append (input : Nat → Double) (pre rest : List Char) :
    ∀ s : transform_state, (∀ c ∈ pre, c.val ≠ 0) →
      transform_loop input (pre ++ rest) s =
        (transform_loop input pre s).bind (transform_loop input rest) := by
  induction pre with
  | nil =>
    intro s _
    rfl
  | cons c cs ih =>
    intro s hnul
    have hc : c.val ≠ 0 := hnul c (List.mem_cons_self _ _)
    simp only [List.cons_append, transform_loop, if_neg hc]
    cases hcase : transform_case input c s with
    | none => rfl
    | some s2 => exact ih s2 (fun x hx => hnul x (List.mem_cons_of_mem _ hx))

/-! ## DST_DIVIDE -/

/-- C1: an enabled `dst_divide_step` with divisor 0 sets the output to `DBL_MAX`
and logs exactly one diagnostic; with a nonzero divisor it sets the output to
`IN / DIV` and logs nothing.  The step always returns (it is a total function),
and a following enabled step with a nonzero divisor yields the plain quotient. -/
theorem dst_divide_step_divisor (node : node_description Unit Unit) (log : List Diag)
    (henable : node.input 0 ≠ 0) :
    (node.input 2 = 0 →
      (dst_divide_step node log).1.output = DBL_MAX ∧
      (dst_divide_step node log).2 = log ++ [Diag.divide_by_zero node.node]) ∧
    (node.input 2 ≠ 0 →
      (dst_divide_step node log).1.output = node.input 1 / node.input 2 ∧
      (dst_divide_step node log).2 = log) ∧
    (∀ next : Nat → Double, next 0 ≠ 0 → next 2 ≠ 0 →
      (dst_divide_step { (dst_divide_step node log).1 with input := next }
        (dst_divide_step node log).2).1.output = next 1 / next 2) := by
  have hen : truthy (node.input 0) = true := (Double.truthy_iff _).2 henable
  refine ⟨?_, ?_, ?_⟩
  · intro h
    have hz : isZero (node.input 2) = true := (Double.isZero_iff _).2 h
    simp [dst_divide_step, hen, hz]
  · intro h
    have hz : isZero (node.input 2) = false := (Double.isZero_eq_false_iff _).2 h
    simp [dst_divide_step, hen, hz]
  · intro next h0 h2
    have hen2 : truthy (next 0) = true := (Double.truthy_iff _).2 h0
    have hz : isZero (next 2) = false := (Double.isZero_eq_false_iff _).2 h2
    simp [dst_divide_step, hen2, hz]

/-- Witness of C1: enable 1, dividend 6, divisor 0 gives `DBL_MAX` and one
diagnostic. -/
theorem dst_divide_step_divisor_witness :
    (dst_divide_step (test_node [1, 6, 0] 0 () ()) []).1.output = DBL_MAX ∧
    (dst_divide_step (test_node [1, 6, 0] 0 () ()) []).2 = [Diag.divide_by_zero 0] :=
  (dst_divide_step_divisor (test_node [1, 6, 0] 0 () ()) [] (by decide)).1 (by decide)

/-! ## DST_MULTIPLEX -/

/-- C2, as stated, fails: with one data input (size 1) the address -0.5 lies
outside `[0, 1)`, yet it truncates to 0, so the step selects data input 0
(output 5, not the previous 9) and logs nothing. -/
theorem dst_multiplex_step_real_address_counterexample :
    truthy ((test_node [1, Double.fin (-1 / 2), 5] 9 (dst_size_context.mk 1) ()).input 0) = true ∧
    address_outside
      ((test_node [1, Double.fin (-1 / 2), 5] 9 (dst_size_context.mk 1) ()).input 1) 1 ∧
    (dst_multiplex_step
      (test_node [1, Double.fin (-1 / 2), 5] 9 (dst_size_context.mk 1) ()) []).1.output = 5 ∧
    (5 : Double) ≠ 9 ∧
    (dst_multiplex_step
      (test_node [1, Double.fin (-1 / 2), 5] 9 (dst_size_context.mk 1) ()) []).2 = [] := by
  refine ⟨by decide, ?_, ?_, by decide, ?_⟩
  · intro q hq
    have h : q = -1 / 2 := by
      have h1 : Double.fin (-1 / 2) = Double.fin q := hq
      injection h1 with h2
      exact h2.symm
    left
    rw [h]
    norm_num
  · simp [dst_multiplex_step, test_node, Double.toInt_neg_half]
    decide
  · simp [dst_multiplex_step, test_node, Double.toInt_neg_half]
    decide

/-- C2, amended: for an enabled `dst_multiplex_step` whose address, truncated to
an integer `a`, lies outside `[0, size)`, the node is left as it was (the output
keeps its value) and exactly one diagnostic is logged; and
`dst_multiplex_reset` sets `size` to `active_inputs - 2`. -/
theorem dst_multiplex_step_out_of_bounds (node : node_description dst_size_context Unit)
    (log : List Diag) (henable : node.input 0 ≠ 0)
    (hout : toInt (node.input 1) < 0 ∨ node.context.size ≤ toInt (node.input 1)) :
    (dst_multiplex_step node log).1.output = node.output ∧
    (dst_multiplex_step node log).1 = node ∧
    (dst_multiplex_step node log).2 =
      log ++ [Diag.multiplex_out_of_bounds node.node (toInt (node.input 1))] ∧
    (dst_multiplex_reset node log).1.context.size = node.active_inputs - 2 := by
  have hen : truthy (node.input 0) = true := (Double.truthy_iff _).2 henable
  have hcond : ¬ (toInt (node.input 1) ≥ 0 ∧ toInt (node.input 1) < node.context.size) := by
    omega
  have hreset : (dst_multiplex_reset node log).1.context.size = node.active_inputs - 2 := by
    simp only [dst_multiplex_reset, dst_multiplex_step]
    split_ifs <;> rfl
  refine ⟨?_, ?_, ?_, hreset⟩ <;> simp [dst_multiplex_step, hen, hcond]

/-- Witness of C2 (amended): enable 1, address 3, one data input. -/
theorem dst_multiplex_step_out_of_bounds_witness :
    (dst_multiplex_step (test_node [1, 3, 5] 9 (dst_size_context.mk 1) ()) []).1.output = 9 ∧
    (dst_multiplex_step (test_node [1, 3, 5] 9 (dst_size_context.mk 1) ()) []).2 =
      [Diag.multiplex_out_of_bounds 0 3] := by
  have h := dst_multiplex_step_out_of_bounds
    (test_node [1, 3, 5] 9 (dst_size_context.mk 1) ()) [] (by decide) (by decide)
  have h3 : toInt ((test_node [1, 3, 5] 9 (dst_size_context.mk 1) ()).input 1) = 3 := by decide
  rw [h3] at h
  exact ⟨h.1, h.2.2.1⟩

/-- C3: for an enabled `dst_multiplex_step` whose address truncates to an integer
`a` with `0 <= a < size`, the output becomes the value of input slot `2 + a`,
nothing else in the node changes, and no diagnostic is logged. -/
theorem dst_multiplex_step_in_bounds (node : node_description dst_size_context Unit)
    (log : List Diag) (henable : node.input 0 ≠ 0)
    (hlo : 0 ≤ toInt (node.input 1)) (hhi : toInt (node.input 1) < node.context.size) :
    (dst_multiplex_step node log).1.output = node.input (2 + toInt (node.input 1)).toNat ∧
    ((2 + toInt (node.input 1)).toNat : Int) = 2 + toInt (node.input 1) ∧
    (dst_multiplex_step node log).1 =
      { node with output := node.input (2 + toInt (node.input 1)).toNat } ∧
    (dst_multiplex_step node log).2 = log := by
  have hen : truthy (node.input 0) = true := (Double.truthy_iff _).2 henable
  have hcond : toInt (node.input 1) ≥ 0 ∧ toInt (node.input 1) < node.context.size := ⟨hlo, hhi⟩
  refine ⟨?_, by omega, ?_, ?_⟩ <;> simp [dst_multiplex_step, hen, hcond]

/-- Witness of C3: enable 1, address 1.0, data inputs 5 and 8: the output is 8. -/
theorem dst_multiplex_step_in_bounds_witness :
    (dst_multiplex_step (test_node [1, 1, 5, 8] 9 (dst_size_context.mk 2) ()) []).1.output = 8 ∧
    (dst_multiplex_step (test_node [1, 1, 5, 8] 9 (dst_size_context.mk 2) ()) []).2 = [] := by
  have h := dst_multiplex_step_in_bounds
    (test_node [1, 1, 5, 8] 9 (dst_size_context.mk 2) ()) [] (by decide) (by decide) (by decide)
  refine ⟨h.1.trans (by decide), h.2.2.2⟩

/-! ## DST_LOOKUP_TABLE -/

/-- C4: for a table size that is a number (the size input is not NaN), the output
of `dst_lookup_table_step` is `table[a]`, `a` the integer truncation of the input,
when enable is nonzero and `0 <= a < size`, and 0 in every other case; and no
element of the table at an index outside `[0, size)` is read: the step yields the
same result for every table with the same elements at the indices in `[0, size)`. -/
theorem dst_lookup_table_step_output (node : node_description Unit (Int → Double))
    (log : List Diag) (hsize : node.input 2 ≠ Double.nan) :
    (dst_lookup_table_step node log).1.output =
      (if node.input 0 ≠ 0 ∧ 0 ≤ toInt (node.input 1) ∧
          Double.lt (ofInt (toInt (node.input 1))) (node.input 2) = true
        then node.custom (toInt (node.input 1)) else 0) ∧
    (∀ table : Int → Double,
      (∀ i : Int, 0 ≤ i → Double.lt (ofInt i) (node.input 2) = true → table i = node.custom i) →
      (dst_lookup_table_step { node with custom := table } log).1.output =
        (dst_lookup_table_step node log).1.output) := by
  have hge : Double.ge (ofInt (toInt (node.input 1))) (node.input 2) =
      !Double.lt (ofInt (toInt (node.input 1))) (node.input 2) :=
    Double.ge_eq_not_lt _ _ (by simp [ofInt]) hsize
  have hout : ∀ table : Int → Double,
      (dst_lookup_table_step { node with custom := table } log).1.output =
        (if node.input 0 ≠ 0 ∧ 0 ≤ toInt (node.input 1) ∧
            Double.lt (ofInt (toInt (node.input 1))) (node.input 2) = true
          then table (toInt (node.input 1)) else 0) := by
    intro table
    simp only [dst_lookup_table_step, hge]
    by_cases hen : node.input 0 = 0
    · have ht : truthy (node.input 0) = false := by
        rw [← Bool.not_eq_true, Double.truthy_iff]
        simpa using hen
      simp only [ht]
      simp [hen]
    · have ht : truthy (node.input 0) = true := (Double.truthy_iff _).2 hen
      by_cases hlo : toInt (node.input 1) < 0
      · have hlo2 : ¬ 0 ≤ toInt (node.input 1) := by omega
        simp [ht, hlo, hlo2]
      · have hlo2 : 0 ≤ toInt (node.input 1) := by omega
        cases hlt : Double.lt (ofInt (toInt (node.input 1))) (node.input 2) <;>
          simp [ht, hen, hlo, hlo2]
  refine ⟨hout node.custom, ?_⟩
  intro table htable
  rw [hout table, hout node.custom]
  split_ifs with h
  · exact htable _ h.2.1 h.2.2
  · rfl

/-- Witness of C4: enable 1, address 2.0, size 4, table `i ↦ i + 10`: output 12. -/
theorem dst_lookup_table_step_output_witness :
    (dst_lookup_table_step (test_node [1, 2, 4] 0 () (fun i => ofInt (i + 10))) []).1.output =
      ofInt 12 := by
  have h := (dst_lookup_table_step_output
    (test_node [1, 2, 4] 0 () (fun i => ofInt (i + 10))) [] (by decide)).1
  rw [h]
  decide

/-- C5, as stated, fails: an enabled lookup with the address -1 (out of range
for a table of size 4) leaves the diagnostic log empty. -/
theorem dst_lookup_table_step_diagnostic_counterexample :
    truthy ((test_node [1, Double.fin (-1), 4] 0 () (fun i => ofInt (i + 10))).input 0) = true ∧
    toInt ((test_node [1, Double.fin (-1), 4] 0 () (fun i => ofInt (i + 10))).input 1) < 0 ∧
    (dst_lookup_table_step
      (test_node [1, Double.fin (-1), 4] 0 () (fun i => ofInt (i + 10))) []).2 = [] := by
  refine ⟨by decide, by decide, rfl⟩

/-- C5, amended: an enabled `dst_lookup_table_step` whose address is out of range
(`a < 0` or `a >= size`) logs no diagnostic: the log is left as it was, and the
output is 0. -/
theorem dst_lookup_table_step_no_diagnostic (node : node_description Unit (Int → Double))
    (log : List Diag) (henable : node.input 0 ≠ 0)
    (hout : toInt (node.input 1) < 0 ∨
      Double.ge (ofInt (toInt (node.input 1))) (node.input 2) = true) :
    (dst_lookup_table_step node log).2 = log ∧
    (dst_lookup_table_step node log).1.output = 0 := by
  have hen : truthy (node.input 0) = true := (Double.truthy_iff _).2 henable
  simp only [dst_lookup_table_step]
  rcases hout with h | h
  · simp [hen, h]
  · simp [hen, h]

/-- Witness of C5 (amended): enable 1, address 7, size 4. -/
theorem dst_lookup_table_step_no_diagnostic_witness :
    (dst_lookup_table_step
      (test_node [1, 7, 4] 3 () (fun i => ofInt (i + 10))) [Diag.transform_invalid_function]).2 =
      [Diag.transform_invalid_function] ∧
    (dst_lookup_table_step
      (test_node [1, 7, 4] 3 () (fun i => ofInt (i + 10))) [Diag.transform_invalid_function]).1.output
      = 0 :=
  dst_lookup_table_step_no_diagnostic (test_node [1, 7, 4] 3 () (fun i => ofInt (i + 10)))
    [Diag.transform_invalid_function] (by decide) (Or.inr (by decide))


/-! ## DST_TRANSFORM: the claims -/

/-- C6: for an enabled `dst_transform_step`, whenever the reference stack
evaluator (a binary operator computes `(second-from-top) op (top)`; it fails if
an operator misses an operand, if more than 16 values would be live, or on a
character that is no opcode) evaluates the expression to a stack with top `v`,
the step returns with output `v` and logs nothing.  In particular "01+" yields
`in0 + in1` (7 for the inputs 3 and 4), "01-" yields `in0 - in1`, "01/" yields
`in0 / in1`, and "0!" yields 1 when `in0 = 0` and 0 otherwise. -/
theorem dst_transform_step_refines_reference (node : node_description Unit (List Char))
    (log : List Diag) (henable : node.input 0 ≠ 0) :
    (∀ (v : Double) (rest : List Double),
      ref_eval (fun k => node.input (k + 1)) node.custom [] = some (v :: rest) →
      dst_transform_step node log = some ({ node with output := v }, log)) ∧
    (node.custom = ['0', '1', '+'] →
      dst_transform_step node log =
        some ({ node with output := node.input 1 + node.input 2 }, log)) ∧
    (node.custom = ['0', '1', '+'] → node.input 1 = 3 → node.input 2 = 4 →
      dst_transform_step node log = some ({ node with output := 7 }, log)) ∧
    (node.custom = ['0', '1', '-'] →
      dst_transform_step node log =
        some ({ node with output := node.input 1 - node.input 2 }, log)) ∧
    (node.custom = ['0', '1', '/'] →
      dst_transform_step node log =
        some ({ node with output := node.input 1 / node.input 2 }, log)) ∧
    (node.custom = ['0', '!'] →
      dst_transform_step node log =
        some ({ node with output := if node.input 1 = 0 then 1 else 0 }, log)) := by
  have hen : truthy (node.input 0) = true := (Double.truthy_iff _).2 henable
  have hgen : ∀ (v : Double) (rest : List Double),
      ref_eval (fun k => node.input (k + 1)) node.custom [] = some (v :: rest) →
      dst_transform_step node log = some ({ node with output := v }, log) := by
    intro v rest href
    obtain ⟨s1, hloop, hrep, hlog⟩ :=
      transform_loop_represents node.input node.custom (transform_init log) [] (v :: rest)
        rfl href
    have htop : s1.top = v := hrep.1
    have hlog1 : s1.log = log := hlog
    simp [dst_transform_step, hen, hloop, htop, hlog1]
  refine ⟨hgen, ?_, ?_, ?_, ?_, ?_⟩
  · intro hc
    exact hgen _ [] (by rw [hc]; rfl)
  · intro hc h1 h2
    have h := hgen (node.input 1 + node.input 2) [] (by rw [hc]; rfl)
    rw [h]
    have h7 : node.input 1 + node.input 2 = 7 := by
      rw [h1, h2]
      show Double.fin _ + Double.fin _ = Double.fin _
      rw [Double.fin_add_fin]
      norm_num
    rw [h7]
  · intro hc
    exact hgen _ [] (by rw [hc]; rfl)
  · intro hc
    exact hgen _ [] (by rw [hc]; rfl)
  · intro hc
    have h := hgen (ofBool (isZero (node.input 1))) [] (by rw [hc]; rfl)
    rw [h]
    by_cases hz : node.input 1 = 0
    · have hz2 : isZero (node.input 1) = true := (Double.isZero_iff _).2 hz
      rw [hz2, if_pos hz]
      rfl
    · have hz2 : isZero (node.input 1) = false := (Double.isZero_eq_false_iff _).2 hz
      rw [hz2, if_neg hz]
      rfl

/-- Witness of C6: "01+" with the inputs 3 and 4 yields 7. -/
theorem dst_transform_step_refines_reference_witness :
    dst_transform_step (test_node [1, 3, 4] 0 () ['0', '1', '+']) [] =
      some ({ test_node [1, 3, 4] 0 () ['0', '1', '+'] with output := 7 }, []) :=
  (dst_transform_step_refines_reference (test_node [1, 3, 4] 0 () ['0', '1', '+']) []
    (by decide)).2.2.1 rfl rfl rfl

/-- C7, as stated, fails: in "0+" the operator `+` is applied when one value has
been pushed (fewer than two), yet the enabled step does not fail: the pop
returns the initial `top`, `HUGE_VAL`, and the output is `HUGE_VAL + in0`, which
is `+inf`. -/
theorem dst_transform_step_underflow_counterexample :
    is_binary_opcode '+' = true ∧ push_count ['0'] = 1 ∧
    (dst_transform_step (test_node [1, 3] 0 () ['0', '+']) []).map
      (fun r => (r.1.output, r.2)) = some (HUGE_VAL + 3, []) ∧
    HUGE_VAL + 3 = Double.pinf := by
  refine ⟨by decide, by decide, rfl, rfl⟩

/-- C7, amended: an enabled `dst_transform_step` fails (the assertion of
`dst_transform_pop`) whenever a binary operator is applied with no value on the
stack: whenever the characters before the operator, none of them the
terminating NUL, hold no more push opcodes than binary operators (in particular
when nothing has been pushed). -/
theorem dst_transform_step_underflow (node : node_description Unit (List Char))
    (log : List Diag) (before after : List Char) (op : Char)
    (henable : node.input 0 ≠ 0) (hexpr : node.custom = before ++ op :: after)
    (hop : is_binary_opcode op = true) (hnul : ∀ c ∈ before, c.val ≠ 0)
    (hcount : push_count before ≤ binary_count before) :
    dst_transform_step node log = none := by
  have hen : truthy (node.input 0) = true := (Double.truthy_iff _).2 henable
  have hloop : transform_loop node.input node.custom (transform_init log) = none := by
    rw [hexpr, transform_loop_append node.input before (op :: after) _ hnul]
    cases hpre : transform_loop node.input before (transform_init log) with
    | none => rfl
    | some s1 =>
      obtain ⟨h0, _, hd⟩ := transform_loop_pointer node.input before (transform_init log) s1
        hnul (le_refl _) (by simp [transform_init]) hpre
      have hinit : (transform_init log).trans_stack_ptr = 0 := rfl
      have hzero : s1.trans_stack_ptr = 0 := by
        rw [hinit] at hd
        omega
      obtain ⟨hc, f, hf⟩ := transform_case_of_binary_opcode node.input op s1 hop
      simp [transform_loop, hc, hf, transform_binary, dst_transform_pop, hzero]
  simp [dst_transform_step, hen, hloop]

/-- Witness of C7 (amended): "+0" applies `+` before anything is pushed. -/
theorem dst_transform_step_underflow_witness :
    dst_transform_step (test_node [1, 3] 0 () ['+', '0']) [] = none :=
  dst_transform_step_underflow (test_node [1, 3] 0 () ['+', '0']) [] [] ['0'] '+'
    (by decide) rfl (by decide) (by simp) (by decide)

theorem transform_loop_pushes (input : Nat → Double) (expr : List Char) :
    ∀ s : transform_state, (∀ c ∈ expr, is_push_opcode c = true) →
      (s.trans_stack_ptr + expr.length ≤ 16 →
        ∃ s1, transform_loop input expr s = some s1 ∧
          s1.trans_stack_ptr = s.trans_stack_ptr + expr.length) ∧
      (16 < s.trans_stack_ptr + expr.length → s.trans_stack_ptr ≤ 16 →
        transform_loop input expr s = none) := by
  induction expr with
  | nil =>
    intro s _
    refine ⟨fun _ => ⟨s, rfl, by simp⟩, ?_⟩
    intro h1 h2
    simp only [List.length_nil, Nat.cast_zero, add_zero] at h1
    omega
  | cons c cs ih =>
    intro s hall
    obtain ⟨hc, v, hv⟩ := transform_case_of_push input c s (hall c (List.mem_cons_self _ _))
    have hrest : ∀ x ∈ cs, is_push_opcode x = true :=
      fun x hx => hall x (List.mem_cons_of_mem _ hx)
    simp only [transform_loop, if_neg hc, hv, List.length_cons, Nat.cast_add, Nat.cast_one]
    by_cases hp : s.trans_stack_ptr < MAX_TRANS_STACK
    · obtain ⟨s2, hload⟩ : ∃ s2, transform_load v s = some s2 := by
        simp [transform_load, dst_transform_push, hp]
      obtain ⟨_, hptr2⟩ := transform_load_some v s s2 hload
      rw [hload]
      simp only
      obtain ⟨ih1, ih2⟩ := ih s2 hrest
      unfold MAX_TRANS_STACK at hp
      constructor
      · intro h
        obtain ⟨s1, hs1, hptr⟩ := ih1 (by omega)
        exact ⟨s1, hs1, by omega⟩
      · intro h h16
        exact ih2 (by omega) (by omega)
    · have hload : transform_load v s = none := by
        simp [transform_load, dst_transform_push, hp]
      rw [hload]
      unfold MAX_TRANS_STACK at hp
      constructor
      · intro h
        omega
      · intro _ _
        rfl

/-- C8: `dst_transform_push` fails exactly when the stack pointer is already 16
(`MAX_TRANS_STACK`), and when it succeeds it writes the one cell `pointer`, which
lies inside the 16-element array, and moves the pointer up by one; during
`dst_transform_step` the pointer stays within `0 .. 16`.  An expression of `n`
push opcodes evaluates without failure for every `n <= 16` and fails for
`n = 17`. -/
theorem dst_transform_push_bound (stack : Nat → Double) (pointer : Int) (value : Double)
    (hlo : 0 ≤ pointer) (hhi : pointer ≤ MAX_TRANS_STACK) :
    (dst_transform_push stack pointer value = none ↔ pointer = 16) ∧
    (∀ (st : Nat → Double) (p : Int), dst_transform_push stack pointer value = some (st, p) →
      pointer.toNat < 16 ∧ (pointer.toNat : Int) = pointer ∧ p = pointer + 1 ∧
      st pointer.toNat = value ∧ ∀ i, i ≠ pointer.toNat → st i = stack i) ∧
    (∀ (input : Nat → Double) (expr : List Char) (log : List Diag) (s : transform_state),
      (∀ c ∈ expr, c.val ≠ 0) → transform_loop input expr (transform_init log) = some s →
      0 ≤ s.trans_stack_ptr ∧ s.trans_stack_ptr ≤ MAX_TRANS_STACK) ∧
    (∀ (node : node_description Unit (List Char)) (log : List Diag), node.input 0 ≠ 0 →
      (∀ c ∈ node.custom, is_push_opcode c = true) →
      (node.custom.length ≤ 16 → (dst_transform_step node log).isSome = true) ∧
      (node.custom.length = 17 → dst_transform_step node log = none)) := by
  unfold MAX_TRANS_STACK at hhi
  refine ⟨?_, ?_, ?_, ?_⟩
  · unfold dst_transform_push MAX_TRANS_STACK
    constructor
    · intro h
      by_cases hp : pointer < 16
      · rw [if_pos hp] at h
        cases h
      · omega
    · intro h
      rw [if_neg (by omega)]
  · intro st p h
    unfold dst_transform_push MAX_TRANS_STACK at h
    by_cases hp : pointer < 16
    · rw [if_pos hp] at h
      simp only [Option.some.injEq, Prod.mk.injEq] at h
      obtain ⟨h1, h2⟩ := h
      subst h1
      refine ⟨by omega, by omega, h2.symm, by simp, ?_⟩
      intro i hi
      simp [Function.update, hi]
    · rw [if_neg hp] at h
      cases h
  · intro input expr log s hnul h
    obtain ⟨h0, h16, _⟩ := transform_loop_pointer input expr (transform_init log) s hnul
      (le_refl _) (by simp [transform_init]) h
    exact ⟨h0, h16⟩
  · intro node log henable hall
    have hen : truthy (node.input 0) = true := (Double.truthy_iff _).2 henable
    obtain ⟨h1, h2⟩ := transform_loop_pushes node.input node.custom (transform_init log) hall
    have hinit : (transform_init log).trans_stack_ptr = 0 := rfl
    constructor
    · intro hlen
      obtain ⟨s1, hs1, _⟩ := h1 (by rw [hinit]; omega)
      simp [dst_transform_step, hen, hs1]
    · intro hlen
      have hnone := h2 (by rw [hinit]; omega) (by rw [hinit]; omega)
      simp [dst_transform_step, hen, hnone]

/-- Witness of C8: a push at the pointer 16 fails, the expression of sixteen
`'0'` evaluates, and that of seventeen fails. -/
theorem dst_transform_push_bound_witness :
    (dst_transform_push (fun _ => 0) 16 1 = none ↔ (16 : Int) = 16) ∧
    (dst_transform_step (test_node [1, 3] 0 () (List.replicate 16 '0')) []).isSome = true ∧
    dst_transform_step (test_node [1, 3] 0 () (List.replicate 17 '0')) [] = none := by
  have h := dst_transform_push_bound (fun _ => 0) 16 1 (by decide) (by decide)
  have hnode := h.2.2.2 (test_node [1, 3] 0 () (List.replicate 16 '0')) [] (by decide)
    (by decide)
  have hnode17 := h.2.2.2 (test_node [1, 3] 0 () (List.replicate 17 '0')) [] (by decide)
    (by decide)
  exact ⟨h.1, hnode.1 (by decide), hnode17.2 (by decide)⟩

/-- C9, the code at the failing input "0x" with `in0 = 3`: the step logs the
diagnostic of the bad opcode `x`, but the output is 3, the value of `top`, not
the fallback 0: the 0 stored in the `default` case is overwritten by
`node->output[0] = top` after the loop. -/
theorem dst_transform_step_invalid_opcode_output :
    (dst_transform_step (test_node [1, 3] 0 () ['0', 'x']) []).map
      (fun r => (r.1.output, r.2)) = some (3, [Diag.transform_invalid_function]) ∧
    (3 : Double) ≠ 0 ∧
    (transform_case (test_node [1, 3] 0 () ['0', 'x']).input 'x'
      { trans_stack := fun _ => 0, trans_stack_ptr := 1, top := 3, output := 5, log := [] }).map
      (fun s => (s.top, s.output)) = some (3, 0) := by
  refine ⟨rfl, by decide, rfl⟩

/-! ## DST_LOGIC_DFF -/

/-- C10, as stated, fails: with enable, /Reset and /Set at 1, stored previous
clock 0 and current clock 2 (not a transition from 0 to 1), the output changes
from 0 to the data input 1. -/
theorem dst_logic_dff_step_edge_counterexample :
    (test_node [1, 1, 1, 2, 1] 0 (dst_flipflop_context.mk 0) ()).input 0 ≠ 0 ∧
    (test_node [1, 1, 1, 2, 1] 0 (dst_flipflop_context.mk 0) ()).input 1 ≠ 0 ∧
    (test_node [1, 1, 1, 2, 1] 0 (dst_flipflop_context.mk 0) ()).input 2 ≠ 0 ∧
    ¬ ((test_node [1, 1, 1, 2, 1] 0 (dst_flipflop_context.mk 0) ()).context.last_clk = 0 ∧
      (test_node [1, 1, 1, 2, 1] 0 (dst_flipflop_context.mk 0) ()).input 3 = 1) ∧
    (dst_logic_dff_step (test_node [1, 1, 1, 2, 1] 0 (dst_flipflop_context.mk 0) ()) []).1.output
      ≠ (test_node [1, 1, 1, 2, 1] 0 (dst_flipflop_context.mk 0) ()).output := by
  decide

/-- C10, amended: for an enabled `dst_logic_dff_step` with /Reset and /Set
nonzero, if the stored previous clock is 0 and the current clock, truncated to an
integer, is nonzero (in particular when the clock is 1), the output becomes the
data input (1 when data = 1); on every tick without such a transition the output
is unchanged, whatever the data input is. -/
theorem dst_logic_dff_step_edge (node : node_description dst_flipflop_context Unit)
    (log : List Diag) (henable : node.input 0 ≠ 0) (hreset : node.input 1 ≠ 0)
    (hset : node.input 2 ≠ 0) :
    (node.context.last_clk = 0 ∧ toInt (node.input 3) ≠ 0 →
      (dst_logic_dff_step node log).1.output = node.input 4) ∧
    (node.context.last_clk = 0 ∧ node.input 3 = 1 →
      (dst_logic_dff_step node log).1.output = node.input 4 ∧
      (node.input 4 = 1 → (dst_logic_dff_step node log).1.output = 1)) ∧
    (¬ (node.context.last_clk = 0 ∧ toInt (node.input 3) ≠ 0) →
      ∀ data : Double,
        (dst_logic_dff_step
          { node with input := Function.update node.input 4 data } log).1.output = node.output) := by
  have hen : truthy (node.input 0) = true := (Double.truthy_iff _).2 henable
  have hr : isZero (node.input 1) = false := (Double.isZero_eq_false_iff _).2 hreset
  have hs : isZero (node.input 2) = false := (Double.isZero_eq_false_iff _).2 hset
  have hedge : node.context.last_clk = 0 ∧ toInt (node.input 3) ≠ 0 →
      (dst_logic_dff_step node log).1.output = node.input 4 := by
    intro h
    simp [dst_logic_dff_step, hen, hr, hs, h.1, h.2]
  refine ⟨hedge, ?_, ?_⟩
  · intro h
    have h1 : toInt (node.input 3) ≠ 0 := by
      rw [h.2, Double.toInt_one]
      decide
    have h2 := hedge ⟨h.1, h1⟩
    exact ⟨h2, fun hd => h2.trans hd⟩
  · intro h data
    have h' : ¬ (node.context.last_clk = 0 ∧ ¬ toInt (node.input 3) = 0) := h
    simp [dst_logic_dff_step, hen, hr, hs, Function.update, h']

/-- Witness of C10 (amended): previous clock 0, clock 1, data 1, output 0 before
the step: the output becomes 1. -/
theorem dst_logic_dff_step_edge_witness :
    (dst_logic_dff_step (test_node [1, 1, 1, 1, 1] 0 (dst_flipflop_context.mk 0) ()) []).1.output
      = 1 :=
  ((dst_logic_dff_step_edge (test_node [1, 1, 1, 1, 1] 0 (dst_flipflop_context.mk 0) ()) []
    (by decide) (by decide) (by decide)).2.1 ⟨by decide, by decide⟩).2 (by decide)

/-! ## DST_LOGIC_DFF and DST_LOGIC_JKFF -/

namespace Double

theorem truncQ_half : truncQ (1 / 2) = 0 := by
  unfold truncQ
  rw [if_pos (by norm_num)]
  rw [Int.floor_eq_iff]
  norm_num

theorem toInt_half : toInt (fin (1 / 2)) = 0 := by
  simp only [toInt, truncQ_half]
  decide

theorem toInt_zero : toInt 0 = 0 := by
  have h := toInt_ofInt 0 (by decide) (by decide)
  simpa [ofInt, zero_def] using h

end Double

/-- C11: for an enabled `dst_logic_dff_step` and an enabled
`dst_logic_jkff_step`, if the /Reset input is 0 the output becomes 0, whatever
/Set, the clock, the previous clock and the data or J and K inputs are; if
/Reset is nonzero and the /Set input is 0 the output becomes 1, whatever the
clock, the previous clock and the data or J and K inputs are. -/
theorem flipflop_async_reset_set (node : node_description dst_flipflop_context Unit)
    (log : List Diag) (henable : node.input 0 ≠ 0) :
    (node.input 1 = 0 →
      (dst_logic_dff_step node log).1.output = 0 ∧
      (dst_logic_jkff_step node log).1.output = 0) ∧
    (node.input 1 ≠ 0 → node.input 2 = 0 →
      (dst_logic_dff_step node log).1.output = 1 ∧
      (dst_logic_jkff_step node log).1.output = 1) := by
  have hen : truthy (node.input 0) = true := (Double.truthy_iff _).2 henable
  constructor
  · intro h1
    have hr : isZero (node.input 1) = true := (Double.isZero_iff _).2 h1
    simp [dst_logic_dff_step, dst_logic_jkff_step, hen, hr]
  · intro h1 h2
    have hr : isZero (node.input 1) = false := (Double.isZero_eq_false_iff _).2 h1
    have hs : isZero (node.input 2) = true := (Double.isZero_iff _).2 h2
    simp [dst_logic_dff_step, dst_logic_jkff_step, hen, hr, hs]

/-- Witness of C11: /Reset 0 with /Set 0, a rising clock and data 1: output 0. -/
theorem flipflop_async_reset_set_witness :
    (dst_logic_dff_step (test_node [1, 0, 0, 1, 1, 1] 1 (dst_flipflop_context.mk 0) ()) []).1.output
      = 0 ∧
    (dst_logic_jkff_step (test_node [1, 0, 0, 1, 1, 1] 1 (dst_flipflop_context.mk 0) ()) []).1.output
      = 0 :=
  (flipflop_async_reset_set (test_node [1, 0, 0, 1, 1, 1] 1 (dst_flipflop_context.mk 0) ()) []
    (by decide)).1 (by decide)

/-- C12, as stated, fails: with enable, /Reset and /Set at 1, previous clock 1,
J = 1, K = 0 and current clock 0.5 (not 0, so the tick is no falling edge as the
claim defines it), the output changes from 0 to 1: the clock is truncated to the
integer 0 before the test. -/
theorem dst_logic_jkff_step_truth_table_counterexample :
    (test_node [1, 1, 1, Double.fin (1 / 2), 1, 0] 0 (dst_flipflop_context.mk 1) ()).input 0 ≠ 0 ∧
    (test_node [1, 1, 1, Double.fin (1 / 2), 1, 0] 0 (dst_flipflop_context.mk 1) ()).input 1 ≠ 0 ∧
    (test_node [1, 1, 1, Double.fin (1 / 2), 1, 0] 0 (dst_flipflop_context.mk 1) ()).input 2 ≠ 0 ∧
    ¬ ((test_node [1, 1, 1, Double.fin (1 / 2), 1, 0] 0
          (dst_flipflop_context.mk 1) ()).context.last_clk ≠ 0 ∧
      (test_node [1, 1, 1, Double.fin (1 / 2), 1, 0] 0 (dst_flipflop_context.mk 1) ()).input 3 = 0) ∧
    (dst_logic_jkff_step
      (test_node [1, 1, 1, Double.fin (1 / 2), 1, 0] 0 (dst_flipflop_context.mk 1) ()) []).1.output
      = 1 ∧
    (test_node [1, 1, 1, Double.fin (1 / 2), 1, 0] 0 (dst_flipflop_context.mk 1) ()).output = 0 ∧
    (1 : Double) ≠ 0 := by
  refine ⟨by decide, by decide, by decide, ?_, ?_, rfl, by decide⟩
  · intro h
    have h3 : Double.fin (1 / 2) = 0 := h.2
    rw [Double.zero_def] at h3
    injection h3 with h4
    norm_num at h4
  · have hclk : toInt ((test_node [1, 1, 1, Double.fin (1 / 2), 1, 0] 0
        (dst_flipflop_context.mk 1) ()).input 3) = 0 := Double.toInt_half
    have hj : toInt ((test_node [1, 1, 1, Double.fin (1 / 2), 1, 0] 0
        (dst_flipflop_context.mk 1) ()).input 4) = 1 := by decide
    have hk : toInt ((test_node [1, 1, 1, Double.fin (1 / 2), 1, 0] 0
        (dst_flipflop_context.mk 1) ()).input 5) = 0 := by decide
    have hen : truthy ((test_node [1, 1, 1, Double.fin (1 / 2), 1, 0] 0
        (dst_flipflop_context.mk 1) ()).input 0) = true := by decide
    have hr : isZero ((test_node [1, 1, 1, Double.fin (1 / 2), 1, 0] 0
        (dst_flipflop_context.mk 1) ()).input 1) = false := by decide
    have hs : isZero ((test_node [1, 1, 1, Double.fin (1 / 2), 1, 0] 0
        (dst_flipflop_context.mk 1) ()).input 2) = false := by decide
    simp only [dst_logic_jkff_step, hclk, hj, hk, hen, hr, hs]
    simp [test_node]

/-- C12, amended: for an enabled `dst_logic_jkff_step` with /Reset and /Set
nonzero, on a falling clock edge (stored previous clock nonzero, current clock
truncated to an integer 0) the new output is: unchanged when J and K truncate
to 0; 0 when J truncates to 0 and K does not; 1 when K truncates to 0 and J does
not; 1 or 0 as the previous output truncates to 0 or not, when neither J nor K
truncates to 0.  So for J, K in 0, 1 it is unchanged for J=0,K=0, 0 for
J=0,K=1, 1 for J=1,K=0, and for J=1,K=1 the inverse of the previous output (1
for 0, 0 for 1).  On every tick that is not such a falling edge the output is
unchanged for all J, K. -/
theorem dst_logic_jkff_step_truth_table (node : node_description dst_flipflop_context Unit)
    (log : List Diag) (henable : node.input 0 ≠ 0) (hreset : node.input 1 ≠ 0)
    (hset : node.input 2 ≠ 0) :
    (node.context.last_clk ≠ 0 ∧ toInt (node.input 3) = 0 →
      (toInt (node.input 4) = 0 → toInt (node.input 5) = 0 →
        (dst_logic_jkff_step node log).1.output = node.output) ∧
      (toInt (node.input 4) = 0 → toInt (node.input 5) ≠ 0 →
        (dst_logic_jkff_step node log).1.output = 0) ∧
      (toInt (node.input 4) ≠ 0 → toInt (node.input 5) = 0 →
        (dst_logic_jkff_step node log).1.output = 1) ∧
      (toInt (node.input 4) ≠ 0 → toInt (node.input 5) ≠ 0 →
        (dst_logic_jkff_step node log).1.output = ofBool (decide (toInt node.output = 0))) ∧
      (node.input 4 = 0 → node.input 5 = 0 →
        (dst_logic_jkff_step node log).1.output = node.output) ∧
      (node.input 4 = 0 → node.input 5 = 1 → (dst_logic_jkff_step node log).1.output = 0) ∧
      (node.input 4 = 1 → node.input 5 = 0 → (dst_logic_jkff_step node log).1.output = 1) ∧
      (node.input 4 = 1 → node.input 5 = 1 →
        (node.output = 0 → (dst_logic_jkff_step node log).1.output = 1) ∧
        (node.output = 1 → (dst_logic_jkff_step node log).1.output = 0))) ∧
    (¬ (node.context.last_clk ≠ 0 ∧ toInt (node.input 3) = 0) →
      (dst_logic_jkff_step node log).1.output = node.output) := by
  have hen : truthy (node.input 0) = true := (Double.truthy_iff _).2 henable
  have hr : isZero (node.input 1) = false := (Double.isZero_eq_false_iff _).2 hreset
  have hs : isZero (node.input 2) = false := (Double.isZero_eq_false_iff _).2 hset
  constructor
  · intro hedge
    have h00 : toInt (node.input 4) = 0 → toInt (node.input 5) = 0 →
        (dst_logic_jkff_step node log).1.output = node.output := by
      intro hj hk
      simp [dst_logic_jkff_step, hen, hr, hs, hedge.1, hedge.2, hj, hk]
    have h01 : toInt (node.input 4) = 0 → toInt (node.input 5) ≠ 0 →
        (dst_logic_jkff_step node log).1.output = 0 := by
      intro hj hk
      simp [dst_logic_jkff_step, hen, hr, hs, hedge.1, hedge.2, hj, hk]
    have h10 : toInt (node.input 4) ≠ 0 → toInt (node.input 5) = 0 →
        (dst_logic_jkff_step node log).1.output = 1 := by
      intro hj hk
      simp [dst_logic_jkff_step, hen, hr, hs, hedge.1, hedge.2, hj, hk]
    have h11 : toInt (node.input 4) ≠ 0 → toInt (node.input 5) ≠ 0 →
        (dst_logic_jkff_step node log).1.output = ofBool (decide (toInt node.output = 0)) := by
      intro hj hk
      simp [dst_logic_jkff_step, hen, hr, hs, hedge.1, hedge.2, hj, hk]
    have z : ∀ x : Double, x = 0 → toInt x = 0 := fun x hx => by rw [hx, Double.toInt_zero]
    have o : ∀ x : Double, x = 1 → toInt x ≠ 0 := fun x hx => by
      rw [hx, Double.toInt_one]
      decide
    refine ⟨h00, h01, h10, h11, ?_, ?_, ?_, ?_⟩
    · exact fun hj hk => h00 (z _ hj) (z _ hk)
    · exact fun hj hk => h01 (z _ hj) (o _ hk)
    · exact fun hj hk => h10 (o _ hj) (z _ hk)
    · intro hj hk
      have h := h11 (o _ hj) (o _ hk)
      constructor
      · intro hout
        rw [h, z _ hout]
        rfl
      · intro hout
        rw [h, hout, Double.toInt_one]
        rfl
  · intro hno
    simp [dst_logic_jkff_step, hen, hr, hs, hno]

/-- Witness of C12 (amended): previous clock 1, clock 0, J = K = 1, output 0
before the step: the output becomes 1. -/
theorem dst_logic_jkff_step_truth_table_witness :
    (dst_logic_jkff_step (test_node [1, 1, 1, 0, 1, 1] 0 (dst_flipflop_context.mk 1) ()) []).1.output
      = 1 :=
  ((((dst_logic_jkff_step_truth_table
    (test_node [1, 1, 1, 0, 1, 1] 0 (dst_flipflop_context.mk 1) ()) []
    (by decide) (by decide) (by decide)).1 ⟨by decide, by decide⟩).2.2.2.2.2.2.2)
      (by decide) (by decide)).1 rfl

theorem jkff_step_toggle (node : node_description dst_flipflop_context Unit) (log : List Diag)
    (henable : node.input 0 ≠ 0) (hreset : node.input 1 ≠ 0) (hset : node.input 2 ≠ 0)
    (hj : node.input 4 = 1) (hk : node.input 5 = 1) :
    (dst_logic_jkff_step node log).1.output =
      (if node.context.last_clk ≠ 0 ∧ toInt (node.input 3) = 0 then
        ofBool (decide (toInt node.output = 0)) else node.output) ∧
    (dst_logic_jkff_step node log).1.context.last_clk = toInt (node.input 3) := by
  have hen : truthy (node.input 0) = true := (Double.truthy_iff _).2 henable
  have hr : isZero (node.input 1) = false := (Double.isZero_eq_false_iff _).2 hreset
  have hs : isZero (node.input 2) = false := (Double.isZero_eq_false_iff _).2 hset
  have hj1 : toInt (node.input 4) = 1 := by rw [hj, Double.toInt_one]
  have hk1 : toInt (node.input 5) = 1 := by rw [hk, Double.toInt_one]
  constructor
  · by_cases hedge : node.context.last_clk ≠ 0 ∧ toInt (node.input 3) = 0
    · simp [dst_logic_jkff_step, hen, hr, hs, hj1, hk1, hedge.1, hedge.2]
    · rw [if_neg hedge]
      simp [dst_logic_jkff_step, hen, hr, hs, hj1, hk1, hedge]
  · simp only [dst_logic_jkff_step]

theorem jkff_run_parity (ticks : List (Nat → Double)) :
    ∀ node : node_description dst_flipflop_context Unit,
      (node.output = 0 ∨ node.output = 1) →
      (∀ tick ∈ ticks, tick 0 ≠ 0 ∧ tick 1 ≠ 0 ∧ tick 2 ≠ 0 ∧ tick 4 = 1 ∧ tick 5 = 1) →
      (jkff_run ticks node).output =
        if (falling_edge_count node.context.last_clk (ticks.map (fun tick => tick 3)) +
            (if node.output = 0 then 0 else 1)) % 2 = 0 then 0 else 1 := by
  induction ticks with
  | nil =>
    intro node hout _
    rcases hout with h | h
    · simp [jkff_run, falling_edge_count, h]
    · have h10 : (1 : Double) ≠ 0 := by decide
      simp [jkff_run, falling_edge_count, h, h10]
  | cons tick rest ih =>
    intro node hout hall
    obtain ⟨h0, h1, h2, h4, h5⟩ := hall tick (List.mem_cons_self _ _)
    obtain ⟨hstep, hclk⟩ := jkff_step_toggle { node with input := tick } [] h0 h1 h2 h4 h5
    have h10 : (1 : Double) ≠ 0 := by decide
    have hout1 : (dst_logic_jkff_step { node with input := tick } []).1.output = 0 ∨
        (dst_logic_jkff_step { node with input := tick } []).1.output = 1 := by
      rw [hstep]
      split_ifs
      · by_cases hz : toInt node.output = 0
        · right
          simp [hz, ofBool]
        · left
          simp [hz, ofBool]
      · exact hout
    have hrec := ih _ hout1 (fun t ht => hall t (List.mem_cons_of_mem _ ht))
    simp only [jkff_run, List.map_cons, falling_edge_count]
    rw [hrec, hclk]
    simp only
    by_cases hedge : node.context.last_clk ≠ 0 ∧ toInt (tick 3) = 0
    · have hout2 : (dst_logic_jkff_step { node with input := tick } []).1.output =
          ofBool (decide (toInt node.output = 0)) := by
        rw [hstep]
        exact if_pos hedge
      rw [hout2]
      rcases hout with h | h
      · have hz : toInt node.output = 0 := by rw [h, Double.toInt_zero]
        have ho : ofBool (decide (toInt node.output = 0)) = 1 := by simp [hz, ofBool]
        simp only [ho, h, h10, hedge, if_true, if_false, ne_eq, not_false_eq_true, and_self]
        have e : (if ofBool (decide (toInt (0 : Double) = 0)) = 0 then 0 else 1) = 1 := by
          rw [Double.toInt_zero]
          decide
        simp only [e]
        generalize falling_edge_count _ _ = a
        split_ifs <;> first | rfl | omega
      · have hz : toInt node.output ≠ 0 := by
          rw [h, Double.toInt_one]
          decide
        have ho : ofBool (decide (toInt node.output = 0)) = 0 := by simp [hz, ofBool]
        simp only [ho, h, h10, hedge, if_true, if_false, ne_eq, not_false_eq_true, and_self]
        have e : (if ofBool (decide (toInt (1 : Double) = 0)) = 0 then 0 else 1) = 0 := by
          rw [Double.toInt_one]
          decide
        simp only [e]
        generalize falling_edge_count _ _ = a
        split_ifs <;> first | rfl | omega
    · have hout2 : (dst_logic_jkff_step { node with input := tick } []).1.output =
          node.output := by
        rw [hstep]
        exact if_neg hedge
      rw [hout2]
      simp only [hedge, if_false]
      simp only [zero_add]

/-- C13, as stated, fails: from `dst_logic_ff_reset`, with enable, /Reset, /Set,
J and K at 1 and the clock sequence 1, 0.5, no clock value is 0 (the clock never
falls to 0, so no falling edge has been seen), yet after the second tick the
output is 1: the clock 0.5 is read as the integer 0. -/
theorem jkff_toggle_sequence_counterexample :
    (∀ tick ∈ [fun i => ([1, 1, 1, 1, 1, 1] : List Double).getD i 0,
        fun i => ([1, 1, 1, Double.fin (1 / 2), 1, 1] : List Double).getD i 0],
      tick 0 ≠ 0 ∧ tick 1 ≠ 0 ∧ tick 2 ≠ 0 ∧ tick 4 = 1 ∧ tick 5 = 1 ∧ tick 3 ≠ 0) ∧
    (jkff_run [fun i => ([1, 1, 1, 1, 1, 1] : List Double).getD i 0,
        fun i => ([1, 1, 1, Double.fin (1 / 2), 1, 1] : List Double).getD i 0]
      (dst_logic_ff_reset (test_node [] 1 (dst_flipflop_context.mk 1) ()) []).1).output = 1 ∧
    (1 : Double) ≠ 0 := by
  have hhalf : Double.fin (1 / 2) ≠ 0 := by
    intro h
    rw [Double.zero_def] at h
    injection h with h4
    norm_num at h4
  refine ⟨?_, ?_, by decide⟩
  · intro tick ht
    simp only [List.mem_cons, List.mem_singleton, List.not_mem_nil, or_false] at ht
    rcases ht with h | h
    · subst h
      decide
    · subst h
      refine ⟨by decide, by decide, by decide, by decide, by decide, ?_⟩
      exact hhalf
  · have h1 : toInt (Double.fin 2⁻¹) = 0 := by simpa using Double.toInt_half
    have hone : toInt (1 : Double) = 1 := Double.toInt_one
    have ht : truthy (1 : Double) = true := by decide
    have hz : isZero (1 : Double) = false := by decide
    have hz0 : toInt (0 : Double) = 0 := Double.toInt_zero
    simp [jkff_run, dst_logic_jkff_step, dst_logic_ff_reset, test_node, h1, hone, ht, hz, hz0,
      ofBool]

/-- C13, amended: starting from `dst_logic_ff_reset`, with enable, /Reset and
/Set nonzero and J = K = 1 on every tick, for every clock sequence the output
after the ticks is the number of falling clock edges seen so far mod 2, a
falling edge being a tick on which the previous clock (0 after the reset),
truncated to an integer, is nonzero and the current clock, truncated to an
integer, is 0. -/
theorem jkff_toggle_sequence (node : node_description dst_flipflop_context Unit)
    (log : List Diag) (ticks : List (Nat → Double))
    (hticks : ∀ tick ∈ ticks,
      tick 0 ≠ 0 ∧ tick 1 ≠ 0 ∧ tick 2 ≠ 0 ∧ tick 4 = 1 ∧ tick 5 = 1) :
    (jkff_run ticks (dst_logic_ff_reset node log).1).output =
      if falling_edge_count 0 (ticks.map (fun tick => tick 3)) % 2 = 0 then 0 else 1 := by
  have h := jkff_run_parity ticks (dst_logic_ff_reset node log).1 (Or.inl rfl) hticks
  rw [h]
  simp [dst_logic_ff_reset]

/-- Witness of C13 (amended): the clock sequence 1, 0 has one falling edge: the
output is 1 after it. -/
theorem jkff_toggle_sequence_witness :
    (jkff_run
      [fun i => ([1, 1, 1, 1, 1, 1] : List Double).getD i 0,
        fun i => ([1, 1, 1, 0, 1, 1] : List Double).getD i 0]
      (dst_logic_ff_reset (test_node [] 1 (dst_flipflop_context.mk 1) ()) []).1).output = 1 := by
  have h := jkff_toggle_sequence (test_node [] 1 (dst_flipflop_context.mk 1) ()) []
    [fun i => ([1, 1, 1, 1, 1, 1] : List Double).getD i 0,
      fun i => ([1, 1, 1, 0, 1, 1] : List Double).getD i 0]
    (by
      intro tick ht
      simp only [List.mem_cons, List.mem_singleton, List.not_mem_nil, or_false] at ht
      rcases ht with h | h <;> subst h <;> decide)
  rw [h]
  decide

/-! ## DST_DAC_R1 -/

section exact_values

variable {K : Type} [LinearOrderedField K] [FloorRing K]

theorem dac_r1_step_frame
    (node : node_description_over K (dst_dac_r1_context K) (discrete_dac_r1_ladder K))
    (log : List Diag) :
    (dst_dac_r1_step node log).1.input = node.input ∧
    (dst_dac_r1_step node log).1.context = node.context ∧
    (dst_dac_r1_step node log).1.custom = node.custom := by
  unfold dst_dac_r1_step
  split_ifs <;> exact ⟨rfl, rfl, rfl⟩

theorem dac_r1_voltage_step
    (node : node_description_over K (dst_dac_r1_context K) (discrete_dac_r1_ladder K))
    (log : List Diag) :
    dac_r1_voltage (dst_dac_r1_step node log).1 = dac_r1_voltage node := by
  obtain ⟨h1, h2, h3⟩ := dac_r1_step_frame node log
  unfold dac_r1_voltage
  rw [h1, h2, h3]

/-- C14: for an enabled DAC R1 node with a filter capacitor (`cFilter != 0`),
with the inputs held, the target voltage `T` that `dst_dac_r1_step` computes and
the exponent `e` of the context stay the same from call to call, and the output
after `n` calls starting from the output `v0` is `T - (T - v0) * (1 - e)^n`, in
every ordered field of exact values, the reals among them. -/
theorem dst_dac_r1_step_charge_law
    (node : node_description_over K (dst_dac_r1_context K) (discrete_dac_r1_ladder K))
    (n : Nat) (henable : node.input 0 ≠ 0) (hfilter : node.custom.cFilter ≠ 0) :
    (dac_r1_run n node).output =
      dac_r1_voltage node -
        (dac_r1_voltage node - node.output) * (1 - node.context.exponent) ^ n ∧
    dac_r1_voltage (dac_r1_run n node) = dac_r1_voltage node ∧
    (dac_r1_run n node).context.exponent = node.context.exponent := by
  induction n generalizing node with
  | zero =>
    refine ⟨?_, rfl, rfl⟩
    simp [dac_r1_run]
  | succ m ih =>
    obtain ⟨h1, h2, h3⟩ := dac_r1_step_frame node []
    have hv := dac_r1_voltage_step node []
    have hen1 : (dst_dac_r1_step node []).1.input 0 ≠ 0 := by rw [h1]; exact henable
    have hf1 : (dst_dac_r1_step node []).1.custom.cFilter ≠ 0 := by rw [h3]; exact hfilter
    obtain ⟨r1, r2, r3⟩ := ih (dst_dac_r1_step node []).1 hen1 hf1
    have hout : (dst_dac_r1_step node []).1.output =
        node.output + (dac_r1_voltage node - node.output) * node.context.exponent := by
      simp [dst_dac_r1_step, henable, hfilter]
    refine ⟨?_, ?_, ?_⟩
    · show (dac_r1_run m (dst_dac_r1_step node []).1).output = _
      rw [r1, hv, h2, hout]
      ring
    · show dac_r1_voltage (dac_r1_run m (dst_dac_r1_step node []).1) = _
      rw [r2, hv]
    · show (dac_r1_run m (dst_dac_r1_step node []).1).context.exponent = _
      rw [r3, h2]

/-- C20: when the enable input is 0, `dst_dac_r1_step` leaves the node as it
was: the output keeps its value and every field of the context (`i_bias`,
`exponent`, `r_total`, `last_data`) is unchanged, whatever the data and
on-voltage inputs are; nothing is logged. -/
theorem dst_dac_r1_step_disabled
    (node : node_description_over K (dst_dac_r1_context K) (discrete_dac_r1_ladder K))
    (log : List Diag) (hdisabled : node.input 0 = 0) :
    (dst_dac_r1_step node log).1.output = node.output ∧
    (dst_dac_r1_step node log).1.context.i_bias = node.context.i_bias ∧
    (dst_dac_r1_step node log).1.context.exponent = node.context.exponent ∧
    (dst_dac_r1_step node log).1.context.r_total = node.context.r_total ∧
    (dst_dac_r1_step node log).1.context.last_data = node.context.last_data ∧
    dst_dac_r1_step node log = (node, log) := by
  have h : dst_dac_r1_step node log = (node, log) := by
    simp [dst_dac_r1_step, hdisabled]
  rw [h]
  exact ⟨rfl, rfl, rfl, rfl, rfl, rfl⟩

end exact_values

/-- Witness of C14: one call on an enabled node with a filter capacitor, data 1,
output 0 and exponent 1/2. -/
theorem dst_dac_r1_step_charge_law_witness :
    (dac_r1_run 1 (test_node_over [1, 1, 4] 0 test_dac_context test_dac_ladder)).output =
      dac_r1_voltage (test_node_over [1, 1, 4] 0 test_dac_context test_dac_ladder) -
        (dac_r1_voltage (test_node_over [1, 1, 4] 0 test_dac_context test_dac_ladder) - 0) *
          (1 - 1 / 2) ^ 1 :=
  (dst_dac_r1_step_charge_law (test_node_over [1, 1, 4] 0 test_dac_context test_dac_ladder) 1
    (by decide) (by decide)).1

/-- Witness of C20: a disabled step on a node with data 1 and output 7. -/
theorem dst_dac_r1_step_disabled_witness :
    (dst_dac_r1_step (test_node_over [0, 1, 4] 7 test_dac_context test_dac_ladder) []).1.output
      = 7 :=
  (dst_dac_r1_step_disabled (test_node_over [0, 1, 4] 7 test_dac_context test_dac_ladder) []
    (by decide)).1

theorem foldl_conductance_sum {K : Type} [LinearOrderedField K] (r : Nat → K) (n : Nat)
    (a : K) :
    (List.range n).foldl (fun r_total bit => if r bit ≠ 0 then r_total + 1 / r bit else r_total) a
      = a + ∑ bit in (Finset.range n).filter (fun bit => r bit ≠ 0), 1 / r bit := by
  rw [Finset.sum_filter]
  induction n with
  | zero => simp
  | succ m ih =>
    rw [List.range_succ, List.foldl_append, ih, Finset.sum_range_succ]
    simp only [List.foldl_cons, List.foldl_nil]
    split_ifs with h
    · ring
    · ring

/-- C15: after `dst_dac_r1_reset`, `r_total` is 1 over the sum of `1/r[bit]`
over the bits below `ladderLength` with `r[bit] != 0`, plus `1/rBias` if
`rBias != 0`, plus `1/rGnd` if `rGnd != 0`; `i_bias` is `vBias / rBias` (0 when
`rBias = 0`); the output is 0; and when `cFilter != 0` the exponent is
`1 - exp(-1 / (r_total * cFilter * sample_rate))`, `exp` being the function
the code calls. -/
theorem dst_dac_r1_reset_constants {K : Type} [LinearOrderedField K] (h : discrete_h)
    (exp : K → K) (sample_rate : K)
    (node : node_description_over K (dst_dac_r1_context K) (discrete_dac_r1_ladder K))
    (log : List Diag) :
    (dst_dac_r1_reset h exp sample_rate node log).1.context.r_total =
      1 / (∑ bit in (Finset.range node.custom.ladderLength.toNat).filter
              (fun bit => node.custom.r bit ≠ 0), 1 / node.custom.r bit
            + (if node.custom.rBias ≠ 0 then 1 / node.custom.rBias else 0)
            + (if node.custom.rGnd ≠ 0 then 1 / node.custom.rGnd else 0)) ∧
    (dst_dac_r1_reset h exp sample_rate node log).1.context.i_bias =
      (if node.custom.rBias = 0 then 0 else node.custom.vBias / node.custom.rBias) ∧
    (dst_dac_r1_reset h exp sample_rate node log).1.output = 0 ∧
    (node.custom.cFilter ≠ 0 →
      (dst_dac_r1_reset h exp sample_rate node log).1.context.exponent =
        1 - exp (-1 /
          ((dst_dac_r1_reset h exp sample_rate node log).1.context.r_total
            * node.custom.cFilter * sample_rate))) := by
  refine ⟨?_, ?_, rfl, ?_⟩
  · simp only [dst_dac_r1_reset, foldl_conductance_sum, zero_add]
    congr 1
    split_ifs <;> ring
  · simp only [dst_dac_r1_reset]
    split_ifs <;> first | rfl | contradiction
  · intro hc
    simp only [dst_dac_r1_reset, if_pos hc]

/-- Witness of C15: the reset of the ladder of three resistors with a filter
capacitor, at the sample rate 48000 and with the identity in the place of
`exp`. -/
theorem dst_dac_r1_reset_constants_witness :
    (dst_dac_r1_reset test_discrete_h (fun x => x) 48000
        (test_node_over [1, 1, 4] 7 test_dac_context test_dac_ladder) []).1.context.exponent =
      1 - (fun x : ℚ => x) (-1 /
        ((dst_dac_r1_reset test_discrete_h (fun x => x) 48000
            (test_node_over [1, 1, 4] 7 test_dac_context test_dac_ladder) []).1.context.r_total
          * test_dac_ladder.cFilter * 48000)) :=
  (dst_dac_r1_reset_constants test_discrete_h (fun x => x) 48000
    (test_node_over [1, 1, 4] 7 test_dac_context test_dac_ladder) []).2.2.2 (by decide)

/-! ## DST_MIXER -/

theorem mixer_reset_fold {K : Type} [LinearOrderedField K] (h : discrete_h) (exp : K → K)
    (sample_rate : K) (info : discrete_mixer_desc K) (hc : ∀ bit, info.c bit = 0)
    (hn : ∀ bit, info.r_node bit = 0) (n : Nat) (s : mixer_reset_state K) :
    ((List.range n).foldl (mixer_reset_bit h exp sample_rate info) s).context.r_total =
      s.context.r_total + ∑ bit in Finset.range n, 1 / info.r bit ∧
    ((List.range n).foldl (mixer_reset_bit h exp sample_rate info) s).context.type =
      s.context.type ∧
    ((List.range n).foldl (mixer_reset_bit h exp sample_rate info) s).context.size =
      s.context.size ∧
    ((List.range n).foldl (mixer_reset_bit h exp sample_rate info) s).context.has_r_node =
      s.context.has_r_node := by
  induction n with
  | zero => simp
  | succ m ih =>
    obtain ⟨i1, i2, i3, i4⟩ := ih
    rw [List.range_succ, List.foldl_append]
    simp only [List.foldl_cons, List.foldl_nil, mixer_reset_bit, hc, hn, ne_eq,
      not_true_eq_false, false_and, and_true, if_false]
    refine ⟨?_, i2, i3, i4⟩
    rw [Finset.sum_range_succ]
    split_ifs with hr
    · simp only [not_not] at hr
      rw [i1, hr]
      simp
    · rw [i1]
      ring

theorem mixer_step_fold {K : Type} [LinearOrderedField K] (h : discrete_h)
    (info : discrete_mixer_desc K) (input : Nat → K) (hc : ∀ bit, info.c bit = 0) (n : Nat)
    (s : mixer_step_state K) :
    (List.range n).foldl (mixer_step_bit h info input) s =
      { s with
        i := s.i + ∑ bit in Finset.range n,
          (if s.context.type = h.DISC_MIXER_IS_OP_AMP then info.vRef - input (bit + 1)
            else input (bit + 1)) / info.r bit } := by
  induction n with
  | zero => simp
  | succ m ih =>
    rw [List.range_succ, List.foldl_append, ih]
    simp only [List.foldl_cons, List.foldl_nil, mixer_step_bit, mixer_step_input, hc, ne_eq,
      not_true_eq_false, if_false]
    rw [Finset.sum_range_succ, add_assoc]

theorem mixer_reset_no_r_node {K : Type} [LinearOrderedField K] (h : discrete_h) (exp : K → K)
    (sample_rate : K) (find_node : Int → Option Nat)
    (node : node_description_over K (dst_mixer_context K) (discrete_mixer_desc K))
    (log : List Diag) (hnode : ∀ bit, node.custom.r_node bit = 0) (hfind : find_node 0 = none)
    (hc : ∀ bit, node.custom.c bit = 0) :
    (dst_mixer_reset h exp sample_rate find_node node log).1.context.has_r_node = 0 ∧
    (dst_mixer_reset h exp sample_rate find_node node log).1.context.size =
      node.active_inputs - 1 ∧
    (dst_mixer_reset h exp sample_rate find_node node log).1.context.type =
      (if node.custom.type = h.DISC_MIXER_IS_OP_AMP ∧ node.custom.rI ≠ 0 then
        h.DISC_MIXER_IS_OP_AMP_WITH_RI else node.custom.type) ∧
    (dst_mixer_reset h exp sample_rate find_node node log).1.custom = node.custom := by
  refine ⟨?_, ?_, ?_, rfl⟩
  · simp only [dst_mixer_reset]
    rw [(mixer_reset_fold h exp sample_rate node.custom hc hnode _ _).2.2.2]
    simp [hnode, hfind]
  · simp only [dst_mixer_reset]
    rw [(mixer_reset_fold h exp sample_rate node.custom hc hnode _ _).2.2.1]
  · simp only [dst_mixer_reset]
    rw [(mixer_reset_fold h exp sample_rate node.custom hc hnode _ _).2.1]

theorem mixer_reset_r_total {K : Type} [LinearOrderedField K] (h : discrete_h) (exp : K → K)
    (sample_rate : K) (find_node : Int → Option Nat)
    (node : node_description_over K (dst_mixer_context K) (discrete_mixer_desc K))
    (log : List Diag) (hnode : ∀ bit, node.custom.r_node bit = 0)
    (hc : ∀ bit, node.custom.c bit = 0) :
    (dst_mixer_reset h exp sample_rate find_node node log).1.context.r_total =
      (∑ bit in Finset.range (node.active_inputs - 1).toNat, 1 / node.custom.r bit)
        + (if node.custom.rF ≠ 0 ∧
              (if node.custom.type = h.DISC_MIXER_IS_OP_AMP ∧ node.custom.rI ≠ 0 then
                h.DISC_MIXER_IS_OP_AMP_WITH_RI else node.custom.type) =
                h.DISC_MIXER_IS_RESISTOR then 1 / node.custom.rF else 0)
        + (if (if node.custom.type = h.DISC_MIXER_IS_OP_AMP ∧ node.custom.rI ≠ 0 then
                h.DISC_MIXER_IS_OP_AMP_WITH_RI else node.custom.type) =
                h.DISC_MIXER_IS_OP_AMP_WITH_RI then 1 / node.custom.rI else 0) ∧
    ((if node.custom.type = h.DISC_MIXER_IS_OP_AMP ∧ node.custom.rI ≠ 0 then
          h.DISC_MIXER_IS_OP_AMP_WITH_RI else node.custom.type) =
          h.DISC_MIXER_IS_OP_AMP_WITH_RI →
      (dst_mixer_reset h exp sample_rate find_node node log).1.context.gain =
        node.custom.rF / node.custom.rI) := by
  constructor
  · simp only [dst_mixer_reset]
    rw [(mixer_reset_fold h exp sample_rate node.custom hc hnode _ _).1]
    simp only [zero_add]
    split_ifs <;> ring
  · intro ht
    simp only [dst_mixer_reset]
    rw [if_pos ht]

theorem mixer_step_no_caps {K : Type} [LinearOrderedField K] (h : discrete_h) (exp : K → K)
    (sample_rate : K) (outputs : Nat → K)
    (node : node_description_over K (dst_mixer_context K) (discrete_mixer_desc K))
    (log : List Diag) (henable : node.input 0 ≠ 0) (hnode : node.context.has_r_node = 0)
    (hc : ∀ bit, node.custom.c bit = 0) (hcF : node.custom.cF = 0)
    (hcAmp : node.custom.cAmp = 0) :
    (dst_mixer_step h exp sample_rate outputs node log).1.output =
      (if node.context.type = h.DISC_MIXER_IS_OP_AMP_WITH_RI then
        node.custom.vRef + node.context.gain * (node.custom.vRef -
          (∑ bit in Finset.range node.context.size.toNat,
              (if node.context.type = h.DISC_MIXER_IS_OP_AMP then
                node.custom.vRef - node.input (bit + 1)
              else node.input (bit + 1)) / node.custom.r bit
            + node.custom.vRef / node.custom.rI)
          * (if node.context.type = h.DISC_MIXER_IS_OP_AMP then node.custom.rF
              else 1 / node.context.r_total))
      else
        (∑ bit in Finset.range node.context.size.toNat,
            (if node.context.type = h.DISC_MIXER_IS_OP_AMP then
              node.custom.vRef - node.input (bit + 1)
            else node.input (bit + 1)) / node.custom.r bit)
          * (if node.context.type = h.DISC_MIXER_IS_OP_AMP then node.custom.rF
              else 1 / node.context.r_total)) * node.custom.gain ∧
    (dst_mixer_step h exp sample_rate outputs node log).1.context = node.context := by
  simp only [dst_mixer_step, henable, hnode, mixer_step_fold h node.custom node.input hc,
    mixer_step_finish, hcF, hcAmp, ne_eq, not_false_eq_true, not_true_eq_false, if_true,
    if_false, zero_add]
  constructor
  · split_ifs <;> rfl
  · trivial

/-- C16: for a mixer of type `DISC_MIXER_IS_RESISTOR` after `dst_mixer_reset`,
with no resistor nodes, no capacitors and all input resistors nonzero, every
enabled `dst_mixer_step` (whatever the inputs and the previous output are)
outputs `gain * (sum of v_i / r_i) / (sum of 1/r_i, plus 1/rF when rF != 0)`
and leaves the context as the reset made it, so that the same holds for the
following steps.  With the two inputs `v1 = 5`, `r1 = 1000`, `v2 = 0`,
`r2 = 1000`, no feedback resistor and the gain 1 the output is 2.5. -/
theorem dst_mixer_step_resistor {K : Type} [LinearOrderedField K] (h : discrete_h)
    (exp : K → K) (sample_rate : K) (find_node : Int → Option Nat) (outputs : Nat → K)
    (node : node_description_over K (dst_mixer_context K) (discrete_mixer_desc K))
    (log log2 : List Diag)
    (htype : node.custom.type = h.DISC_MIXER_IS_RESISTOR)
    (hd1 : h.DISC_MIXER_IS_RESISTOR ≠ h.DISC_MIXER_IS_OP_AMP)
    (hd2 : h.DISC_MIXER_IS_RESISTOR ≠ h.DISC_MIXER_IS_OP_AMP_WITH_RI)
    (hnode : ∀ bit, node.custom.r_node bit = 0) (hfind : find_node 0 = none)
    (hc : ∀ bit, node.custom.c bit = 0) (hcF : node.custom.cF = 0)
    (hcAmp : node.custom.cAmp = 0)
    (_hr : ∀ bit : Nat, (bit : Int) < node.active_inputs - 1 → node.custom.r bit ≠ 0)
    (inputs : Nat → K) (previous : K) (henable : inputs 0 ≠ 0) :
    (dst_mixer_step h exp sample_rate outputs
      { (dst_mixer_reset h exp sample_rate find_node node log).1 with
        input := inputs, output := previous } log2).1.output =
      node.custom.gain *
        (∑ bit in Finset.range (node.active_inputs - 1).toNat,
          inputs (bit + 1) / node.custom.r bit) /
        (∑ bit in Finset.range (node.active_inputs - 1).toNat, 1 / node.custom.r bit
          + (if node.custom.rF ≠ 0 then 1 / node.custom.rF else 0)) ∧
    (dst_mixer_step h exp sample_rate outputs
      { (dst_mixer_reset h exp sample_rate find_node node log).1 with
        input := inputs, output := previous } log2).1.context =
      (dst_mixer_reset h exp sample_rate find_node node log).1.context ∧
    (node.active_inputs = 3 → node.custom.r 0 = 1000 → node.custom.r 1 = 1000 →
      node.custom.rF = 0 → node.custom.gain = 1 → inputs 1 = 5 → inputs 2 = 0 →
      (dst_mixer_step h exp sample_rate outputs
        { (dst_mixer_reset h exp sample_rate find_node node log).1 with
          input := inputs, output := previous } log2).1.output = 5 / 2) := by
  obtain ⟨r1, r2, r3, r4⟩ :=
    mixer_reset_no_r_node h exp sample_rate find_node node log hnode hfind hc
  obtain ⟨r5, _⟩ := mixer_reset_r_total h exp sample_rate find_node node log hnode hc
  have hne : ¬ (node.custom.type = h.DISC_MIXER_IS_OP_AMP ∧ node.custom.rI ≠ 0) := by
    rw [htype]
    exact fun hh => hd1 hh.1
  rw [if_neg hne, htype] at r3
  rw [if_neg hne, htype] at r5
  have hstep := mixer_step_no_caps h exp sample_rate outputs
    { (dst_mixer_reset h exp sample_rate find_node node log).1 with
      input := inputs, output := previous } log2 henable r1
    (by rw [r4]; exact hc) (by rw [r4]; exact hcF) (by rw [r4]; exact hcAmp)
  simp only [r2, r3, r4, r5, hd1, hd2, if_false, if_true, and_true] at hstep
  have hout : (dst_mixer_step h exp sample_rate outputs
      { (dst_mixer_reset h exp sample_rate find_node node log).1 with
        input := inputs, output := previous } log2).1.output =
      node.custom.gain *
        (∑ bit in Finset.range (node.active_inputs - 1).toNat,
          inputs (bit + 1) / node.custom.r bit) /
        (∑ bit in Finset.range (node.active_inputs - 1).toNat, 1 / node.custom.r bit
          + (if node.custom.rF ≠ 0 then 1 / node.custom.rF else 0)) := by
    refine hstep.1.trans ?_
    simp only [add_zero, div_eq_mul_inv, one_mul]
    ring
  refine ⟨hout, hstep.2, ?_⟩
  intro h3 hr0 hr1 hrF hgain hv1 hv2
  rw [hout, h3, hrF, hgain]
  have hn : ((3 : Int) - 1).toNat = 2 := by decide
  rw [hn]
  simp only [Finset.sum_range_succ, Finset.sum_range_zero, hr0, hr1, hv1, hv2]
  norm_num

/-- Witness of C16: the mixer of two inputs of 1000 ohm with the inputs 5 and 0
outputs 5/2. -/
theorem dst_mixer_step_resistor_witness :
    (dst_mixer_step test_discrete_h (fun x => x) 48000 (fun _ => 0)
      { (dst_mixer_reset test_discrete_h (fun x => x) 48000 (fun _ => none)
          (test_node_over [1, 5, 0] 7 test_mixer_context (test_mixer_desc 0 0 0)) []).1 with
        input := fun i => ([1, 5, 0] : List ℚ).getD i 0, output := 9 } []).1.output = 5 / 2 :=
  (dst_mixer_step_resistor test_discrete_h (fun x => x) 48000 (fun _ => none) (fun _ => 0)
    (test_node_over [1, 5, 0] 7 test_mixer_context (test_mixer_desc 0 0 0)) [] []
    rfl (by decide) (by decide) (fun _ => rfl) rfl (fun _ => rfl) rfl rfl
    (fun _ _ => by simp [test_node_over, test_mixer_desc])
    (fun i => ([1, 5, 0] : List ℚ).getD i 0) 9 (by decide)).2.2
    rfl rfl rfl rfl rfl rfl rfl

/-- C17: for a mixer of type `DISC_MIXER_IS_OP_AMP` after `dst_mixer_reset`,
with no resistor nodes, no capacitors and all input resistors nonzero (the
formulas divide by each `r_i`, as the code does), every enabled
`dst_mixer_step` (whatever the inputs and the previous output are) outputs,
when `rI = 0`, `gain * rF * sum of (vRef - v_i) / r_i`, and when `rI != 0` and
the divisor `1/rI + sum of 1/r_i` of `M` is nonzero,
`gain * (vRef + (rF / rI) * (vRef - M))` with
`M = (vRef/rI + sum of v_i/r_i) / (1/rI + sum of 1/r_i)`; and it leaves the
context as the reset made it, so that the same holds for the following steps. -/
theorem dst_mixer_step_op_amp {K : Type} [LinearOrderedField K] (h : discrete_h)
    (exp : K → K) (sample_rate : K) (find_node : Int → Option Nat) (outputs : Nat → K)
    (node : node_description_over K (dst_mixer_context K) (discrete_mixer_desc K))
    (log log2 : List Diag)
    (htype : node.custom.type = h.DISC_MIXER_IS_OP_AMP)
    (hd1 : h.DISC_MIXER_IS_OP_AMP ≠ h.DISC_MIXER_IS_OP_AMP_WITH_RI)
    (hd2 : h.DISC_MIXER_IS_OP_AMP_WITH_RI ≠ h.DISC_MIXER_IS_RESISTOR)
    (hnode : ∀ bit, node.custom.r_node bit = 0) (hfind : find_node 0 = none)
    (hc : ∀ bit, node.custom.c bit = 0) (hcF : node.custom.cF = 0)
    (hcAmp : node.custom.cAmp = 0)
    (_hr : ∀ bit : Nat, (bit : Int) < node.active_inputs - 1 → node.custom.r bit ≠ 0)
    (inputs : Nat → K) (previous : K) (henable : inputs 0 ≠ 0) :
    (node.custom.rI = 0 →
      (dst_mixer_step h exp sample_rate outputs
        { (dst_mixer_reset h exp sample_rate find_node node log).1 with
          input := inputs, output := previous } log2).1.output =
        node.custom.gain * node.custom.rF *
          ∑ bit in Finset.range (node.active_inputs - 1).toNat,
            (node.custom.vRef - inputs (bit + 1)) / node.custom.r bit) ∧
    (node.custom.rI ≠ 0 →
      1 / node.custom.rI +
        ∑ bit in Finset.range (node.active_inputs - 1).toNat, 1 / node.custom.r bit ≠ 0 →
      (dst_mixer_step h exp sample_rate outputs
        { (dst_mixer_reset h exp sample_rate find_node node log).1 with
          input := inputs, output := previous } log2).1.output =
        node.custom.gain *
          (node.custom.vRef + node.custom.rF / node.custom.rI *
            (node.custom.vRef -
              (node.custom.vRef / node.custom.rI +
                  ∑ bit in Finset.range (node.active_inputs - 1).toNat,
                    inputs (bit + 1) / node.custom.r bit) /
                (1 / node.custom.rI +
                  ∑ bit in Finset.range (node.active_inputs - 1).toNat,
                    1 / node.custom.r bit)))) ∧
    (dst_mixer_step h exp sample_rate outputs
      { (dst_mixer_reset h exp sample_rate find_node node log).1 with
        input := inputs, output := previous } log2).1.context =
      (dst_mixer_reset h exp sample_rate find_node node log).1.context := by
  obtain ⟨r1, r2, r3, r4⟩ :=
    mixer_reset_no_r_node h exp sample_rate find_node node log hnode hfind hc
  obtain ⟨r5, r6⟩ := mixer_reset_r_total h exp sample_rate find_node node log hnode hc
  have hstep := mixer_step_no_caps h exp sample_rate outputs
    { (dst_mixer_reset h exp sample_rate find_node node log).1 with
      input := inputs, output := previous } log2 henable r1
    (by rw [r4]; exact hc) (by rw [r4]; exact hcF) (by rw [r4]; exact hcAmp)
  refine ⟨?_, ?_, hstep.2⟩
  · intro hrI
    have hne : ¬ (node.custom.type = h.DISC_MIXER_IS_OP_AMP ∧ node.custom.rI ≠ 0) :=
      fun hh => hh.2 hrI
    rw [if_neg hne, htype] at r3
    simp only [r2, r3, r4, hd1, if_false, if_true] at hstep
    refine hstep.1.trans ?_
    ring
  · intro hrI _
    have hyes : node.custom.type = h.DISC_MIXER_IS_OP_AMP ∧ node.custom.rI ≠ 0 := ⟨htype, hrI⟩
    rw [if_pos hyes] at r3 r5
    have r7 := r6 (by rw [if_pos hyes])
    simp only [r2, r3, r4, r5, r7, hd1.symm, hd2, and_false, if_false, if_true] at hstep
    refine hstep.1.trans ?_
    simp only [add_zero, div_eq_mul_inv, one_mul]
    ring

/-- Witness of C17: the op-amp mixer of two inputs of 1000 ohm with `rI = 0`,
`rF = 2000`, `vRef = 0` and the inputs 5 and 0 outputs -10. -/
theorem dst_mixer_step_op_amp_witness :
    (dst_mixer_step test_discrete_h (fun x => x) 48000 (fun _ => 0)
      { (dst_mixer_reset test_discrete_h (fun x => x) 48000 (fun _ => none)
          (test_node_over [1, 5, 0] 7 test_mixer_context (test_mixer_desc 1 0 2000)) []).1 with
        input := fun i => ([1, 5, 0] : List ℚ).getD i 0, output := 9 } []).1.output = -10 := by
  have hw := (dst_mixer_step_op_amp test_discrete_h (fun x => x) 48000 (fun _ => none)
    (fun _ => 0)
    (test_node_over [1, 5, 0] 7 test_mixer_context (test_mixer_desc 1 0 2000)) [] []
    rfl (by decide) (by decide) (fun _ => rfl) rfl (fun _ => rfl) rfl rfl
    (fun _ _ => by simp [test_node_over, test_mixer_desc])
    (fun i => ([1, 5, 0] : List ℚ).getD i 0) 9 (by decide)).1 rfl
  rw [hw]
  have hn : ((test_node_over [1, 5, 0] 7 test_mixer_context
      (test_mixer_desc 1 0 2000)).active_inputs - 1).toNat = 2 := by decide
  rw [hn]
  simp only [Finset.sum_range_succ, Finset.sum_range_zero, test_mixer_desc, test_node_over]
  norm_num

/-! ## The enable input -/

namespace Double

theorem truthy_zero : truthy 0 = false := by decide

theorem isZero_zero : isZero 0 = true := by decide

end Double

/-- C18: when input slot 0 (enable) is 0, the step of each of the node types
adder, comp_adder, diode_mix, divide, gain, logic inv, and, nand, or, nor, xor
and nxor, D flip-flop, JK flip-flop, lookup_table, mixer, multiplex, samphold,
switch, aswitch, transform and op_amp sets the output to 0, whatever the other
inputs, the static configuration, the context and the previous output are. -/
theorem enable_gating_to_zero {K : Type} [LinearOrderedField K] [FloorRing K] :
    (∀ (node : node_description Unit Unit) (log : List Diag), node.input 0 = 0 →
      (dst_adder_step node log).1.output = 0) ∧
    (∀ (h : discrete_h) (node : node_description_over K Unit (discrete_comp_adder_table K))
        (log : List Diag), node.input 0 = 0 →
      (dst_comp_adder_step h node log).1.output = 0) ∧
    (∀ (node : node_description_over K dst_size_context Unit) (log : List Diag),
      node.input 0 = 0 → (dst_diode_mix_step node log).1.output = 0) ∧
    (∀ (node : node_description Unit Unit) (log : List Diag), node.input 0 = 0 →
      (dst_divide_step node log).1.output = 0) ∧
    (∀ (node : node_description Unit Unit) (log : List Diag), node.input 0 = 0 →
      (dst_gain_step node log).1.output = 0) ∧
    (∀ (node : node_description Unit Unit) (log : List Diag), node.input 0 = 0 →
      (dst_logic_inv_step node log).1.output = 0 ∧
      (dst_logic_and_step node log).1.output = 0 ∧
      (dst_logic_nand_step node log).1.output = 0 ∧
      (dst_logic_or_step node log).1.output = 0 ∧
      (dst_logic_nor_step node log).1.output = 0 ∧
      (dst_logic_xor_step node log).1.output = 0 ∧
      (dst_logic_nxor_step node log).1.output = 0) ∧
    (∀ (node : node_description dst_flipflop_context Unit) (log : List Diag),
      node.input 0 = 0 →
      (dst_logic_dff_step node log).1.output = 0 ∧
      (dst_logic_jkff_step node log).1.output = 0) ∧
    (∀ (node : node_description Unit (Int → Double)) (log : List Diag), node.input 0 = 0 →
      (dst_lookup_table_step node log).1.output = 0) ∧
    (∀ (h : discrete_h) (exp : K → K) (sample_rate : K) (outputs : Nat → K)
        (node : node_description_over K (dst_mixer_context K) (discrete_mixer_desc K))
        (log : List Diag), node.input 0 = 0 →
      (dst_mixer_step h exp sample_rate outputs node log).1.output = 0) ∧
    (∀ (node : node_description dst_size_context Unit) (log : List Diag), node.input 0 = 0 →
      (dst_multiplex_step node log).1.output = 0) ∧
    (∀ (h : discrete_h) (node : node_description dst_samphold_context Unit) (log : List Diag),
      node.input 0 = 0 → (dst_samphold_step h node log).1.output = 0) ∧
    (∀ (node : node_description Unit Unit) (log : List Diag), node.input 0 = 0 →
      (dst_switch_step node log).1.output = 0 ∧
      (dst_aswitch_step node log).1.output = 0) ∧
    (∀ (node : node_description Unit (List Char)) (log : List Diag), node.input 0 = 0 →
      dst_transform_step node log = some ({ node with output := 0 }, log)) ∧
    (∀ (h : discrete_h) (vbe : K)
        (node : node_description_over K (dst_op_amp_context K) (discrete_op_amp_info K))
        (log : List Diag), node.input 0 = 0 →
      (dst_op_amp_step h vbe node log).1.output = 0) := by
  refine ⟨?_, ?_, ?_, ?_, ?_, ?_, ?_, ?_, ?_, ?_, ?_, ?_, ?_, ?_⟩
  · intro node log h0
    simp [dst_adder_step, h0, Double.truthy_zero]
  · intro h node log h0
    simp [dst_comp_adder_step, h0]
  · intro node log h0
    simp [dst_diode_mix_step, h0]
  · intro node log h0
    simp [dst_divide_step, h0, Double.truthy_zero]
  · intro node log h0
    simp [dst_gain_step, h0, Double.truthy_zero]
  · intro node log h0
    simp [dst_logic_inv_step, dst_logic_and_step, dst_logic_nand_step, dst_logic_or_step,
      dst_logic_nor_step, dst_logic_xor_step, dst_logic_nxor_step, h0, Double.truthy_zero]
  · intro node log h0
    simp [dst_logic_dff_step, dst_logic_jkff_step, h0, Double.truthy_zero]
  · intro node log h0
    simp [dst_lookup_table_step, h0, Double.truthy_zero]
  · intro h exp sample_rate outputs node log h0
    simp [dst_mixer_step, h0]
  · intro node log h0
    simp [dst_multiplex_step, h0, Double.truthy_zero]
  · intro h node log h0
    simp [dst_samphold_step, h0, Double.truthy_zero]
  · intro node log h0
    simp [dst_switch_step, dst_aswitch_step, h0, Double.truthy_zero]
  · intro node log h0
    simp [dst_transform_step, h0, Double.truthy_zero]
  · intro h vbe node log h0
    simp [dst_op_amp_step, h0]

/-- Witness of C18: a disabled adder with the inputs 1, 2, 3, 4 and the previous
output 7, and a disabled mixer. -/
theorem enable_gating_to_zero_witness :
    (dst_adder_step (test_node [0, 1, 2, 3, 4] 7 () ()) []).1.output = 0 ∧
    (dst_mixer_step test_discrete_h (fun x => x) 48000 (fun _ => 0)
      (test_node_over [0, 5, 0] 7 test_mixer_context (test_mixer_desc 0 0 0)) []).1.output = 0 :=
  ⟨(enable_gating_to_zero (K := ℚ)).1 (test_node [0, 1, 2, 3, 4] 7 () ()) [] (by decide),
   (enable_gating_to_zero (K := ℚ)).2.2.2.2.2.2.2.2.1 test_discrete_h (fun x => x) 48000
      (fun _ => 0) (test_node_over [0, 5, 0] 7 test_mixer_context (test_mixer_desc 0 0 0)) []
      (by decide)⟩

/-! ## DST_CLAMP and DST_RAMP -/

/-- C19: when the enable input is 0, `dst_clamp_step` sets the output to its
input 4 and `dst_ramp_step` sets the output to its input 5, whatever the other
inputs and the previous output are; the disabled ramp also clears its
last-enable flag, so that the next enabled tick restarts from the START input:
its output is the START input of that tick moved by one step and clamped, and
does not depend on the outputs before it. -/
theorem clamp_valued_disable {K : Type} [LinearOrderedField K] :
    (∀ (node : node_description Unit Unit) (log : List Diag), node.input 0 = 0 →
      (dst_clamp_step node log).1.output = node.input 4) ∧
    (∀ (node : node_description_over K (dss_ramp_context K) Unit) (log : List Diag),
      node.input 0 = 0 →
      (dst_ramp_step node log).1.output = node.input 5 ∧
      (dst_ramp_step node log).1.context.last_en = 0 ∧
      (dst_ramp_step node log).1.context.step = node.context.step ∧
      (dst_ramp_step node log).1.context.dir = node.context.dir ∧
      ∀ (next : Nat → K) (log2 : List Diag), next 0 ≠ 0 →
        (dst_ramp_step { (dst_ramp_step node log).1 with input := next } log2).1.output =
          ramp_advance node.context next (next 3) ∧
        (dst_ramp_step
          { (dst_ramp_step node log).1 with input := next } log2).1.context.last_en = 1) := by
  constructor
  · intro node log h0
    simp [dst_clamp_step, h0, Double.truthy_zero]
  · intro node log h0
    have hstep : dst_ramp_step node log =
        ({ node with output := node.input 5,
                     context := { node.context with last_en := 0 } }, log) := by
      simp [dst_ramp_step, h0]
    rw [hstep]
    refine ⟨rfl, rfl, rfl, rfl, ?_⟩
    intro next log2 hnext
    simp [dst_ramp_step, ramp_advance, hnext]

/-- Witness of C19: a disabled clamp whose input 4 is 9 and a disabled ramp whose
input 5 is 99, both with the previous output 7. -/
theorem clamp_valued_disable_witness :
    (dst_clamp_step (test_node [0, 5, 1, 3, 9] 7 () ()) []).1.output = 9 ∧
    (dst_ramp_step
      (test_node_over [0, 1, 48000, 2, 10, 99] 7
        ({ step := 1, dir := 1, last_en := 1 } : dss_ramp_context ℚ) ()) []).1.output = 99 :=
  ⟨(clamp_valued_disable (K := ℚ)).1 (test_node [0, 5, 1, 3, 9] 7 () ()) [] (by decide),
   ((clamp_valued_disable (K := ℚ)).2
      (test_node_over [0, 1, 48000, 2, 10, 99] 7
        ({ step := 1, dir := 1, last_en := 1 } : dss_ramp_context ℚ) ()) [] (by decide)).1⟩

/-! ## DST_DAC_R1: a bad ladder length -/

/-- C21, counterexample: the reset of a DAC whose ladder has the length 1 does
not fail.  It logs the diagnostic of the short ladder, computes the constants
of the context, sets the output to 0 (it was 7), and the step that follows
produces the voltage of the one resistor.  Every value of the example is a
power of two or a small integer, so that the arithmetic of the code is exact. -/
theorem dst_dac_r1_reset_fatal_counterexample :
    (dst_dac_r1_reset test_discrete_h (fun x => x) 1
      (test_node_over [1, 1, 4] 7 test_dac_context test_short_ladder) []).2
        = [Diag.dac_r1_ladder_too_small] ∧
    (dst_dac_r1_reset test_discrete_h (fun x => x) 1
      (test_node_over [1, 1, 4] 7 test_dac_context test_short_ladder) []).1.output = 0 ∧
    (dst_dac_r1_reset test_discrete_h (fun x => x) 1
      (test_node_over [1, 1, 4] 7 test_dac_context test_short_ladder) []).1.context.r_total
        = 1024 ∧
    (dst_dac_r1_step
      (dst_dac_r1_reset test_discrete_h (fun x => x) 1
        (test_node_over [1, 1, 4] 7 test_dac_context test_short_ladder) []).1 []).1.output
        = 4 := by
  refine ⟨?_, ?_, ?_, ?_⟩
  · simp [dst_dac_r1_reset, test_node_over, test_short_ladder, test_discrete_h]
  · simp [dst_dac_r1_reset]
  · simp [dst_dac_r1_reset, test_node_over, test_short_ladder, List.range_succ]
  · have hbit : (Int.shiftRight 1 0).land 1 = 1 := by decide
    simp [dst_dac_r1_step, dac_r1_voltage, dac_r1_step_bit, dst_dac_r1_reset, test_node_over,
      test_short_ladder, test_dac_context, trunc32, List.range_succ, Double.INT_MIN,
      Double.INT_MAX, hbit]

/-- C21, amended: for a ladder length below 2 (and not above
`DISC_LADDER_MAXRES`, so that every `r[bit]` that is read is an element of the
table), `dst_dac_r1_reset` does not fail: it logs the diagnostic of the short
ladder and then completes as for any other length, setting the output to 0, the
bias current and the total resistance of the context, and leaving the
configuration as it was. -/
theorem dst_dac_r1_reset_bad_length {K : Type} [LinearOrderedField K]
    (h : discrete_h) (exp : K → K) (sample_rate : K)
    (node : node_description_over K (dst_dac_r1_context K) (discrete_dac_r1_ladder K))
    (log : List Diag)
    (hshort : node.custom.ladderLength < 2)
    (htable : node.custom.ladderLength ≤ h.DISC_LADDER_MAXRES) :
    (dst_dac_r1_reset h exp sample_rate node log).2 = log ++ [Diag.dac_r1_ladder_too_small] ∧
    (dst_dac_r1_reset h exp sample_rate node log).1.output = 0 ∧
    (dst_dac_r1_reset h exp sample_rate node log).1.context.i_bias =
      (if node.custom.rBias ≠ 0 then node.custom.vBias / node.custom.rBias else 0) ∧
    (dst_dac_r1_reset h exp sample_rate node log).1.context.r_total =
      1 / ((if node.custom.ladderLength = 1 ∧ node.custom.r 0 ≠ 0 then 1 / node.custom.r 0
            else 0)
          + (if node.custom.rBias ≠ 0 then 1 / node.custom.rBias else 0)
          + (if node.custom.rGnd ≠ 0 then 1 / node.custom.rGnd else 0)) ∧
    (dst_dac_r1_reset h exp sample_rate node log).1.custom = node.custom := by
  refine ⟨?_, rfl, rfl, ?_, rfl⟩
  · simp only [dst_dac_r1_reset]
    rw [if_pos hshort, if_neg (not_lt.2 htable)]
  · have hsum : (List.range node.custom.ladderLength.toNat).foldl
        (fun r_total bit =>
          if node.custom.r bit ≠ 0 then r_total + 1 / node.custom.r bit else r_total) (0 : K) =
        (if node.custom.ladderLength = 1 ∧ node.custom.r 0 ≠ 0 then 1 / node.custom.r 0
          else 0) := by
      by_cases h1 : node.custom.ladderLength = 1
      · rw [h1]
        have hn : Int.toNat 1 = 1 := rfl
        rw [hn]
        simp only [List.range_succ, List.range_zero, List.nil_append, List.foldl_cons,
          List.foldl_nil, zero_add, true_and]
      · have hn : node.custom.ladderLength.toNat = 0 := by omega
        rw [hn, if_neg (fun hh => h1 hh.1)]
        rfl
    simp only [dst_dac_r1_reset]
    rw [hsum]
    by_cases hb : node.custom.rBias ≠ 0
    · by_cases hg : node.custom.rGnd ≠ 0
      · rw [if_pos hb, if_pos hg, if_pos hb, if_pos hg]
      · rw [if_pos hb, if_neg hg, if_pos hb, if_neg hg, add_zero]
    · by_cases hg : node.custom.rGnd ≠ 0
      · rw [if_neg hb, if_pos hg, if_neg hb, if_pos hg, add_zero]
      · rw [if_neg hb, if_neg hg, if_neg hb, if_neg hg, add_zero, add_zero]

/-- Witness of C21: the ladder of length 1, with `DISC_LADDER_MAXRES = 8`. -/
theorem dst_dac_r1_reset_bad_length_witness :
    (dst_dac_r1_reset test_discrete_h (fun x => x) 1
      (test_node_over [1, 1, 4] 7 test_dac_context test_short_ladder) []).2
        = [] ++ [Diag.dac_r1_ladder_too_small] ∧
    (dst_dac_r1_reset test_discrete_h (fun x => x) 1
      (test_node_over [1, 1, 4] 7 test_dac_context test_short_ladder) []).1.output = 0 :=
  ⟨(dst_dac_r1_reset_bad_length test_discrete_h (fun x => x) 1
      (test_node_over [1, 1, 4] 7 test_dac_context test_short_ladder) []
      (by decide) (by decide)).1,
   (dst_dac_r1_reset_bad_length test_discrete_h (fun x => x) 1
      (test_node_over [1, 1, 4] 7 test_dac_context test_short_ladder) []
      (by decide) (by decide)).2.1⟩

/-! ## The previous clock of the flip-flops and of the sample and hold -/

theorem double_lt_self (x : Double) : Double.lt x x = false := by
  cases x <;> simp [Double.lt]

/-- C23: after every `dst_logic_dff_step` and `dst_logic_jkff_step` the stored
`last_clk` is the integer truncation of the clock input of that tick, and after
every `dst_samphold_step` the stored `last_input` is the clock input of that
tick, whatever the enable, reset and set inputs are.  Consequently, when the
clock moves on a disabled tick and keeps its level on the enabled tick that
follows (reset and set not asserted; an edge-triggered sample and hold), that
tick sees no edge: the output stays at the 0 of the disabled tick. -/
theorem previous_clock_bookkeeping (h : discrete_h) :
    (∀ (node : node_description dst_flipflop_context Unit) (log : List Diag),
      (dst_logic_dff_step node log).1.context.last_clk = toInt (node.input 3) ∧
      (dst_logic_jkff_step node log).1.context.last_clk = toInt (node.input 3)) ∧
    (∀ (node : node_description dst_samphold_context Unit) (log : List Diag),
      (dst_samphold_step h node log).1.context.last_input = node.input 2) ∧
    (∀ (node : node_description dst_flipflop_context Unit) (tick1 tick2 : Nat → Double),
      truthy (tick1 0) = false → truthy (tick2 1) = true → truthy (tick2 2) = true →
      toInt (tick2 3) = toInt (tick1 3) →
      (dst_logic_dff_step
        { (dst_logic_dff_step { node with input := tick1 } []).1 with input := tick2 }
        []).1.output = 0 ∧
      (dst_logic_jkff_step
        { (dst_logic_jkff_step { node with input := tick1 } []).1 with input := tick2 }
        []).1.output = 0) ∧
    (∀ (node : node_description dst_samphold_context Unit) (tick1 tick2 : Nat → Double),
      truthy (tick1 0) = false → tick2 2 = tick1 2 →
      node.context.clocktype = h.DISC_SAMPHOLD_REDGE ∨
        node.context.clocktype = h.DISC_SAMPHOLD_FEDGE →
      (dst_samphold_step h
        { (dst_samphold_step h { node with input := tick1 } []).1 with input := tick2 }
        []).1.output = 0) := by
  refine ⟨fun node log => ⟨rfl, rfl⟩, fun node log => rfl, ?_, ?_⟩
  · intro node tick1 tick2 h0 h1 h2 hc
    have h1' : isZero (tick2 1) = false := by simpa [truthy] using h1
    have h2' : isZero (tick2 2) = false := by simpa [truthy] using h2
    constructor
    · simp only [dst_logic_dff_step, h0, h1', h2', hc]
      by_cases hz : toInt (tick1 3) = 0 <;> simp [hz]
    · simp only [dst_logic_jkff_step, h0, h1', h2', hc]
      by_cases hz : toInt (tick1 3) = 0 <;> simp [hz]
  · intro node tick1 tick2 h0 hc ht
    simp only [dst_samphold_step, h0, hc, Double.gt, double_lt_self]
    rcases ht with ht | ht <;> simp [ht]

/-- Witness of C23: a D flip-flop and a JK flip-flop whose clock rises from 0 to
1 on a disabled tick and is still 1 on the next, enabled tick, and a
rising-edge sample and hold whose clock rises from 0 to 5 in the same way. -/
theorem previous_clock_bookkeeping_witness :
    (dst_logic_dff_step
      { (dst_logic_dff_step (test_node [0, 1, 1, 1, 1] 0 (dst_flipflop_context.mk 0) ())
          []).1 with input := fun i => [1, 1, 1, 1, 1].getD i 0 } []).1.output = 0 ∧
    (dst_samphold_step test_discrete_h
      { (dst_samphold_step test_discrete_h
          (test_node [0, 9, 5, 0] 0 (dst_samphold_context.mk 0 0) ()) []).1 with
        input := fun i => [1, 9, 5, 0].getD i 0 } []).1.output = 0 :=
  ⟨((previous_clock_bookkeeping test_discrete_h).2.2.1
      (test_node [0, 1, 1, 1, 1] 0 (dst_flipflop_context.mk 0) ())
      (fun i => [0, 1, 1, 1, 1].getD i 0) (fun i => [1, 1, 1, 1, 1].getD i 0)
      (by decide) (by decide) (by decide) rfl).1,
   (previous_clock_bookkeeping test_discrete_h).2.2.2
      (test_node [0, 9, 5, 0] 0 (dst_samphold_context.mk 0 0) ())
      (fun i => [0, 9, 5, 0].getD i 0) (fun i => [1, 9, 5, 0].getD i 0)
      (by decide) rfl (Or.inl rfl)⟩

/-! ## DST_SAMPHOLD: an invalid clock type -/

/-- C28: an enabled `dst_samphold_step` whose stored clock type is none of
`DISC_SAMPHOLD_REDGE`, `DISC_SAMPHOLD_FEDGE`, `DISC_SAMPHOLD_HLATCH` and
`DISC_SAMPHOLD_LLATCH` returns, having logged exactly one diagnostic, with the
output and the clock type as they were and the clock input of the tick stored
as `last_input`. -/
theorem dst_samphold_step_invalid_clocktype (h : discrete_h)
    (node : node_description dst_samphold_context Unit) (log : List Diag)
    (hen : truthy (node.input 0) = true)
    (h1 : node.context.clocktype ≠ h.DISC_SAMPHOLD_REDGE)
    (h2 : node.context.clocktype ≠ h.DISC_SAMPHOLD_FEDGE)
    (h3 : node.context.clocktype ≠ h.DISC_SAMPHOLD_HLATCH)
    (h4 : node.context.clocktype ≠ h.DISC_SAMPHOLD_LLATCH) :
    (dst_samphold_step h node log).2 = log ++ [Diag.samphold_invalid_clocktype] ∧
    (dst_samphold_step h node log).1.output = node.output ∧
    (dst_samphold_step h node log).1.context.last_input = node.input 2 ∧
    (dst_samphold_step h node log).1.context.clocktype = node.context.clocktype := by
  simp [dst_samphold_step, hen, h1, h2, h3, h4]

/-- Witness of C28: an enabled sample and hold with the clock type 7, the signal
9, the clock 5 and the previous output 3. -/
theorem dst_samphold_step_invalid_clocktype_witness :
    (dst_samphold_step test_discrete_h
      (test_node [1, 9, 5, 7] 3 (dst_samphold_context.mk 0 7) ()) []).2
        = [Diag.samphold_invalid_clocktype] ∧
    (dst_samphold_step test_discrete_h
      (test_node [1, 9, 5, 7] 3 (dst_samphold_context.mk 0 7) ()) []).1.output = 3 ∧
    (dst_samphold_step test_discrete_h
      (test_node [1, 9, 5, 7] 3 (dst_samphold_context.mk 0 7) ()) []).1.context.last_input
        = 5 :=
  ⟨(dst_samphold_step_invalid_clocktype test_discrete_h
      (test_node [1, 9, 5, 7] 3 (dst_samphold_context.mk 0 7) ()) []
      (by decide) (by decide) (by decide) (by decide) (by decide)).1,
   (dst_samphold_step_invalid_clocktype test_discrete_h
      (test_node [1, 9, 5, 7] 3 (dst_samphold_context.mk 0 7) ()) []
      (by decide) (by decide) (by decide) (by decide) (by decide)).2.1,
   (dst_samphold_step_invalid_clocktype test_discrete_h
      (test_node [1, 9, 5, 7] 3 (dst_samphold_context.mk 0 7) ()) []
      (by decide) (by decide) (by decide) (by decide) (by decide)).2.2.1⟩

/-! ## The trigger function -/

/-- C27: when the eight selectors are distinct, `dst_trigger_function` returns
`trig0`, `trig1`, `trig2` for the selectors TRG0, TRG1, TRG2, their logical
negations (1 for 0, and 0 otherwise) for TRG0_INV, TRG1_INV, TRG2_INV, the
logical AND of `trig0` and `trig1` for TRG01_AND, its negation for TRG01_NAND,
and 1 for every other selector; so the result of an inverted selector is
nonzero exactly when that of its counterpart is 0. -/
theorem dst_trigger_function_truth_table (h : discrete_h) (trig0 trig1 trig2 : Int)
    (hd : (trigger_function_labels h).Nodup) :
    dst_trigger_function h trig0 trig1 trig2 h.DISC_OP_AMP_TRIGGER_FUNCTION_TRG0 = trig0 ∧
    dst_trigger_function h trig0 trig1 trig2 h.DISC_OP_AMP_TRIGGER_FUNCTION_TRG0_INV =
      (if trig0 = 0 then 1 else 0) ∧
    dst_trigger_function h trig0 trig1 trig2 h.DISC_OP_AMP_TRIGGER_FUNCTION_TRG1 = trig1 ∧
    dst_trigger_function h trig0 trig1 trig2 h.DISC_OP_AMP_TRIGGER_FUNCTION_TRG1_INV =
      (if trig1 = 0 then 1 else 0) ∧
    dst_trigger_function h trig0 trig1 trig2 h.DISC_OP_AMP_TRIGGER_FUNCTION_TRG2 = trig2 ∧
    dst_trigger_function h trig0 trig1 trig2 h.DISC_OP_AMP_TRIGGER_FUNCTION_TRG2_INV =
      (if trig2 = 0 then 1 else 0) ∧
    dst_trigger_function h trig0 trig1 trig2 h.DISC_OP_AMP_TRIGGER_FUNCTION_TRG01_AND =
      (if trig0 ≠ 0 ∧ trig1 ≠ 0 then 1 else 0) ∧
    dst_trigger_function h trig0 trig1 trig2 h.DISC_OP_AMP_TRIGGER_FUNCTION_TRG01_NAND =
      (if trig0 ≠ 0 ∧ trig1 ≠ 0 then 0 else 1) ∧
    (∀ function : Int, function ∉ trigger_function_labels h →
      dst_trigger_function h trig0 trig1 trig2 function = 1) ∧
    (dst_trigger_function h trig0 trig1 trig2 h.DISC_OP_AMP_TRIGGER_FUNCTION_TRG0_INV ≠ 0 ↔
      dst_trigger_function h trig0 trig1 trig2 h.DISC_OP_AMP_TRIGGER_FUNCTION_TRG0 = 0) ∧
    (dst_trigger_function h trig0 trig1 trig2 h.DISC_OP_AMP_TRIGGER_FUNCTION_TRG1_INV ≠ 0 ↔
      dst_trigger_function h trig0 trig1 trig2 h.DISC_OP_AMP_TRIGGER_FUNCTION_TRG1 = 0) ∧
    (dst_trigger_function h trig0 trig1 trig2 h.DISC_OP_AMP_TRIGGER_FUNCTION_TRG2_INV ≠ 0 ↔
      dst_trigger_function h trig0 trig1 trig2 h.DISC_OP_AMP_TRIGGER_FUNCTION_TRG2 = 0) ∧
    (dst_trigger_function h trig0 trig1 trig2 h.DISC_OP_AMP_TRIGGER_FUNCTION_TRG01_NAND ≠ 0 ↔
      dst_trigger_function h trig0 trig1 trig2 h.DISC_OP_AMP_TRIGGER_FUNCTION_TRG01_AND = 0) := by
  simp only [trigger_function_labels, List.nodup_cons, List.mem_cons, List.mem_singleton,
    List.not_mem_nil, not_or, or_false, List.nodup_nil, and_true, not_false_eq_true] at hd
  obtain ⟨⟨a1, a2, a3, a4, a5, a6, a7⟩, ⟨b2, b3, b4, b5, b6, b7⟩, ⟨c3, c4, c5, c6, c7⟩,
    ⟨d4, d5, d6, d7⟩, ⟨e5, e6, e7⟩, ⟨f6, f7⟩, g7⟩ := hd
  have r0 : dst_trigger_function h trig0 trig1 trig2 h.DISC_OP_AMP_TRIGGER_FUNCTION_TRG0
      = trig0 := by
    simp [dst_trigger_function]
  have r1 : dst_trigger_function h trig0 trig1 trig2 h.DISC_OP_AMP_TRIGGER_FUNCTION_TRG0_INV
      = (if trig0 = 0 then 1 else 0) := by
    simp [dst_trigger_function, Ne.symm a1]
  have r2 : dst_trigger_function h trig0 trig1 trig2 h.DISC_OP_AMP_TRIGGER_FUNCTION_TRG1
      = trig1 := by
    simp [dst_trigger_function, Ne.symm a2, Ne.symm b2]
  have r3 : dst_trigger_function h trig0 trig1 trig2 h.DISC_OP_AMP_TRIGGER_FUNCTION_TRG1_INV
      = (if trig1 = 0 then 1 else 0) := by
    simp [dst_trigger_function, Ne.symm a3, Ne.symm b3, Ne.symm c3]
  have r4 : dst_trigger_function h trig0 trig1 trig2 h.DISC_OP_AMP_TRIGGER_FUNCTION_TRG2
      = trig2 := by
    simp [dst_trigger_function, Ne.symm a4, Ne.symm b4, Ne.symm c4, Ne.symm d4]
  have r5 : dst_trigger_function h trig0 trig1 trig2 h.DISC_OP_AMP_TRIGGER_FUNCTION_TRG2_INV
      = (if trig2 = 0 then 1 else 0) := by
    simp [dst_trigger_function, Ne.symm a5, Ne.symm b5, Ne.symm c5, Ne.symm d5, Ne.symm e5]
  have r6 : dst_trigger_function h trig0 trig1 trig2 h.DISC_OP_AMP_TRIGGER_FUNCTION_TRG01_AND
      = (if trig0 ≠ 0 ∧ trig1 ≠ 0 then 1 else 0) := by
    simp [dst_trigger_function, Ne.symm a6, Ne.symm b6, Ne.symm c6, Ne.symm d6, Ne.symm e6,
      Ne.symm f6]
  have r7 : dst_trigger_function h trig0 trig1 trig2 h.DISC_OP_AMP_TRIGGER_FUNCTION_TRG01_NAND
      = (if trig0 ≠ 0 ∧ trig1 ≠ 0 then 0 else 1) := by
    simp [dst_trigger_function, Ne.symm a7, Ne.symm b7, Ne.symm c7, Ne.symm d7, Ne.symm e7,
      Ne.symm f7, Ne.symm g7]
  refine ⟨r0, r1, r2, r3, r4, r5, r6, r7, ?_, ?_, ?_, ?_, ?_⟩
  · intro function hf
    simp only [trigger_function_labels, List.mem_cons, List.mem_singleton, List.not_mem_nil,
      not_or, or_false] at hf
    obtain ⟨f0, f1, f2, f3, f4, f5, f6', f7'⟩ := hf
    simp [dst_trigger_function, f0, f1, f2, f3, f4, f5, f6', f7']
  · rw [r0, r1]; split_ifs <;> simp_all
  · rw [r2, r3]; split_ifs <;> simp_all
  · rw [r4, r5]; split_ifs <;> simp_all
  · rw [r6, r7]; split_ifs <;> simp_all

/-- Witness of C27: the triggers 5, 0 and -3, with the selectors 1 to 8. -/
theorem dst_trigger_function_truth_table_witness :
    dst_trigger_function test_discrete_h 5 0 (-3) 1 = 5 ∧
    dst_trigger_function test_discrete_h 5 0 (-3) 2 = 0 ∧
    dst_trigger_function test_discrete_h 5 0 (-3) 4 = 1 ∧
    dst_trigger_function test_discrete_h 5 0 (-3) 5 = -3 ∧
    dst_trigger_function test_discrete_h 5 0 (-3) 8 = 1 ∧
    dst_trigger_function test_discrete_h 5 0 (-3) 0 = 1 :=
  ⟨(dst_trigger_function_truth_table test_discrete_h 5 0 (-3) (by decide)).1,
   (dst_trigger_function_truth_table test_discrete_h 5 0 (-3) (by decide)).2.1,
   (dst_trigger_function_truth_table test_discrete_h 5 0 (-3) (by decide)).2.2.2.1,
   (dst_trigger_function_truth_table test_discrete_h 5 0 (-3) (by decide)).2.2.2.2.1,
   (dst_trigger_function_truth_table test_discrete_h 5 0 (-3) (by decide)).2.2.2.2.2.2.2.1,
   (dst_trigger_function_truth_table test_discrete_h 5 0 (-3) (by decide)).2.2.2.2.2.2.2.2.1
      0 (by decide)⟩

/-! ## DST_RAMP: the direction flag -/

/-- C30: `dst_ramp_reset` compares `END - START` with the `abs` of its integer
truncation, so when END is higher than START and their difference is not an
integer, the direction flag is 0, not 1. -/
theorem dst_ramp_reset_dir_not_integer {K : Type} [LinearOrderedField K] [FloorRing K]
    (sample_rate : K) (node : node_description_over K (dss_ramp_context K) Unit)
    (log : List Diag) (hfrac : ∀ n : Int, node.input 4 - node.input 3 ≠ (n : K)) :
    (dst_ramp_reset sample_rate node log).1.context.dir = 0 := by
  simp only [dst_ramp_reset]
  rw [if_neg (hfrac _)]

/-- Witness of C30: START = 0 and END = 5/2, at the sample rate 1: END is higher
than START and the direction flag is 0. -/
theorem dst_ramp_reset_dir_not_integer_witness :
    (test_node_over [1, 0, 1, 0, 5 / 2, 0] 0 (dss_ramp_context.mk (0 : ℚ) 1 0) ()).input 3 <
      (test_node_over [1, 0, 1, 0, 5 / 2, 0] 0 (dss_ramp_context.mk (0 : ℚ) 1 0) ()).input 4 ∧
    (dst_ramp_reset (1 : ℚ)
      (test_node_over [1, 0, 1, 0, 5 / 2, 0] 0 (dss_ramp_context.mk 0 1 0) ()) []).1.context.dir
        = 0 :=
  ⟨by simp [test_node_over],
   dst_ramp_reset_dir_not_integer (1 : ℚ)
    (test_node_over [1, 0, 1, 0, 5 / 2, 0] 0 (dss_ramp_context.mk 0 1 0) ()) []
    (by
      intro n hn
      simp only [test_node_over, List.getD_cons_succ, List.getD_cons_zero, sub_zero] at hn
      have h2 : ((2 * n : Int) : ℚ) = ((5 : Int) : ℚ) := by
        push_cast
        rw [← hn]
        norm_num
      have h3 : 2 * n = 5 := by exact_mod_cast h2
      omega)⟩

/-! ## DST_ONESHOT -/

section oneshot

variable {K : Type} [LinearOrderedField K] [FloorRing K]

/-- A tick with the reset input 0 and an edge of the configured direction goes
through the branch of `dst_oneshot_step` that tests `context->state`. -/
theorem oneshot_edge_of_trigger_edge (h : discrete_h)
    (node : node_description_over K (dst_oneshot_context K) Unit)
    (he : oneshot_trigger_edge h node.context.last_trig node.input) :
    oneshot_edge h (if node.input 1 ≠ 0 then 1 else 0) (trunc32 (node.input 4)) node =
      if node.context.state = 0 then
        ({ node with
            output :=
              if Int.land (trunc32 (node.input 4)) h.DISC_OUT_ACTIVE_LOW ≠ 0 then 0
              else node.input 2,
            context :=
              { countdown := node.input 3, state := 1,
                last_trig := if node.input 1 ≠ 0 then 1 else 0 } },
          node.context.state)
      else if Int.land (trunc32 (node.input 4)) h.DISC_ONESHOT_RETRIG ≠ 0 then
        ({ node with
            context := { node.context with
              last_trig := if node.input 1 ≠ 0 then 1 else 0, countdown := node.input 3 } },
          0)
      else
        ({ node with context := { node.context with
            last_trig := if node.input 1 ≠ 0 then 1 else 0 } },
          node.context.state) := by
  unfold oneshot_trigger_edge at he
  by_cases hb : Int.land (trunc32 (node.input 4)) h.DISC_ONESHOT_REDGE ≠ 0
  · rw [if_pos hb] at he
    obtain ⟨h0, h1⟩ := he
    simp only [oneshot_edge, h0, if_pos h1, if_pos hb]
    simp
  · rw [if_neg hb] at he
    obtain ⟨h0, h1⟩ := he
    have h1' : ¬ node.input 1 ≠ 0 := by simpa using h1
    simp only [oneshot_edge, if_neg h1', if_neg hb]
    simp [Ne.symm h0]

/-- A tick with the reset input 0 and no edge of the configured direction only
records the trigger level before it counts. -/
theorem oneshot_edge_of_no_trigger_edge (h : discrete_h)
    (node : node_description_over K (dst_oneshot_context K) Unit)
    (hl : node.context.last_trig = 0 ∨ node.context.last_trig = 1)
    (he : ¬ oneshot_trigger_edge h node.context.last_trig node.input) :
    oneshot_edge h (if node.input 1 ≠ 0 then 1 else 0) (trunc32 (node.input 4)) node =
      ({ node with context := { node.context with
          last_trig := if node.input 1 ≠ 0 then 1 else 0 } },
        node.context.state) := by
  obtain ⟨n, inp, a, o, ⟨cd, st, lt⟩, cu⟩ := node
  simp only [oneshot_trigger_edge] at he hl
  simp only [oneshot_edge]
  by_cases hb : Int.land (trunc32 (inp 4)) h.DISC_ONESHOT_REDGE ≠ 0
  · rw [if_pos hb] at he
    by_cases h1 : inp 1 ≠ 0
    · have h0 : lt = 1 := by
        rcases hl with hl | hl
        · exact absurd ⟨hl, h1⟩ he
        · exact hl
      subst h0
      simp [h1]
    · by_cases h0 : lt = 0
      · subst h0
        simp [h1]
      · simp [h1, hb, Ne.symm h0]
  · rw [if_neg hb] at he
    by_cases h1 : inp 1 ≠ 0
    · by_cases h0 : lt = 1
      · subst h0
        simp [h1]
      · simp [h1, hb, Ne.symm h0]
    · have h1' : inp 1 = 0 := by simpa using h1
      have h0 : lt = 0 := by
        by_contra hne
        exact he ⟨hne, h1'⟩
      subst h0
      simp [h1]

end oneshot

section oneshot

variable {K : Type} [LinearOrderedField K] [FloorRing K]

theorem trunc32_intCast (n : Int) (h1 : Double.INT_MIN ≤ n) (h2 : n ≤ Double.INT_MAX) :
    trunc32 ((n : Int) : K) = n := by
  simp [trunc32, h1, h2]

/-- C24: in `dst_oneshot_step` with the reset input 0 and the one-shot idle
(state 0, the trigger level of the tick before stored as 0 or 1), a change of
the trigger level in the configured direction sets the state to 1, loads the
countdown with the WIDTH input and sets the output to the AMP input, or to 0
when `DISC_OUT_ACTIVE_LOW` is set; any other trigger level leaves the state,
the countdown and the output as they were.  With the reset input nonzero the
output and the state are 0.  Nothing is logged. -/
theorem dst_oneshot_step_firing_rule (h : discrete_h) (sample_time : K)
    (node : node_description_over K (dst_oneshot_context K) Unit) (log : List Diag)
    (hl : node.context.last_trig = 0 ∨ node.context.last_trig = 1) :
    (node.input 0 = 0 → node.context.state = 0 →
      (oneshot_trigger_edge h node.context.last_trig node.input →
        (dst_oneshot_step h sample_time node log).1.context.state = 1 ∧
        (dst_oneshot_step h sample_time node log).1.context.countdown = node.input 3 ∧
        (dst_oneshot_step h sample_time node log).1.output =
          (if Int.land (trunc32 (node.input 4)) h.DISC_OUT_ACTIVE_LOW ≠ 0 then 0
            else node.input 2)) ∧
      (¬ oneshot_trigger_edge h node.context.last_trig node.input →
        (dst_oneshot_step h sample_time node log).1.context.state = 0 ∧
        (dst_oneshot_step h sample_time node log).1.context.countdown =
          node.context.countdown ∧
        (dst_oneshot_step h sample_time node log).1.output = node.output)) ∧
    (node.input 0 ≠ 0 →
      (dst_oneshot_step h sample_time node log).1.output = 0 ∧
      (dst_oneshot_step h sample_time node log).1.context.state = 0) ∧
    (dst_oneshot_step h sample_time node log).2 = log := by
  refine ⟨fun hr hs => ⟨fun he => ?_, fun he => ?_⟩, fun hr => ?_, ?_⟩
  · simp only [dst_oneshot_step, hr, ne_eq, not_true_eq_false, if_false]
    rw [oneshot_edge_of_trigger_edge h node he, if_pos hs]
    simp [oneshot_count, hs]
  · simp only [dst_oneshot_step, hr, ne_eq, not_true_eq_false, if_false]
    rw [oneshot_edge_of_no_trigger_edge h node hl he]
    simp [oneshot_count, hs]
  · simp [dst_oneshot_step, hr]
  · simp only [dst_oneshot_step]
    split_ifs <;> rfl

/-- Witness of C24: an idle rising-edge one-shot whose trigger goes from 0 to 1,
with AMP = 5 and WIDTH = 3; the same one-shot with the reset input 1. -/
theorem dst_oneshot_step_firing_rule_witness :
    (dst_oneshot_step test_discrete_h (1 : ℚ)
      (test_node_over [0, 1, 5, 3, 1] 0 test_oneshot_context ()) []).1.context.state = 1 ∧
    (dst_oneshot_step test_discrete_h (1 : ℚ)
      (test_node_over [0, 1, 5, 3, 1] 0 test_oneshot_context ()) []).1.context.countdown = 3 ∧
    (dst_oneshot_step test_discrete_h (1 : ℚ)
      (test_node_over [0, 1, 5, 3, 1] 0 test_oneshot_context ()) []).1.output = 5 ∧
    (dst_oneshot_step test_discrete_h (1 : ℚ)
      (test_node_over [1, 1, 5, 3, 1] 7 test_oneshot_context ()) []).1.output = 0 := by
  have hty : trunc32 ((test_node_over [0, 1, 5, 3, 1] 0 test_oneshot_context ()).input 4) = 1 :=
    trunc32_intCast (K := ℚ) 1 (by decide) (by decide)
  have hfire := ((dst_oneshot_step_firing_rule test_discrete_h (1 : ℚ)
    (test_node_over [0, 1, 5, 3, 1] 0 test_oneshot_context ()) [] (Or.inl rfl)).1 rfl rfl).1
    (by
      unfold oneshot_trigger_edge
      rw [hty, if_pos (by decide)]
      exact ⟨rfl, by simp [test_node_over]⟩)
  have hreset := ((dst_oneshot_step_firing_rule test_discrete_h (1 : ℚ)
    (test_node_over [1, 1, 5, 3, 1] 7 test_oneshot_context ()) [] (Or.inl rfl)).2.1
    (by simp [test_node_over])).1
  rw [hty, if_neg (by decide)] at hfire
  exact ⟨hfire.1, hfire.2.1, hfire.2.2, hreset⟩

/-- C26: when an edge of the configured direction arrives while the pulse is
active (state 1) and the reset input is 0, then with `DISC_ONESHOT_RETRIG` set
the countdown is reloaded with the WIDTH input and not decremented on that tick,
and the output and the state stay as they were; without it the tick is that of
the same node in which the trigger level had not changed: the countdown is
decremented by `sample_time` and, when it reaches 0 or less, countdown and state
are set to 0 and the output to its idle level. -/
theorem dst_oneshot_step_retrigger (h : discrete_h) (sample_time : K)
    (node : node_description_over K (dst_oneshot_context K) Unit) (log : List Diag)
    (hr : node.input 0 = 0) (hs : node.context.state = 1)
    (he : oneshot_trigger_edge h node.context.last_trig node.input) :
    (Int.land (trunc32 (node.input 4)) h.DISC_ONESHOT_RETRIG ≠ 0 →
      (dst_oneshot_step h sample_time node log).1.context.countdown = node.input 3 ∧
      (dst_oneshot_step h sample_time node log).1.output = node.output ∧
      (dst_oneshot_step h sample_time node log).1.context.state = 1) ∧
    (Int.land (trunc32 (node.input 4)) h.DISC_ONESHOT_RETRIG = 0 →
      (dst_oneshot_step h sample_time node log).1.context.countdown =
        (if node.context.countdown - sample_time ≤ 0 then 0
          else node.context.countdown - sample_time) ∧
      (dst_oneshot_step h sample_time node log).1.context.state =
        (if node.context.countdown - sample_time ≤ 0 then 0 else 1) ∧
      (dst_oneshot_step h sample_time node log).1.output =
        (if node.context.countdown - sample_time ≤ 0 then
          (if Int.land (trunc32 (node.input 4)) h.DISC_OUT_ACTIVE_LOW ≠ 0 then node.input 2
            else 0)
        else node.output) ∧
      (dst_oneshot_step h sample_time node log).1 =
        (dst_oneshot_step h sample_time
          { node with context := { node.context with
              last_trig := if node.input 1 ≠ 0 then 1 else 0 } } log).1) := by
  have hs0 : ¬ node.context.state = 0 := by rw [hs]; decide
  constructor
  · intro hre
    simp only [dst_oneshot_step, hr, ne_eq, not_true_eq_false, if_false]
    rw [oneshot_edge_of_trigger_edge h node he, if_neg hs0, if_pos hre]
    simp [oneshot_count, hs]
  · intro hre
    have hstep : (dst_oneshot_step h sample_time node log).1 =
        oneshot_count h sample_time (trunc32 (node.input 4)) node.context.state
          { node with context := { node.context with
              last_trig := if node.input 1 ≠ 0 then 1 else 0 } } := by
      simp only [dst_oneshot_step, hr, ne_eq, not_true_eq_false, if_false]
      rw [oneshot_edge_of_trigger_edge h node he, if_neg hs0,
        if_neg (by simpa using hre)]
    refine ⟨?_, ?_, ?_, ?_⟩
    · rw [hstep]
      by_cases hc : node.context.countdown - sample_time ≤ 0 <;> simp [oneshot_count, hs, hc]
    · rw [hstep]
      by_cases hc : node.context.countdown - sample_time ≤ 0 <;> simp [oneshot_count, hs, hc]
    · rw [hstep]
      by_cases hc : node.context.countdown - sample_time ≤ 0 <;> simp [oneshot_count, hs, hc]
    · rw [hstep]
      simp only [dst_oneshot_step, hr, ne_eq, not_true_eq_false, if_false, oneshot_edge]

end oneshot

/-- Witness of C26: an active rising-edge one-shot with the countdown 3 whose
trigger goes from 0 to 1, at the sample time 1: with `DISC_ONESHOT_RETRIG` (type
3) the countdown is reloaded with the WIDTH input 4, without it (type 1) it is
decremented to 2. -/
theorem dst_oneshot_step_retrigger_witness :
    (dst_oneshot_step test_discrete_h (1 : ℚ)
      (test_node_over [0, 1, 5, 4, 3] 5 (dst_oneshot_context.mk 3 1 0) ())
      []).1.context.countdown = 4 ∧
    (dst_oneshot_step test_discrete_h (1 : ℚ)
      (test_node_over [0, 1, 5, 4, 1] 5 (dst_oneshot_context.mk 3 1 0) ())
      []).1.context.countdown = 2 := by
  have hty3 : trunc32 ((test_node_over [0, 1, 5, 4, 3] 5
      (dst_oneshot_context.mk (3 : ℚ) 1 0) ()).input 4) = 3 :=
    trunc32_intCast (K := ℚ) 3 (by decide) (by decide)
  have hty1 : trunc32 ((test_node_over [0, 1, 5, 4, 1] 5
      (dst_oneshot_context.mk (3 : ℚ) 1 0) ()).input 4) = 1 :=
    trunc32_intCast (K := ℚ) 1 (by decide) (by decide)
  have hre := ((dst_oneshot_step_retrigger test_discrete_h (1 : ℚ)
    (test_node_over [0, 1, 5, 4, 3] 5 (dst_oneshot_context.mk 3 1 0) ()) [] rfl rfl
    (by
      unfold oneshot_trigger_edge
      rw [hty3, if_pos (by decide)]
      exact ⟨rfl, by simp [test_node_over]⟩)).1
    (by rw [hty3]; decide)).1
  have hno := ((dst_oneshot_step_retrigger test_discrete_h (1 : ℚ)
    (test_node_over [0, 1, 5, 4, 1] 5 (dst_oneshot_context.mk 3 1 0) ()) [] rfl rfl
    (by
      unfold oneshot_trigger_edge
      rw [hty1, if_pos (by decide)]
      exact ⟨rfl, by simp [test_node_over]⟩)).2
    (by rw [hty1]; decide)).1
  refine ⟨hre, hno.trans ?_⟩
  norm_num [test_node_over]

section oneshot

variable {K : Type} [LinearOrderedField K] [FloorRing K]

/-- For a positive sample time there is a least number of ticks, at least 1,
after which a countdown loaded with `W` has run out. -/
theorem exists_least_expiry (W dt : K) (hdt : 0 < dt) :
    ∃ n : Nat, 1 ≤ n ∧ W - n * dt ≤ 0 ∧ ∀ j : Nat, 1 ≤ j → j < n → 0 < W - j * dt := by
  classical
  have hex : ∃ n : Nat, 1 ≤ n ∧ W - n * dt ≤ 0 := by
    obtain ⟨n, hn⟩ := exists_nat_gt (W / dt)
    refine ⟨n + 1, Nat.le_add_left 1 n, ?_⟩
    have h1 : W < n * dt := (div_lt_iff₀ hdt).1 hn
    push_cast
    nlinarith
  refine ⟨Nat.find hex, (Nat.find_spec hex).1, (Nat.find_spec hex).2, ?_⟩
  intro j hj1 hjlt
  by_contra hle
  exact Nat.find_min hex hjlt ⟨hj1, not_lt.1 hle⟩

/-- An active one-shot on a tick with the reset input 0 and no edge of the
configured direction: the tick records the trigger level and counts. -/
theorem oneshot_step_quiet (h : discrete_h) (sample_time : K)
    (node : node_description_over K (dst_oneshot_context K) Unit) (log : List Diag)
    (hl : node.context.last_trig = 0 ∨ node.context.last_trig = 1)
    (hr : node.input 0 = 0)
    (he : ¬ oneshot_trigger_edge h node.context.last_trig node.input) :
    (dst_oneshot_step h sample_time node log).1 =
      oneshot_count h sample_time (trunc32 (node.input 4)) node.context.state
        { node with context := { node.context with
            last_trig := if node.input 1 ≠ 0 then 1 else 0 } } := by
  simp only [dst_oneshot_step, hr, ne_eq, not_true_eq_false, if_false]
  rw [oneshot_edge_of_no_trigger_edge h node hl he]

end oneshot

/-- With the exact subtraction, the countdown after `k` subtractions is
`c - k * sample_time`. -/
theorem countdown_after_exact {K : Type} [LinearOrderedField K] (sample_time : K) :
    ∀ (k : Nat) (c : K),
      countdown_after (fun a b => a - b) sample_time k c = c - k * sample_time := by
  intro k
  induction k with
  | zero => intro c; simp [countdown_after]
  | succ m ih =>
    intro c
    rw [countdown_after, ih]
    push_cast
    ring

section oneshot

variable {K : Type} [LinearOrderedField K] [FloorRing K]

/-- With the exact subtraction, `dst_oneshot_step_with` is `dst_oneshot_step`. -/
theorem dst_oneshot_step_with_exact (h : discrete_h) (sample_time : K)
    (node : node_description_over K (dst_oneshot_context K) Unit) (log : List Diag) :
    dst_oneshot_step_with (fun a b => a - b) h sample_time node log =
      dst_oneshot_step h sample_time node log :=
  rfl

/-- An active one-shot on a tick with the reset input 0 and no edge of the
configured direction: the tick records the trigger level and counts. -/
theorem oneshot_step_with_quiet (sub : K → K → K) (h : discrete_h) (sample_time : K)
    (node : node_description_over K (dst_oneshot_context K) Unit) (log : List Diag)
    (hl : node.context.last_trig = 0 ∨ node.context.last_trig = 1)
    (hr : node.input 0 = 0)
    (he : ¬ oneshot_trigger_edge h node.context.last_trig node.input) :
    (dst_oneshot_step_with sub h sample_time node log).1 =
      oneshot_count_with sub h sample_time (trunc32 (node.input 4)) node.context.state
        { node with context := { node.context with
            last_trig := if node.input 1 ≠ 0 then 1 else 0 } } := by
  simp only [dst_oneshot_step_with, hr, ne_eq, not_true_eq_false, if_false]
  rw [oneshot_edge_of_no_trigger_edge h node hl he]

/-- While the countdown has not run out, the ticks of an active one-shot without
reset and without an edge of the configured direction only decrement it. -/
theorem oneshot_run_with_active (sub : K → K → K) (h : discrete_h) (sample_time : K) :
    ∀ (ticks : List (Nat → K)) (node : node_description_over K (dst_oneshot_context K) Unit),
      (node.context.last_trig = 0 ∨ node.context.last_trig = 1) →
      node.context.state = 1 →
      oneshot_quiet h node.context.last_trig ticks →
      (∀ j : Nat, 1 ≤ j → j ≤ ticks.length →
        0 < countdown_after sub sample_time j node.context.countdown) →
      (oneshot_run_with sub h sample_time ticks node).context.state = 1 ∧
      (oneshot_run_with sub h sample_time ticks node).context.countdown =
        countdown_after sub sample_time ticks.length node.context.countdown ∧
      (oneshot_run_with sub h sample_time ticks node).output = node.output ∧
      ((oneshot_run_with sub h sample_time ticks node).context.last_trig = 0 ∨
        (oneshot_run_with sub h sample_time ticks node).context.last_trig = 1) := by
  intro ticks
  induction ticks with
  | nil =>
    intro node hl hs _ _
    simp [oneshot_run_with, countdown_after, hs, hl]
  | cons tick rest ih =>
    intro node hl hs hq hpos
    obtain ⟨hr, he, hq'⟩ := hq
    have h1 : ¬ sub node.context.countdown sample_time ≤ 0 := by
      have := hpos 1 (le_refl 1) (by simp)
      exact not_le.2 this
    have hstep : (dst_oneshot_step_with sub h sample_time { node with input := tick } []).1 =
        { node with
          input := tick,
          context := { node.context with
            last_trig := if tick 1 ≠ 0 then 1 else 0,
            countdown := sub node.context.countdown sample_time } } := by
      rw [oneshot_step_with_quiet sub h sample_time { node with input := tick } [] hl hr he]
      simp [oneshot_count_with, hs, h1]
    have hl2 : (if tick 1 ≠ 0 then (1 : Int) else 0) = 0 ∨
        (if tick 1 ≠ 0 then (1 : Int) else 0) = 1 := by
      split_ifs
      · exact Or.inr rfl
      · exact Or.inl rfl
    have hrec := ih
      { node with
        input := tick,
        context := { node.context with
          last_trig := if tick 1 ≠ 0 then 1 else 0,
          countdown := sub node.context.countdown sample_time } }
      hl2 hs hq'
      (fun j hj1 hjl => hpos (j + 1) (Nat.le_add_left 1 j) (by simpa using hjl))
    simp only [oneshot_run_with, hstep]
    exact ⟨hrec.1, hrec.2.1, hrec.2.2.1, hrec.2.2.2⟩

/-- C25, amended: let an idle one-shot fire on a tick (reset input 0, an edge of
the configured direction) with WIDTH = W, and let `c_k` be the result of `k`
executions of `countdown -= sample_time` from W in the arithmetic of the code
(`sub`).  For every n >= 1 with `c_n <= 0` and `0 < c_j` for `1 <= j < n`: after
k < n further ticks without reset and without an edge of the configured
direction the state is 1, the countdown is `c_k` and the output is still the
active level (AMP, or 0 for active-low), and the n-th such tick sets the state
and the countdown to 0 and the output to the idle level (0, or AMP for
active-low).  When the subtraction is exact and the sample time dt is greater
than 0, `c_k` is W - k*dt and there is such an n. -/
theorem oneshot_pulse_width (sub : K → K → K) (h : discrete_h) (sample_time : K)
    (node : node_description_over K (dst_oneshot_context K) Unit)
    (hr : node.input 0 = 0) (hs : node.context.state = 0)
    (he : oneshot_trigger_edge h node.context.last_trig node.input) :
    (∀ n : Nat, 1 ≤ n → countdown_after sub sample_time n (node.input 3) ≤ 0 →
      (∀ j : Nat, 1 ≤ j → j < n → 0 < countdown_after sub sample_time j (node.input 3)) →
      ∀ ticks : List (Nat → K),
        oneshot_quiet h (if node.input 1 ≠ 0 then 1 else 0) ticks → ticks.length < n →
        ((oneshot_run_with sub h sample_time ticks
            (dst_oneshot_step_with sub h sample_time node []).1).context.state = 1 ∧
          (oneshot_run_with sub h sample_time ticks
            (dst_oneshot_step_with sub h sample_time node []).1).context.countdown =
              countdown_after sub sample_time ticks.length (node.input 3) ∧
          (oneshot_run_with sub h sample_time ticks
            (dst_oneshot_step_with sub h sample_time node []).1).output =
              (if Int.land (trunc32 (node.input 4)) h.DISC_OUT_ACTIVE_LOW ≠ 0 then 0
                else node.input 2)) ∧
        (ticks.length + 1 = n → ∀ last : Nat → K, last 0 = 0 →
          ¬ oneshot_trigger_edge h
            (oneshot_run_with sub h sample_time ticks
              (dst_oneshot_step_with sub h sample_time node []).1).context.last_trig last →
          (dst_oneshot_step_with sub h sample_time
            { oneshot_run_with sub h sample_time ticks
                (dst_oneshot_step_with sub h sample_time node []).1 with
              input := last } []).1.context.state = 0 ∧
          (dst_oneshot_step_with sub h sample_time
            { oneshot_run_with sub h sample_time ticks
                (dst_oneshot_step_with sub h sample_time node []).1 with
              input := last } []).1.context.countdown = 0 ∧
          (dst_oneshot_step_with sub h sample_time
            { oneshot_run_with sub h sample_time ticks
                (dst_oneshot_step_with sub h sample_time node []).1 with
              input := last } []).1.output =
              (if Int.land (trunc32 (last 4)) h.DISC_OUT_ACTIVE_LOW ≠ 0 then last 2
                else 0))) ∧
    ((∀ a b : K, sub a b = a - b) → 0 < sample_time →
      (∀ k : Nat,
        countdown_after sub sample_time k (node.input 3) = node.input 3 - k * sample_time) ∧
      ∃ n : Nat, 1 ≤ n ∧ countdown_after sub sample_time n (node.input 3) ≤ 0 ∧
        ∀ j : Nat, 1 ≤ j → j < n → 0 < countdown_after sub sample_time j (node.input 3)) := by
  constructor
  · intro n _ hn hmin ticks hq hlen
    have hfired : (dst_oneshot_step_with sub h sample_time node []).1 =
        { node with
          output :=
            if Int.land (trunc32 (node.input 4)) h.DISC_OUT_ACTIVE_LOW ≠ 0 then 0
            else node.input 2,
          context :=
            { countdown := node.input 3, state := 1,
              last_trig := if node.input 1 ≠ 0 then 1 else 0 } } := by
      simp only [dst_oneshot_step_with, hr, ne_eq, not_true_eq_false, if_false]
      rw [oneshot_edge_of_trigger_edge h node he, if_pos hs]
      simp [oneshot_count_with, hs]
    have hl2 : (if node.input 1 ≠ 0 then (1 : Int) else 0) = 0 ∨
        (if node.input 1 ≠ 0 then (1 : Int) else 0) = 1 := by
      split_ifs
      · exact Or.inr rfl
      · exact Or.inl rfl
    have hrun := oneshot_run_with_active sub h sample_time ticks
      { node with
        output :=
          if Int.land (trunc32 (node.input 4)) h.DISC_OUT_ACTIVE_LOW ≠ 0 then 0
          else node.input 2,
        context :=
          { countdown := node.input 3, state := 1,
            last_trig := if node.input 1 ≠ 0 then 1 else 0 } }
      hl2 rfl hq (fun j hj1 hjl => hmin j hj1 (lt_of_le_of_lt hjl hlen))
    rw [hfired]
    generalize oneshot_run_with sub h sample_time ticks _ = R at hrun ⊢
    refine ⟨⟨hrun.1, hrun.2.1, hrun.2.2.1⟩, ?_⟩
    intro hlast last hr2 he2
    have hcount : ∀ (k : Nat) (c : K),
        countdown_after sub sample_time (k + 1) c =
          sub (countdown_after sub sample_time k c) sample_time := by
      intro k
      induction k with
      | zero => intro c; rfl
      | succ m ihm => intro c; exact ihm (sub c sample_time)
    have hexp : sub (countdown_after sub sample_time ticks.length (node.input 3))
        sample_time ≤ 0 := by
      rw [← hcount, hlast]
      exact hn
    rw [oneshot_step_with_quiet sub h sample_time { R with input := last } [] hrun.2.2.2 hr2
      he2]
    have hcd := hrun.2.1
    have hst := hrun.1
    simp only at hcd hst hexp
    simp [oneshot_count_with, hst, hcd, hexp]
  · intro hsub hdt
    have hfun : sub = fun a b => a - b := funext fun a => funext fun b => hsub a b
    subst hfun
    refine ⟨fun k => countdown_after_exact sample_time k _, ?_⟩
    obtain ⟨n, hn1, hn2, hn3⟩ := exists_least_expiry (node.input 3) sample_time hdt
    refine ⟨n, hn1, ?_, ?_⟩
    · rw [countdown_after_exact]
      exact hn2
    · intro j hj1 hj2
      rw [countdown_after_exact]
      exact hn3 j hj1 hj2

/-- Ticks that all hold the same inputs, with the reset input 0 and the trigger
at the level of the tick before, make no edge. -/
theorem oneshot_quiet_replicate (h : discrete_h) (tick : Nat → K) (last_trig : Int)
    (h0 : tick 0 = 0) (hl : (if tick 1 ≠ 0 then 1 else 0) = last_trig)
    (he : ¬ oneshot_trigger_edge h last_trig tick) :
    ∀ n : Nat, oneshot_quiet h last_trig (List.replicate n tick) := by
  intro n
  induction n with
  | zero => exact trivial
  | succ m ih =>
    refine ⟨h0, he, ?_⟩
    rw [hl]
    exact ih

end oneshot

/-- C25, counterexample: a rising-edge one-shot fires with AMP = 5 and WIDTH = 1
at the sample time 0.1 (the double nearest to 1/10), the trigger staying high.
The least n >= 1 with W - n*dt <= 0 is 10, but after tick 1 the countdown is
not W - dt (that number is no double: the subtraction rounds it), after tick 10
the state is still 1, the countdown 5/2^55 and the output still 5, and tick 11
ends the pulse. -/
theorem oneshot_pulse_width_counterexample :
    (0 : ℚ) < double_tenth ∧
    (1 : ℚ) - (10 : Nat) * double_tenth ≤ 0 ∧
    (∀ j : Nat, 1 ≤ j → j < 10 → 0 < (1 : ℚ) - j * double_tenth) ∧
    (oneshot_run_with double_sub test_discrete_h double_tenth
      (List.replicate 1 (fun i => [0, 1, 5, 1, 1].getD i 0))
      (dst_oneshot_step_with double_sub test_discrete_h double_tenth
        (test_node_over [0, 1, 5, 1, 1] 0 test_oneshot_context ()) []).1).context.countdown
        ≠ 1 - (1 : Nat) * double_tenth ∧
    (oneshot_run_with double_sub test_discrete_h double_tenth
      (List.replicate 10 (fun i => [0, 1, 5, 1, 1].getD i 0))
      (dst_oneshot_step_with double_sub test_discrete_h double_tenth
        (test_node_over [0, 1, 5, 1, 1] 0 test_oneshot_context ()) []).1).context.state = 1 ∧
    (oneshot_run_with double_sub test_discrete_h double_tenth
      (List.replicate 10 (fun i => [0, 1, 5, 1, 1].getD i 0))
      (dst_oneshot_step_with double_sub test_discrete_h double_tenth
        (test_node_over [0, 1, 5, 1, 1] 0 test_oneshot_context ()) []).1).context.countdown
        = 5 / 2 ^ 55 ∧
    (oneshot_run_with double_sub test_discrete_h double_tenth
      (List.replicate 10 (fun i => [0, 1, 5, 1, 1].getD i 0))
      (dst_oneshot_step_with double_sub test_discrete_h double_tenth
        (test_node_over [0, 1, 5, 1, 1] 0 test_oneshot_context ()) []).1).output = 5 ∧
    (oneshot_run_with double_sub test_discrete_h double_tenth
      (List.replicate 11 (fun i => [0, 1, 5, 1, 1].getD i 0))
      (dst_oneshot_step_with double_sub test_discrete_h double_tenth
        (test_node_over [0, 1, 5, 1, 1] 0 test_oneshot_context ()) []).1).context.state = 0 ∧
    (oneshot_run_with double_sub test_discrete_h double_tenth
      (List.replicate 11 (fun i => [0, 1, 5, 1, 1].getD i 0))
      (dst_oneshot_step_with double_sub test_discrete_h double_tenth
        (test_node_over [0, 1, 5, 1, 1] 0 test_oneshot_context ()) []).1).output = 0 := by
  refine ⟨by decide!, by decide!, ?_, by decide!, by decide!, by decide!, by decide!,
    by decide!, by decide!⟩
  intro j hj1 hj2
  interval_cases j <;> decide!

/-- Witness of C25: the one-shot of WIDTH = 1 at the sample time 0.1 with the
subtraction of doubles, for which n = 11: after 10 further ticks with the
trigger still high the state is 1, and the tick after them ends the pulse. -/
theorem oneshot_pulse_width_witness :
    (oneshot_run_with double_sub test_discrete_h double_tenth
      (List.replicate 10 (fun i => [0, 1, 5, 1, 1].getD i 0))
      (dst_oneshot_step_with double_sub test_discrete_h double_tenth
        (test_node_over [0, 1, 5, 1, 1] 0 test_oneshot_context ()) []).1).context.state = 1 ∧
    (dst_oneshot_step_with double_sub test_discrete_h double_tenth
      { oneshot_run_with double_sub test_discrete_h double_tenth
          (List.replicate 10 (fun i => [0, 1, 5, 1, 1].getD i 0))
          (dst_oneshot_step_with double_sub test_discrete_h double_tenth
            (test_node_over [0, 1, 5, 1, 1] 0 test_oneshot_context ()) []).1 with
        input := fun i => [0, 1, 5, 1, 1].getD i 0 } []).1.context.state = 0 := by
  have hty : trunc32 ((1 : ℚ)) = 1 := trunc32_intCast (K := ℚ) 1 (by decide) (by decide)
  have hedge : oneshot_trigger_edge test_discrete_h
      (test_node_over [0, 1, 5, 1, 1] 0 test_oneshot_context ()).context.last_trig
      (test_node_over [0, 1, 5, 1, 1] (0 : ℚ) test_oneshot_context ()).input := by
    unfold oneshot_trigger_edge
    simp only [test_node_over, List.getD_cons_succ, List.getD_cons_zero, hty]
    rw [if_pos (by decide)]
    exact ⟨rfl, by norm_num⟩
  have hno : ¬ oneshot_trigger_edge test_discrete_h 1
      (fun i => [0, 1, 5, 1, 1].getD i (0 : ℚ)) := by
    unfold oneshot_trigger_edge
    simp only [List.getD_cons_succ, List.getD_cons_zero, hty]
    rw [if_pos (by decide)]
    norm_num
  have hone : (if (test_node_over [0, 1, 5, 1, 1] (0 : ℚ) test_oneshot_context ()).input 1 ≠ 0
      then (1 : Int) else 0) = 1 := by
    simp [test_node_over]
  have hquiet : oneshot_quiet test_discrete_h
      (if (test_node_over [0, 1, 5, 1, 1] (0 : ℚ) test_oneshot_context ()).input 1 ≠ 0 then 1
        else 0)
      (List.replicate 10 (fun i => [0, 1, 5, 1, 1].getD i (0 : ℚ))) := by
    rw [hone]
    exact oneshot_quiet_replicate test_discrete_h _ 1 rfl (by norm_num) hno 10
  have hmain := (oneshot_pulse_width double_sub test_discrete_h double_tenth
    (test_node_over [0, 1, 5, 1, 1] 0 test_oneshot_context ()) rfl rfl hedge).1
    11 (by decide) (by decide!)
    (by
      intro j hj1 hj2
      interval_cases j <;> decide!)
    (List.replicate 10 (fun i => [0, 1, 5, 1, 1].getD i 0)) hquiet (by decide)
  refine ⟨hmain.1.1, (hmain.2 rfl (fun i => [0, 1, 5, 1, 1].getD i 0) rfl ?_).1⟩
  have hlt : (oneshot_run_with double_sub test_discrete_h double_tenth
      (List.replicate 10 (fun i => [0, 1, 5, 1, 1].getD i 0))
      (dst_oneshot_step_with double_sub test_discrete_h double_tenth
        (test_node_over [0, 1, 5, 1, 1] 0 test_oneshot_context ()) []).1).context.last_trig
      = 1 := by decide!
  rw [hlt]
  exact hno

/-- The reset of the one-shot stores the trigger level 0, and a step stores 0
or 1 when 0 or 1 was stored before it. -/
theorem oneshot_last_trig_invariant {K : Type} [LinearOrderedField K] [FloorRing K]
    (h : discrete_h) (sample_time : K)
    (node : node_description_over K (dst_oneshot_context K) Unit) (log : List Diag) :
    (dst_oneshot_reset h node log).1.context.last_trig = 0 ∧
    (node.context.last_trig = 0 ∨ node.context.last_trig = 1 →
      (dst_oneshot_step h sample_time node log).1.context.last_trig = 0 ∨
        (dst_oneshot_step h sample_time node log).1.context.last_trig = 1) := by
  refine ⟨rfl, fun hl => ?_⟩
  by_cases hr : node.input 0 = 0
  · by_cases he : oneshot_trigger_edge h node.context.last_trig node.input
    · simp only [dst_oneshot_step, hr, ne_eq, not_true_eq_false, if_false]
      rw [oneshot_edge_of_trigger_edge h node he]
      simp only [oneshot_count]
      split_ifs <;> simp
    · rw [oneshot_step_quiet h sample_time node log hl hr he]
      simp only [oneshot_count]
      split_ifs <;> simp
  · simp only [dst_oneshot_step, if_pos hr]
    exact hl

/-! ## The resets that do not write the output -/

/-- C22: the output after `dst_op_amp_reset` and after `dst_op_amp_1sht_reset`
is the output the node held before, whatever it was, and so is the output
after `dst_multiplex_reset` of an enabled multiplexer whose address is out of
range.  After `dst_op_amp_1sht_reset` and one step, two nodes that differ only
in the output they held before the reset (0 and 100) have the outputs 0 and
19/2. -/
theorem reset_output_depends_on_previous_output :
    (∀ (vbe sample_rate : ℚ) (exp : ℚ → ℚ)
      (node : node_description_over ℚ (dst_op_amp_context ℚ) (discrete_op_amp_info ℚ))
      (log : List Diag), (dst_op_amp_reset vbe exp sample_rate node log).1.output = node.output) ∧
    (∀ (vbe sample_rate : ℚ) (exp : ℚ → ℚ)
      (node : node_description_over ℚ (dst_op_amp_1sht_context ℚ) (discrete_op_amp_1sht_info ℚ))
      (log : List Diag),
      (dst_op_amp_1sht_reset vbe exp sample_rate node log).1.output = node.output) ∧
    (dst_op_amp_reset (1 / 2 : ℚ) (fun x => x) 1
      (test_node_over [1, 0, 0] 0 test_op_amp_context test_op_amp_info) []).1.output = 0 ∧
    (dst_op_amp_reset (1 / 2 : ℚ) (fun x => x) 1
      (test_node_over [1, 0, 0] 100 test_op_amp_context test_op_amp_info) []).1.output = 100 ∧
    (dst_op_amp_1sht_step (1 / 2 : ℚ)
      (dst_op_amp_1sht_reset (1 / 2 : ℚ) (fun x => x) 1
        (test_node_over [0] 0 test_op_amp_1sht_context test_op_amp_1sht_info) []).1
      []).1.output = 0 ∧
    (dst_op_amp_1sht_step (1 / 2 : ℚ)
      (dst_op_amp_1sht_reset (1 / 2 : ℚ) (fun x => x) 1
        (test_node_over [0] 100 test_op_amp_1sht_context test_op_amp_1sht_info) []).1
      []).1.output = 19 / 2 ∧
    (dst_multiplex_reset (test_node [1, 7, 5, 6] 3 (dst_size_context.mk 0) ()) []).1.output
      = 3 ∧
    (dst_multiplex_reset (test_node [1, 7, 5, 6] 4 (dst_size_context.mk 0) ()) []).1.output
      = 4 := by
  refine ⟨fun _ _ _ _ _ => rfl, fun _ _ _ _ _ => rfl, rfl, rfl, ?_, ?_, ?_, ?_⟩
  · norm_num [dst_op_amp_1sht_step, dst_op_amp_1sht_reset, test_node_over,
      test_op_amp_1sht_info]
  · norm_num [dst_op_amp_1sht_step, dst_op_amp_1sht_reset, test_node_over,
      test_op_amp_1sht_info]
  · decide
  · decide

/-! ## DST_MIXER: resistor nodes -/

theorem dst_mixer_step_eq_mixer_step_on {K : Type} [LinearOrderedField K] (h : discrete_h)
    (exp : K → K) (sample_rate : K) (outputs : Nat → K)
    (node : node_description_over K (dst_mixer_context K) (discrete_mixer_desc K))
    (log : List Diag) :
    dst_mixer_step h exp sample_rate outputs node log =
      mixer_step_on (List.range node.context.size.toNat) h exp sample_rate outputs node log :=
  rfl

theorem mixer_step_input_r_node {K : Type} [LinearOrderedField K] (h : discrete_h)
    (info : discrete_mixer_desc K) (input : Nat → K) (rTemp : K) (s : mixer_step_state K)
    (bit : Nat) :
    (mixer_step_input h info input rTemp s bit).context.r_node = s.context.r_node := by
  simp only [mixer_step_input]
  split_ifs <;> rfl

theorem mixer_step_r_node_bit_r_node {K : Type} [LinearOrderedField K] (h : discrete_h)
    (exp : K → K) (sample_rate : K) (outputs : Nat → K) (info : discrete_mixer_desc K)
    (input : Nat → K) (s : mixer_step_state K) (bit : Nat) :
    (mixer_step_r_node_bit h exp sample_rate outputs info input s bit).context.r_node =
      s.context.r_node := by
  simp only [mixer_step_r_node_bit]
  cases hp : s.context.r_node bit with
  | none => exact mixer_step_input_r_node h info input _ s bit
  | some p =>
    simp only
    split_ifs
    · rfl
    · exact mixer_step_input_r_node h info input _ _ bit
    · exact mixer_step_input_r_node h info input _ _ bit

/-- The body of the loop does nothing for an input whose resistor node outputs
0. -/
theorem mixer_step_r_node_bit_disconnected {K : Type} [LinearOrderedField K] (h : discrete_h)
    (exp : K → K) (sample_rate : K) (outputs : Nat → K) (info : discrete_mixer_desc K)
    (input : Nat → K) (s : mixer_step_state K) (bit p : Nat)
    (hp : s.context.r_node bit = some p) (hz : outputs p = 0) :
    mixer_step_r_node_bit h exp sample_rate outputs info input s bit = s := by
  simp only [mixer_step_r_node_bit, hp, hz, if_true]

/-- The body of the loop for `bit` reads no input slot but `bit + 1`. -/
theorem mixer_step_r_node_bit_congr {K : Type} [LinearOrderedField K] (h : discrete_h)
    (exp : K → K) (sample_rate : K) (outputs : Nat → K) (info : discrete_mixer_desc K)
    (input input2 : Nat → K) (s : mixer_step_state K) (bit : Nat)
    (hin : input2 (bit + 1) = input (bit + 1)) :
    mixer_step_r_node_bit h exp sample_rate outputs info input2 s bit =
      mixer_step_r_node_bit h exp sample_rate outputs info input s bit := by
  simp only [mixer_step_r_node_bit, mixer_step_input, hin]

/-- The loop skips an input whose resistor node outputs 0. -/
theorem mixer_fold_skip {K : Type} [LinearOrderedField K] (h : discrete_h)
    (exp : K → K) (sample_rate : K) (outputs : Nat → K) (info : discrete_mixer_desc K)
    (input : Nat → K) (bit p : Nat) (hz : outputs p = 0) :
    ∀ (bits : List Nat) (s : mixer_step_state K), s.context.r_node bit = some p →
      bits.foldl (mixer_step_r_node_bit h exp sample_rate outputs info input) s =
        (bits.filter (fun b => decide (b ≠ bit))).foldl
          (mixer_step_r_node_bit h exp sample_rate outputs info input) s := by
  intro bits
  induction bits with
  | nil => intro s _; rfl
  | cons b rest ih =>
    intro s hp
    by_cases hb : b = bit
    · subst hb
      rw [List.foldl_cons,
        mixer_step_r_node_bit_disconnected h exp sample_rate outputs info input s b p hp hz,
        ih s hp]
      simp
    · have hf : (b :: rest).filter (fun b => decide (b ≠ bit)) =
          b :: rest.filter (fun b => decide (b ≠ bit)) := by
        simp [List.filter_cons, hb]
      rw [hf, List.foldl_cons, List.foldl_cons]
      exact ih _
        ((congrFun (mixer_step_r_node_bit_r_node h exp sample_rate outputs info input s b)
          bit).trans hp)

/-- The loop does not read the voltage of an input whose resistor node outputs
0. -/
theorem mixer_fold_input_independent {K : Type} [LinearOrderedField K] (h : discrete_h)
    (exp : K → K) (sample_rate : K) (outputs : Nat → K) (info : discrete_mixer_desc K)
    (input : Nat → K) (bit p : Nat) (hz : outputs p = 0) (v : K) :
    ∀ (bits : List Nat) (s : mixer_step_state K), s.context.r_node bit = some p →
      bits.foldl (mixer_step_r_node_bit h exp sample_rate outputs info
          (Function.update input (bit + 1) v)) s =
        bits.foldl (mixer_step_r_node_bit h exp sample_rate outputs info input) s := by
  intro bits
  induction bits with
  | nil => intro s _; rfl
  | cons b rest ih =>
    intro s hp
    rw [List.foldl_cons, List.foldl_cons]
    by_cases hb : b = bit
    · subst hb
      rw [mixer_step_r_node_bit_disconnected h exp sample_rate outputs info _ s b p hp hz,
        mixer_step_r_node_bit_disconnected h exp sample_rate outputs info _ s b p hp hz]
      exact ih s hp
    · have hne : b + 1 ≠ bit + 1 := by omega
      rw [mixer_step_r_node_bit_congr h exp sample_rate outputs info input _ s b
        (Function.update_noteq hne v input)]
      exact ih _
        ((congrFun (mixer_step_r_node_bit_r_node h exp sample_rate outputs info input s b)
          bit).trans hp)

/-- The loop of `dst_mixer_reset` leaves the links to the resistor nodes as the
first loop set them. -/
theorem mixer_reset_fold_r_node {K : Type} [LinearOrderedField K] (h : discrete_h)
    (exp : K → K) (sample_rate : K) (info : discrete_mixer_desc K) :
    ∀ (bits : List Nat) (s : mixer_reset_state K),
      (bits.foldl (mixer_reset_bit h exp sample_rate info) s).context.r_node =
        s.context.r_node ∧
      (bits.foldl (mixer_reset_bit h exp sample_rate info) s).context.has_r_node =
        s.context.has_r_node := by
  intro bits
  induction bits with
  | nil => intro s; exact ⟨rfl, rfl⟩
  | cons b rest ih =>
    intro s
    rw [List.foldl_cons]
    refine ⟨(ih _).1.trans ?_, (ih _).2.trans ?_⟩
    · simp only [mixer_reset_bit]
      split_ifs <;> rfl
    · simp only [mixer_reset_bit]
      split_ifs <;> rfl

/-- After `dst_mixer_reset`, an input among the first 8 whose resistor node is
found is linked to the output of that node, and `has_r_node` is set. -/
theorem dst_mixer_reset_links {K : Type} [LinearOrderedField K] (h : discrete_h)
    (exp : K → K) (sample_rate : K) (find_node : Int → Option Nat)
    (node : node_description_over K (dst_mixer_context K) (discrete_mixer_desc K))
    (log : List Diag) (bit p : Nat) (hb : bit < 8)
    (hf : find_node (node.custom.r_node bit) = some p) :
    (dst_mixer_reset h exp sample_rate find_node node log).1.context.has_r_node = 1 ∧
    (dst_mixer_reset h exp sample_rate find_node node log).1.context.r_node bit = some p := by
  constructor
  · simp only [dst_mixer_reset]
    rw [(mixer_reset_fold_r_node h exp sample_rate node.custom _ _).2]
    simp only
    rw [if_pos]
    exact ⟨bit, List.mem_range.2 hb, by rw [hf]; rfl⟩
  · simp only [dst_mixer_reset]
    rw [(mixer_reset_fold_r_node h exp sample_rate node.custom _ _).1]
    simp only [if_pos hb]
    exact hf

theorem mixer_filter_resistance_of_type {K : Type} [LinearOrderedField K] (h : discrete_h)
    (info : discrete_mixer_desc K) (type : Int) (rTemp old : K)
    (ht : type = h.DISC_MIXER_IS_RESISTOR ∨ type = h.DISC_MIXER_IS_OP_AMP ∨
      type = h.DISC_MIXER_IS_OP_AMP_WITH_RI) :
    mixer_filter_resistance h info type rTemp old =
      (if type = h.DISC_MIXER_IS_RESISTOR then
        (if info.rF ≠ 0 then 1 / (1 / rTemp + 1 / info.rF) else rTemp)
      else if type = h.DISC_MIXER_IS_OP_AMP then rTemp
      else rTemp + info.rI) := by
  unfold mixer_filter_resistance
  by_cases h1 : type = h.DISC_MIXER_IS_RESISTOR
  · rw [if_pos h1, if_pos h1]
  · rw [if_neg h1, if_neg h1]
    by_cases h2 : type = h.DISC_MIXER_IS_OP_AMP
    · rw [if_pos h2, if_pos h2]
    · rw [if_neg h2, if_neg h2]
      rcases ht with ht | ht | ht
      · exact absurd ht h1
      · exact absurd ht h2
      · rw [if_pos ht]

/-! ## DST_MIXER: a resistor node in series -/

theorem mixer_step_input_type {K : Type} [LinearOrderedField K] (h : discrete_h)
    (info : discrete_mixer_desc K) (input : Nat → K) (rTemp : K) (s : mixer_step_state K)
    (bit : Nat) :
    (mixer_step_input h info input rTemp s bit).context.type = s.context.type := by
  simp only [mixer_step_input]
  split_ifs <;> rfl

theorem mixer_step_r_node_bit_type {K : Type} [LinearOrderedField K] (h : discrete_h)
    (exp : K → K) (sample_rate : K) (outputs : Nat → K) (info : discrete_mixer_desc K)
    (input : Nat → K) (s : mixer_step_state K) (bit : Nat) :
    (mixer_step_r_node_bit h exp sample_rate outputs info input s bit).context.type =
      s.context.type := by
  simp only [mixer_step_r_node_bit]
  cases hp : s.context.r_node bit with
  | none => exact mixer_step_input_type h info input _ s bit
  | some p =>
    simp only
    split_ifs
    · rfl
    · exact mixer_step_input_type h info input _ _ bit
    · exact mixer_step_input_type h info input _ _ bit

/-- The loop of `dst_mixer_step` changes neither the type of the mixer nor the
links to the resistor nodes. -/
theorem mixer_fold_type_r_node {K : Type} [LinearOrderedField K] (h : discrete_h)
    (exp : K → K) (sample_rate : K) (outputs : Nat → K) (info : discrete_mixer_desc K)
    (input : Nat → K) :
    ∀ (bits : List Nat) (s : mixer_step_state K),
      (bits.foldl (mixer_step_r_node_bit h exp sample_rate outputs info input) s).context.type
        = s.context.type ∧
      (bits.foldl (mixer_step_r_node_bit h exp sample_rate outputs info input)
        s).context.r_node = s.context.r_node := by
  intro bits
  induction bits with
  | nil => intro s; exact ⟨rfl, rfl⟩
  | cons b rest ih =>
    intro s
    rw [List.foldl_cons]
    exact ⟨(ih _).1.trans (mixer_step_r_node_bit_type h exp sample_rate outputs info input s b),
      (ih _).2.trans (mixer_step_r_node_bit_r_node h exp sample_rate outputs info input s b)⟩

/-- Before the loop reaches the input `i`, its body for another input does the
same in the mixer with the resistor node of `i` and in the mixer with a static
resistor in its place. -/
theorem mixer_series_before_step {K : Type} [LinearOrderedField K] (h : discrete_h)
    (exp : K → K) (sample_rate : K) (outputs : Nat → K) (info : discrete_mixer_desc K)
    (input : Nat → K) (i b : Nat) (hb : b ≠ i) (r2 G E : K) (s : mixer_step_state K) :
    mixer_step_r_node_bit h exp sample_rate outputs
        { info with r := Function.update info.r i r2 } input
        (mixer_series_before info i G E s) b =
      mixer_series_before info i G E
        (mixer_step_r_node_bit h exp sample_rate outputs info input s b) := by
  have hib : i ≠ b := Ne.symm hb
  have hres : ∀ (type : Int) (rTemp old : K),
      mixer_filter_resistance h { info with r := Function.update info.r i r2 } type rTemp old =
        mixer_filter_resistance h info type rTemp old := fun _ _ _ => rfl
  simp only [mixer_step_r_node_bit, mixer_series_before, Function.update_noteq hb, hres]
  cases hp : s.context.r_node b with
  | none =>
    simp only [mixer_step_input]
    by_cases hc : info.c b ≠ 0
    · simp only [if_pos hc, Function.update_noteq hb]
    · simp only [if_neg hc]
  | some p =>
    simp only
    by_cases hz : outputs p = 0
    · simp only [if_pos hz]
    · simp only [if_neg hz]
      by_cases hc : info.c b ≠ 0
      · simp only [if_pos hc, mixer_step_input, Function.update_noteq hb,
          Function.update_noteq hib, Function.update_same, add_right_comm s.r_total G]
        rw [Function.update_comm hib]
      · simp only [if_neg hc, mixer_step_input, Function.update_noteq hb,
          add_right_comm s.r_total G]

/-- At the input `i`, whose resistor node outputs a nonzero value, the body of
the loop does the same in the mixer with the resistor node and in the mixer
with the static resistor `r[i]` plus that value in its place. -/
theorem mixer_series_at_step {K : Type} [LinearOrderedField K] (h : discrete_h)
    (exp : K → K) (sample_rate : K) (outputs : Nat → K) (info : discrete_mixer_desc K)
    (input : Nat → K) (i q : Nat) (E : K) (s : mixer_step_state K)
    (hq : s.context.r_node i = some q) (hne : outputs q ≠ 0)
    (hE : info.c i ≠ 0 →
      E = 1 - exp ((-1) /
        (mixer_filter_resistance h info s.context.type (info.r i + outputs q) s.rTemp2
          * info.c i * sample_rate))) :
    mixer_step_r_node_bit h exp sample_rate outputs
        { info with r := Function.update info.r i (info.r i + outputs q) } input
        (mixer_series_before info i (1 / (info.r i + outputs q)) E s) i =
      mixer_series_after i (1 / (info.r i + outputs q)) s.rTemp2
        (mixer_step_r_node_bit h exp sample_rate outputs info input s i) := by
  simp only [mixer_step_r_node_bit, mixer_series_before, mixer_series_after,
    Function.update_same, hq, if_neg hne]
  by_cases hc : info.c i ≠ 0
  · simp only [if_pos hc, mixer_step_input, Function.update_same, ← hE hc]
  · simp only [if_neg hc, mixer_step_input, Function.update_eq_self]

/-- After the loop has passed the input `i`, its body for another input does the
same in the mixer with the resistor node of `i` and in the mixer with a static
resistor in its place, but for the local variable `rTemp2`. -/
theorem mixer_series_after_step {K : Type} [LinearOrderedField K] (h : discrete_h)
    (exp : K → K) (sample_rate : K) (outputs : Nat → K) (info : discrete_mixer_desc K)
    (input : Nat → K) (i b : Nat) (hb : b ≠ i) (r2 G t : K) (s : mixer_step_state K)
    (ht : s.context.type = h.DISC_MIXER_IS_RESISTOR ∨ s.context.type = h.DISC_MIXER_IS_OP_AMP ∨
      s.context.type = h.DISC_MIXER_IS_OP_AMP_WITH_RI) :
    ∃ t2 : K,
      mixer_step_r_node_bit h exp sample_rate outputs
          { info with r := Function.update info.r i r2 } input
          (mixer_series_after i G t s) b =
        mixer_series_after i G t2
          (mixer_step_r_node_bit h exp sample_rate outputs info input s b) := by
  have hres : ∀ (rTemp old : K),
      mixer_filter_resistance h { info with r := Function.update info.r i r2 }
          s.context.type rTemp old =
        mixer_filter_resistance h info s.context.type rTemp s.rTemp2 := by
    intro rTemp old
    rw [mixer_filter_resistance_of_type h _ _ _ _ ht,
      mixer_filter_resistance_of_type h _ _ _ _ ht]
  simp only [mixer_step_r_node_bit, mixer_series_after, Function.update_noteq hb]
  cases hp : s.context.r_node b with
  | none =>
    refine ⟨t, ?_⟩
    simp only [mixer_step_input]
    by_cases hc : info.c b ≠ 0
    · simp only [if_pos hc]
    · simp only [if_neg hc]
  | some p =>
    simp only
    by_cases hz : outputs p = 0
    · exact ⟨t, by simp only [if_pos hz]⟩
    · simp only [if_neg hz]
      by_cases hc : info.c b ≠ 0
      · refine ⟨mixer_filter_resistance h info s.context.type (info.r b + outputs p) s.rTemp2,
          ?_⟩
        simp only [if_pos hc, mixer_step_input, Function.update_same, hres]
      · refine ⟨t, ?_⟩
        simp only [if_neg hc, mixer_step_input]

/-- The loop over inputs other than `i`, before it reaches `i`. -/
theorem mixer_series_before_fold {K : Type} [LinearOrderedField K] (h : discrete_h)
    (exp : K → K) (sample_rate : K) (outputs : Nat → K) (info : discrete_mixer_desc K)
    (input : Nat → K) (i : Nat) (r2 G E : K) :
    ∀ (bits : List Nat) (s : mixer_step_state K), i ∉ bits →
      bits.foldl (mixer_step_r_node_bit h exp sample_rate outputs
          { info with r := Function.update info.r i r2 } input)
          (mixer_series_before info i G E s) =
        mixer_series_before info i G E
          (bits.foldl (mixer_step_r_node_bit h exp sample_rate outputs info input) s) := by
  intro bits
  induction bits with
  | nil => intro s _; rfl
  | cons b rest ih =>
    intro s hi
    have hb : b ≠ i := fun hbi => hi (by rw [hbi]; exact List.mem_cons_self _ _)
    rw [List.foldl_cons, List.foldl_cons,
      mixer_series_before_step h exp sample_rate outputs info input i b hb r2 G E s]
    exact ih _ (fun hmem => hi (List.mem_cons_of_mem _ hmem))

/-- The loop over inputs other than `i`, after it has passed `i`. -/
theorem mixer_series_after_fold {K : Type} [LinearOrderedField K] (h : discrete_h)
    (exp : K → K) (sample_rate : K) (outputs : Nat → K) (info : discrete_mixer_desc K)
    (input : Nat → K) (i : Nat) (r2 G : K) :
    ∀ (bits : List Nat) (s : mixer_step_state K) (t : K), i ∉ bits →
      (s.context.type = h.DISC_MIXER_IS_RESISTOR ∨ s.context.type = h.DISC_MIXER_IS_OP_AMP ∨
        s.context.type = h.DISC_MIXER_IS_OP_AMP_WITH_RI) →
      ∃ t2 : K,
        bits.foldl (mixer_step_r_node_bit h exp sample_rate outputs
            { info with r := Function.update info.r i r2 } input)
            (mixer_series_after i G t s) =
          mixer_series_after i G t2
            (bits.foldl (mixer_step_r_node_bit h exp sample_rate outputs info input) s) := by
  intro bits
  induction bits with
  | nil => intro s t _ _; exact ⟨t, rfl⟩
  | cons b rest ih =>
    intro s t hi ht
    have hb : b ≠ i := fun hbi => hi (by rw [hbi]; exact List.mem_cons_self _ _)
    obtain ⟨t1, h1⟩ :=
      mixer_series_after_step h exp sample_rate outputs info input i b hb r2 G t s ht
    rw [List.foldl_cons, List.foldl_cons, h1]
    exact ih _ t1 (fun hmem => hi (List.mem_cons_of_mem _ hmem))
      (by rw [mixer_step_r_node_bit_type]; exact ht)

/-- The whole loop, over inputs among which `i` occurs once. -/
theorem mixer_series_fold {K : Type} [LinearOrderedField K] (h : discrete_h)
    (exp : K → K) (sample_rate : K) (outputs : Nat → K) (info : discrete_mixer_desc K)
    (input : Nat → K) (i q : Nat) (hne : outputs q ≠ 0) (E : K) (type : Int)
    (ht : type = h.DISC_MIXER_IS_RESISTOR ∨ type = h.DISC_MIXER_IS_OP_AMP ∨
      type = h.DISC_MIXER_IS_OP_AMP_WITH_RI)
    (hE : info.c i ≠ 0 → ∀ old : K,
      E = 1 - exp ((-1) /
        (mixer_filter_resistance h info type (info.r i + outputs q) old
          * info.c i * sample_rate))) :
    ∀ (bits : List Nat) (s : mixer_step_state K), bits.Nodup → i ∈ bits →
      s.context.type = type → s.context.r_node i = some q →
      ∃ t2 : K,
        bits.foldl (mixer_step_r_node_bit h exp sample_rate outputs
            { info with r := Function.update info.r i (info.r i + outputs q) } input)
            (mixer_series_before info i (1 / (info.r i + outputs q)) E s) =
          mixer_series_after i (1 / (info.r i + outputs q)) t2
            (bits.foldl (mixer_step_r_node_bit h exp sample_rate outputs info input) s) := by
  intro bits
  induction bits with
  | nil => intro s _ hi _ _; exact absurd hi (List.not_mem_nil i)
  | cons b rest ih =>
    intro s hnd hi hty hq
    rw [List.foldl_cons, List.foldl_cons]
    by_cases hb : b = i
    · subst hb
      rw [mixer_series_at_step h exp sample_rate outputs info input b q E s hq hne
        (fun hc => by rw [hty]; exact hE hc _)]
      exact mixer_series_after_fold h exp sample_rate outputs info input b _ _ rest _ _
        (List.nodup_cons.1 hnd).1
        (by rw [mixer_step_r_node_bit_type, hty]; exact ht)
    · rw [mixer_series_before_step h exp sample_rate outputs info input i b hb]
      refine ih _ (List.nodup_cons.1 hnd).2 ?_ ?_ ?_
      · rcases List.mem_cons.1 hi with hi1 | hi1
        · exact absurd hi1.symm hb
        · exact hi1
      · rw [mixer_step_r_node_bit_type]
        exact hty
      · rw [mixer_step_r_node_bit_r_node]
        exact hq

/-- The part of `dst_mixer_step` after the loops reads neither the input
resistors, nor the links to the resistor nodes, nor the conductance that the
context stores, nor `rTemp2`. -/
theorem mixer_series_finish {K : Type} [LinearOrderedField K] (h : discrete_h)
    (exp : K → K) (sample_rate : K) (info : discrete_mixer_desc K) (i : Nat) (r2 G t : K)
    (s : mixer_step_state K) :
    (mixer_step_finish h exp sample_rate { info with r := Function.update info.r i r2 }
        (mixer_series_after i G t s)).1 =
      (mixer_step_finish h exp sample_rate info s).1 ∧
    (mixer_step_finish h exp sample_rate { info with r := Function.update info.r i r2 }
        (mixer_series_after i G t s)).2 =
      { (mixer_step_finish h exp sample_rate info s).2 with
        r_total := (mixer_step_finish h exp sample_rate info s).2.r_total + G,
        r_node := Function.update (mixer_step_finish h exp sample_rate info s).2.r_node i none }
      := by
  simp only [mixer_step_finish, mixer_series_after]
  by_cases hcF : info.cF ≠ 0
  · by_cases hcA : info.cAmp ≠ 0
    · simp only [if_pos hcF, if_pos hcA, and_self]
    · simp only [if_pos hcF, if_neg hcA, and_self]
  · by_cases hcA : info.cAmp ≠ 0
    · simp only [if_neg hcF, if_pos hcA, and_self]
    · simp only [if_neg hcF, if_neg hcA, and_self]

/-- C29: in an enabled `dst_mixer_step` of a mixer with resistor nodes, an input
whose resistor node outputs 0 is disconnected: the output and the context after
the step do not depend on the voltage of that input, and the step is that of
the loop run over the other inputs only.  For an input whose resistor node
outputs a nonzero R, the body of the loop adds the conductance 1 / (r + R) to
the total and takes the current of the input through the resistance r + R,
and, when the input has a capacitor (the mixer being of one of the three
types), it recomputes the filter constant from r + R (in parallel with rF for
the resistor mixer that has one, in series with rI for the op-amp mixer with
rI), filters the input with it and takes the current of the filtered voltage.
The whole step then is that of the same mixer in which the input has the static
resistor r + R and no resistor node: the outputs are equal, and the contexts
after the step differ in nothing but the link to the resistor node and the
stored total conductance. -/
theorem dst_mixer_step_resistor_node {K : Type} [LinearOrderedField K] (h : discrete_h)
    (exp : K → K) (sample_rate : K) (outputs : Nat → K)
    (node : node_description_over K (dst_mixer_context K) (discrete_mixer_desc K))
    (log : List Diag) (bit p : Nat)
    (hen : node.input 0 ≠ 0) (hr : node.context.has_r_node ≠ 0)
    (hp : node.context.r_node bit = some p) (hz : outputs p = 0) :
    (∀ v : K,
      (dst_mixer_step h exp sample_rate outputs
        { node with input := Function.update node.input (bit + 1) v } log).1.output =
        (dst_mixer_step h exp sample_rate outputs node log).1.output ∧
      (dst_mixer_step h exp sample_rate outputs
        { node with input := Function.update node.input (bit + 1) v } log).1.context =
        (dst_mixer_step h exp sample_rate outputs node log).1.context) ∧
    dst_mixer_step h exp sample_rate outputs node log =
      mixer_step_on ((List.range node.context.size.toNat).filter (fun b => decide (b ≠ bit)))
        h exp sample_rate outputs node log ∧
    (∀ (s : mixer_step_state K) (b q : Nat), s.context.r_node b = some q → outputs q ≠ 0 →
      (mixer_step_r_node_bit h exp sample_rate outputs node.custom node.input s b).r_total =
        s.r_total + 1 / (node.custom.r b + outputs q) ∧
      (node.custom.c b = 0 →
        (mixer_step_r_node_bit h exp sample_rate outputs node.custom node.input s b).i =
          s.i + (if s.context.type = h.DISC_MIXER_IS_OP_AMP then
                  node.custom.vRef - node.input (b + 1)
                else node.input (b + 1)) / (node.custom.r b + outputs q)) ∧
      (node.custom.c b ≠ 0 →
        (s.context.type = h.DISC_MIXER_IS_RESISTOR ∨ s.context.type = h.DISC_MIXER_IS_OP_AMP ∨
          s.context.type = h.DISC_MIXER_IS_OP_AMP_WITH_RI) →
        (mixer_step_r_node_bit h exp sample_rate outputs node.custom node.input s
            b).context.exponent_rc b =
          1 - exp ((-1) /
            ((if s.context.type = h.DISC_MIXER_IS_RESISTOR then
                (if node.custom.rF ≠ 0 then
                  1 / (1 / (node.custom.r b + outputs q) + 1 / node.custom.rF)
                else node.custom.r b + outputs q)
              else if s.context.type = h.DISC_MIXER_IS_OP_AMP then node.custom.r b + outputs q
              else node.custom.r b + outputs q + node.custom.rI)
              * node.custom.c b * sample_rate)) ∧
        (mixer_step_r_node_bit h exp sample_rate outputs node.custom node.input s
            b).context.v_cap b =
          s.context.v_cap b +
            (node.input (b + 1) - node.custom.vRef - s.context.v_cap b) *
              (mixer_step_r_node_bit h exp sample_rate outputs node.custom node.input s
                b).context.exponent_rc b ∧
        (mixer_step_r_node_bit h exp sample_rate outputs node.custom node.input s b).i =
          s.i + (if s.context.type = h.DISC_MIXER_IS_OP_AMP then
                  node.custom.vRef - (node.input (b + 1) -
                    (mixer_step_r_node_bit h exp sample_rate outputs node.custom node.input s
                      b).context.v_cap b)
                else
                  node.input (b + 1) -
                    (mixer_step_r_node_bit h exp sample_rate outputs node.custom node.input s
                      b).context.v_cap b) / (node.custom.r b + outputs q))) ∧
    (∀ i q : Nat, i < node.context.size.toNat → node.context.r_node i = some q →
      outputs q ≠ 0 →
      (node.context.type = h.DISC_MIXER_IS_RESISTOR ∨
        node.context.type = h.DISC_MIXER_IS_OP_AMP ∨
        node.context.type = h.DISC_MIXER_IS_OP_AMP_WITH_RI) →
      (dst_mixer_step h exp sample_rate outputs node log).1.output =
        (dst_mixer_step h exp sample_rate outputs
          { node with
            custom := { node.custom with
              r := Function.update node.custom.r i (node.custom.r i + outputs q) },
            context := { node.context with
              r_total := node.context.r_total + 1 / (node.custom.r i + outputs q),
              r_node := Function.update node.context.r_node i none,
              exponent_rc :=
                if node.custom.c i ≠ 0 then
                  Function.update node.context.exponent_rc i
                    (1 - exp ((-1) /
                      ((if node.context.type = h.DISC_MIXER_IS_RESISTOR then
                          (if node.custom.rF ≠ 0 then
                            1 / (1 / (node.custom.r i + outputs q) + 1 / node.custom.rF)
                          else node.custom.r i + outputs q)
                        else if node.context.type = h.DISC_MIXER_IS_OP_AMP then
                          node.custom.r i + outputs q
                        else node.custom.r i + outputs q + node.custom.rI)
                        * node.custom.c i * sample_rate)))
                else node.context.exponent_rc } } log).1.output ∧
      (dst_mixer_step h exp sample_rate outputs
          { node with
            custom := { node.custom with
              r := Function.update node.custom.r i (node.custom.r i + outputs q) },
            context := { node.context with
              r_total := node.context.r_total + 1 / (node.custom.r i + outputs q),
              r_node := Function.update node.context.r_node i none,
              exponent_rc :=
                if node.custom.c i ≠ 0 then
                  Function.update node.context.exponent_rc i
                    (1 - exp ((-1) /
                      ((if node.context.type = h.DISC_MIXER_IS_RESISTOR then
                          (if node.custom.rF ≠ 0 then
                            1 / (1 / (node.custom.r i + outputs q) + 1 / node.custom.rF)
                          else node.custom.r i + outputs q)
                        else if node.context.type = h.DISC_MIXER_IS_OP_AMP then
                          node.custom.r i + outputs q
                        else node.custom.r i + outputs q + node.custom.rI)
                        * node.custom.c i * sample_rate)))
                else node.context.exponent_rc } } log).1.context =
        { (dst_mixer_step h exp sample_rate outputs node log).1.context with
          r_total := (dst_mixer_step h exp sample_rate outputs node log).1.context.r_total
            + 1 / (node.custom.r i + outputs q),
          r_node := Function.update
            (dst_mixer_step h exp sample_rate outputs node log).1.context.r_node i none }) := by
  refine ⟨fun v => ?_, ?_, ?_, ?_⟩
  · have h0 : Function.update node.input (bit + 1) v 0 = node.input 0 :=
      Function.update_noteq (by omega) v node.input
    have hfold := mixer_fold_input_independent h exp sample_rate outputs node.custom
      node.input bit p hz v (List.range node.context.size.toNat)
      { i := 0, r_total := node.context.r_total, rTemp2 := 0, context := node.context } hp
    constructor
    · simp only [dst_mixer_step, h0, if_pos hen, if_pos hr, hfold]
    · simp only [dst_mixer_step, h0, if_pos hen, if_pos hr, hfold]
  · have hfold := mixer_fold_skip h exp sample_rate outputs node.custom
      node.input bit p hz (List.range node.context.size.toNat)
      { i := 0, r_total := node.context.r_total, rTemp2 := 0, context := node.context } hp
    simp only [dst_mixer_step, mixer_step_on, if_pos hen, if_pos hr, hfold]
  · intro s b q hq hne
    refine ⟨?_, fun hc => ?_, fun hc ht => ?_⟩
    · simp only [mixer_step_r_node_bit, hq, if_neg hne, mixer_step_input]
      split_ifs <;> rfl
    · simp only [mixer_step_r_node_bit, hq, if_neg hne, mixer_step_input, hc, ne_eq,
        not_true_eq_false, if_false]
    · simp only [mixer_step_r_node_bit, hq, if_neg hne, mixer_step_input, if_pos hc,
        Function.update_same, mixer_filter_resistance_of_type h node.custom _ _ _ ht,
        and_self]
  · intro i q hi hq hne ht
    have hE : node.custom.c i ≠ 0 → ∀ old : K,
        (1 - exp ((-1) /
          ((if node.context.type = h.DISC_MIXER_IS_RESISTOR then
              (if node.custom.rF ≠ 0 then
                1 / (1 / (node.custom.r i + outputs q) + 1 / node.custom.rF)
              else node.custom.r i + outputs q)
            else if node.context.type = h.DISC_MIXER_IS_OP_AMP then node.custom.r i + outputs q
            else node.custom.r i + outputs q + node.custom.rI)
            * node.custom.c i * sample_rate))) =
          1 - exp ((-1) /
            (mixer_filter_resistance h node.custom node.context.type
                (node.custom.r i + outputs q) old
              * node.custom.c i * sample_rate)) := by
      intro _ old
      rw [mixer_filter_resistance_of_type h node.custom _ _ old ht]
    obtain ⟨t2, hfold⟩ := mixer_series_fold h exp sample_rate outputs node.custom node.input
      i q hne _ node.context.type ht hE (List.range node.context.size.toNat)
      { i := 0, r_total := node.context.r_total, rTemp2 := 0, context := node.context }
      (List.nodup_range _) (List.mem_range.2 hi) rfl hq
    have hexp : ∀ E : K,
        (if node.custom.c i ≠ 0 then Function.update node.context.exponent_rc i E
          else node.context.exponent_rc) =
        Function.update node.context.exponent_rc i
          (if node.custom.c i ≠ 0 then E else node.context.exponent_rc i) := by
      intro E
      by_cases hc : node.custom.c i ≠ 0
      · rw [if_pos hc, if_pos hc]
      · rw [if_neg hc, if_neg hc, Function.update_eq_self]
    simp only [mixer_series_before] at hfold
    have hfin := mixer_series_finish h exp sample_rate node.custom i
      (node.custom.r i + outputs q) (1 / (node.custom.r i + outputs q)) t2
      ((List.range node.context.size.toNat).foldl
        (mixer_step_r_node_bit h exp sample_rate outputs node.custom node.input)
        { i := 0, r_total := node.context.r_total, rTemp2 := 0, context := node.context })
    simp only [dst_mixer_step, if_pos hen, if_pos hr, hexp, hfold]
    exact ⟨hfin.1.symm, hfin.2⟩

/-- Witness of C29: a mixer of two inputs of 1000 ohm, each with a resistor
node, the second input at 2 volt.  The node of the first input outputs 0: the
voltage of that input (4, then 9) is without effect.  The node of the second
outputs 1000: the output is that of the mixer in which the second input has the
static resistor 1000 + 1000 and no resistor node. -/
theorem dst_mixer_step_resistor_node_witness :
    (dst_mixer_step test_discrete_h (fun x => x) 1 (fun a => if a = 0 then 0 else 1000)
      { test_node_over [1, 4, 2] 0 test_two_r_node_mixer_context test_two_r_node_mixer_desc with
        input := Function.update
          (test_node_over [1, 4, 2] 0 test_two_r_node_mixer_context
            test_two_r_node_mixer_desc).input
          (0 + 1) 9 } []).1.output =
      (dst_mixer_step test_discrete_h (fun x => x) 1 (fun a => if a = 0 then 0 else 1000)
        (test_node_over [1, 4, 2] 0 test_two_r_node_mixer_context test_two_r_node_mixer_desc)
        []).1.output ∧
    (dst_mixer_step test_discrete_h (fun x => x) 1 (fun a => if a = 0 then 0 else 1000)
      (test_node_over [1, 4, 2] 0 test_two_r_node_mixer_context test_two_r_node_mixer_desc)
      []).1.output =
      (dst_mixer_step test_discrete_h (fun x => x) 1 (fun a => if a = 0 then 0 else 1000)
        { test_node_over [1, 4, 2] 0 test_two_r_node_mixer_context
            test_two_r_node_mixer_desc with
          custom := { test_two_r_node_mixer_desc with
            r := Function.update test_two_r_node_mixer_desc.r 1 (1000 + 1000) },
          context := { test_two_r_node_mixer_context with
            r_total := 0 + 1 / (1000 + 1000),
            r_node := Function.update test_two_r_node_mixer_context.r_node 1 none } }
        []).1.output := by
  have hmain := dst_mixer_step_resistor_node test_discrete_h (fun x => x) (1 : ℚ)
    (fun a => if a = 0 then 0 else 1000)
    (test_node_over [1, 4, 2] 0 test_two_r_node_mixer_context test_two_r_node_mixer_desc) [] 0 0
    (by simp [test_node_over]) (by decide) rfl rfl
  have hstep := (hmain.2.2.2 1 1 (by decide) rfl (by norm_num) (Or.inl rfl)).1
  exact ⟨(hmain.1 9).1, hstep⟩

/-- The two-input mixer of the witness of C29, as a whole step: the first input
is disconnected and the second, at 2 volt, contributes through 2000 ohm, so
that the output is 2 volt, as is that of the mixer with the static resistor
2000. -/
theorem dst_mixer_step_series_example :
    (dst_mixer_step test_discrete_h (fun x => x) 1 (fun a => if a = 0 then 0 else 1000)
      (test_node_over [1, 4, 2] 0 test_two_r_node_mixer_context test_two_r_node_mixer_desc)
      []).1.output = 2 ∧
    (dst_mixer_step test_discrete_h (fun x => x) 1 (fun a => if a = 0 then 0 else 1000)
      { test_node_over [1, 4, 2] 0 test_two_r_node_mixer_context
          test_two_r_node_mixer_desc with
        custom := { test_two_r_node_mixer_desc with
          r := Function.update test_two_r_node_mixer_desc.r 1 (1000 + 1000) },
        context := { test_two_r_node_mixer_context with
          r_total := 0 + 1 / (1000 + 1000),
          r_node := Function.update test_two_r_node_mixer_context.r_node 1 none } }
      []).1.output = 2 := by
  constructor
  · simp [dst_mixer_step, mixer_step_r_node_bit, mixer_step_input, mixer_step_finish,
      test_node_over, test_two_r_node_mixer_context, test_two_r_node_mixer_desc,
      test_discrete_h, List.range_succ]
  · simp [dst_mixer_step, mixer_step_r_node_bit, mixer_step_input, mixer_step_finish,
      test_node_over, test_two_r_node_mixer_context, test_two_r_node_mixer_desc,
      test_discrete_h, List.range_succ, Function.update]

/-- A mixer of two inputs of 1000 ohm, the first with a resistor node, as a
whole step: with the resistor node at 0 the output is that of the second input
alone, 2 volt; with the node at 1000 the first input, at 4 volt, contributes
through 2000 ohm, and the output is 8/3. -/
theorem dst_mixer_step_r_node_example :
    (dst_mixer_step test_discrete_h (fun x => x) 1 (fun _ => 0)
      (test_node_over [1, 4, 2] 0 test_r_node_mixer_context test_r_node_mixer_desc)
      []).1.output = 2 ∧
    (dst_mixer_step test_discrete_h (fun x => x) 1 (fun _ => 1000)
      (test_node_over [1, 4, 2] 0 test_r_node_mixer_context test_r_node_mixer_desc)
      []).1.output = 8 / 3 := by
  constructor
  · simp [dst_mixer_step, mixer_step_r_node_bit, mixer_step_input, mixer_step_finish,
      test_node_over, test_r_node_mixer_context, test_r_node_mixer_desc, test_discrete_h,
      List.range_succ]
  · simp [dst_mixer_step, mixer_step_r_node_bit, mixer_step_input, mixer_step_finish,
      test_node_over, test_r_node_mixer_context, test_r_node_mixer_desc, test_discrete_h,
      List.range_succ]
    norm_num

/-! ## The logic gates -/

theorem double_one_sub_one : (1 : Double) - 1 = 0 := by
  rw [Double.one_def, Double.zero_def, Double.fin_sub_fin]
  norm_num

theorem double_one_sub_zero : (1 : Double) - 0 = 1 := by
  rw [Double.one_def, Double.zero_def, Double.fin_sub_fin]
  norm_num

/-- C32: for an enabled step, a nonzero input counting as true, the output of
each gate is 1 or 0: INV gives 1 exactly when its input is false, AND when all
four inputs are true, OR when at least one of the four is true, XOR when
exactly one of the two is true; and on the same inputs the outputs of NAND, NOR
and NXOR are 1 minus those of AND, OR and XOR. -/
theorem logic_gates_truth_tables (node : node_description Unit Unit) (log : List Diag)
    (hen : truthy (node.input 0) = true) :
    (dst_logic_inv_step node log).1.output = ofBool (!truthy (node.input 1)) ∧
    (dst_logic_and_step node log).1.output =
      ofBool (truthy (node.input 1) && truthy (node.input 2) && truthy (node.input 3) &&
        truthy (node.input 4)) ∧
    (dst_logic_or_step node log).1.output =
      ofBool (truthy (node.input 1) || truthy (node.input 2) || truthy (node.input 3) ||
        truthy (node.input 4)) ∧
    (dst_logic_xor_step node log).1.output =
      ofBool (Bool.xor (truthy (node.input 1)) (truthy (node.input 2))) ∧
    (dst_logic_nand_step node log).1.output = 1 - (dst_logic_and_step node log).1.output ∧
    (dst_logic_nor_step node log).1.output = 1 - (dst_logic_or_step node log).1.output ∧
    (dst_logic_nxor_step node log).1.output = 1 - (dst_logic_xor_step node log).1.output ∧
    (∀ out ∈ [(dst_logic_inv_step node log).1.output, (dst_logic_and_step node log).1.output,
        (dst_logic_nand_step node log).1.output, (dst_logic_or_step node log).1.output,
        (dst_logic_nor_step node log).1.output, (dst_logic_xor_step node log).1.output,
        (dst_logic_nxor_step node log).1.output], out = 0 ∨ out = 1) := by
  refine ⟨?_, ?_, ?_, ?_, ?_, ?_, ?_, ?_⟩
  · simp only [dst_logic_inv_step, hen, if_true, ofBool]
    cases truthy (node.input 1) <;> rfl
  · simp only [dst_logic_and_step, hen, if_true, ofBool]
  · simp only [dst_logic_or_step, hen, if_true, ofBool]
  · simp only [dst_logic_xor_step, hen, if_true, ofBool]
    cases truthy (node.input 1) <;> cases truthy (node.input 2) <;> rfl
  · simp only [dst_logic_nand_step, dst_logic_and_step, hen, if_true]
    split_ifs
    · exact double_one_sub_one.symm
    · exact double_one_sub_zero.symm
  · simp only [dst_logic_nor_step, dst_logic_or_step, hen, if_true]
    split_ifs
    · exact double_one_sub_one.symm
    · exact double_one_sub_zero.symm
  · simp only [dst_logic_nxor_step, dst_logic_xor_step, hen, if_true]
    split_ifs
    · exact double_one_sub_one.symm
    · exact double_one_sub_zero.symm
  · intro out hout
    simp only [List.mem_cons, List.mem_singleton, List.not_mem_nil, or_false] at hout
    rcases hout with h | h | h | h | h | h | h <;> subst h
    · simp only [dst_logic_inv_step, hen, if_true]
      split_ifs <;> simp
    · simp only [dst_logic_and_step, hen, if_true]
      split_ifs <;> simp
    · simp only [dst_logic_nand_step, hen, if_true]
      split_ifs <;> simp
    · simp only [dst_logic_or_step, hen, if_true]
      split_ifs <;> simp
    · simp only [dst_logic_nor_step, hen, if_true]
      split_ifs <;> simp
    · simp only [dst_logic_xor_step, hen, if_true]
      split_ifs <;> simp
    · simp only [dst_logic_nxor_step, hen, if_true]
      split_ifs <;> simp

/-- Witness of C32: the inputs 5, 0, -2 and 1 (true, false, true, true). -/
theorem logic_gates_truth_tables_witness :
    (dst_logic_inv_step (test_node [1, 5, 0, -2, 1] 9 () ()) []).1.output = 0 ∧
    (dst_logic_and_step (test_node [1, 5, 0, -2, 1] 9 () ()) []).1.output = 0 ∧
    (dst_logic_or_step (test_node [1, 5, 0, -2, 1] 9 () ()) []).1.output = 1 ∧
    (dst_logic_xor_step (test_node [1, 5, 0, -2, 1] 9 () ()) []).1.output = 1 :=
  ⟨(logic_gates_truth_tables (test_node [1, 5, 0, -2, 1] 9 () ()) [] (by decide)).1,
   (logic_gates_truth_tables (test_node [1, 5, 0, -2, 1] 9 () ()) [] (by decide)).2.1,
   (logic_gates_truth_tables (test_node [1, 5, 0, -2, 1] 9 () ()) [] (by decide)).2.2.1,
   (logic_gates_truth_tables (test_node [1, 5, 0, -2, 1] 9 () ()) [] (by decide)).2.2.2.1⟩

/-! ## DST_SAMPHOLD: the modes -/

/-- C35: with the four clock types distinct, an enabled `dst_samphold_step`
sets the output to the signal input exactly when the clock input is greater than
the clock stored on the tick before (REDGE), less than it (FEDGE), nonzero
(HLATCH), or equal to 0 (LLATCH), and otherwise keeps the output.  The reset
stores the clock -1 and steps once, so an enabled node whose type input is
REDGE and whose clock is at least 0 has the signal input as output after it. -/
theorem dst_samphold_step_modes (h : discrete_h)
    (node : node_description dst_samphold_context Unit) (log : List Diag)
    (hen : truthy (node.input 0) = true)
    (hd : [h.DISC_SAMPHOLD_REDGE, h.DISC_SAMPHOLD_FEDGE, h.DISC_SAMPHOLD_HLATCH,
      h.DISC_SAMPHOLD_LLATCH].Nodup) :
    (node.context.clocktype = h.DISC_SAMPHOLD_REDGE →
      (dst_samphold_step h node log).1.output =
        if Double.gt (node.input 2) node.context.last_input = true then node.input 1
        else node.output) ∧
    (node.context.clocktype = h.DISC_SAMPHOLD_FEDGE →
      (dst_samphold_step h node log).1.output =
        if Double.lt (node.input 2) node.context.last_input = true then node.input 1
        else node.output) ∧
    (node.context.clocktype = h.DISC_SAMPHOLD_HLATCH →
      (dst_samphold_step h node log).1.output =
        if truthy (node.input 2) = true then node.input 1 else node.output) ∧
    (node.context.clocktype = h.DISC_SAMPHOLD_LLATCH →
      (dst_samphold_step h node log).1.output =
        if isZero (node.input 2) = true then node.input 1 else node.output) ∧
    (toInt (node.input 3) = h.DISC_SAMPHOLD_REDGE → Double.ge (node.input 2) 0 = true →
      (dst_samphold_reset h node log).1.output = node.input 1) := by
  simp only [List.nodup_cons, List.mem_cons, List.mem_singleton, List.not_mem_nil, not_or,
    or_false, List.nodup_nil, and_true, not_false_eq_true] at hd
  obtain ⟨⟨a1, a2, a3⟩, ⟨b2, b3⟩, c3⟩ := hd
  refine ⟨fun ht => ?_, fun ht => ?_, fun ht => ?_, fun ht => ?_, fun ht hc => ?_⟩
  · simp only [dst_samphold_step, hen, if_true, ht]
    split_ifs <;> rfl
  · simp only [dst_samphold_step, hen, if_true, ht, if_neg (Ne.symm a1)]
    split_ifs <;> rfl
  · simp only [dst_samphold_step, hen, if_true, ht, if_neg (Ne.symm a2), if_neg (Ne.symm b2)]
    split_ifs <;> rfl
  · simp only [dst_samphold_step, hen, if_true, ht, if_neg (Ne.symm a3), if_neg (Ne.symm b3),
      if_neg (Ne.symm c3)]
    split_ifs <;> rfl
  · have hgt : Double.gt (node.input 2) (-1) = true := by
      cases hx : node.input 2 with
      | fin q =>
        rw [hx] at hc
        have hq : (0 : ℚ) ≤ q := by
          simpa [Double.ge, Double.le, Double.zero_def] using hc
        have : (-1 : Double) = Double.fin (-1) := by
          rw [Double.one_def]; rfl
        rw [this]
        simp only [Double.gt, Double.lt, decide_eq_true_eq]
        linarith
      | pinf =>
        have : (-1 : Double) = Double.fin (-1) := by
          rw [Double.one_def]; rfl
        rw [this]
        rfl
      | ninf =>
        rw [hx] at hc
        simp [Double.ge, Double.le, Double.zero_def] at hc
      | nan =>
        rw [hx] at hc
        simp [Double.ge, Double.le, Double.zero_def] at hc
    simp only [dst_samphold_reset, dst_samphold_step, hen, if_true, ht, hgt]

/-- Witness of C35: an enabled rising-edge sample and hold with the signal 9:
the clock 5 after the stored clock 2 samples, and so does the reset at the
clock 0. -/
theorem dst_samphold_step_modes_witness :
    (dst_samphold_step test_discrete_h
      (test_node [1, 9, 5, 0] 3 (dst_samphold_context.mk 2 0) ()) []).1.output = 9 ∧
    (dst_samphold_reset test_discrete_h
      (test_node [1, 9, 0, 0] 3 (dst_samphold_context.mk 2 7) ()) []).1.output = 9 :=
  ⟨((dst_samphold_step_modes test_discrete_h
      (test_node [1, 9, 5, 0] 3 (dst_samphold_context.mk 2 0) ()) [] (by decide)
      (by decide)).1 rfl).trans (by decide),
   (dst_samphold_step_modes test_discrete_h
      (test_node [1, 9, 0, 0] 3 (dst_samphold_context.mk 2 7) ()) [] (by decide)
      (by decide)).2.2.2.2 (by decide) (by decide)⟩

/-! ## DST_INTEGRATE -/

section integrate

variable {K : Type} [LinearOrderedField K] [FloorRing K]

end integrate

theorem diode_mix_fold {K : Type} [LinearOrderedField K] (input : Nat → K) :
    ∀ (l : List Nat) (a : K),
      l.foldl (fun vmax addr => if input (2 + addr) > vmax then input (2 + addr) else vmax) a =
        (l.map (fun addr => input (2 + addr))).foldl max a := by
  intro l
  induction l with
  | nil => intro a; rfl
  | cons b rest ih =>
    intro a
    rw [List.foldl_cons, List.map_cons, List.foldl_cons, ih]
    congr 1
    by_cases hb : input (2 + b) > a
    · rw [if_pos hb, max_eq_right (le_of_lt hb)]
    · rw [if_neg hb, max_eq_left (not_lt.1 hb)]

theorem foldl_max_ge {K : Type} [LinearOrderedField K] :
    ∀ (l : List K) (a : K), a ≤ l.foldl max a ∧ (∀ x ∈ l, x ≤ l.foldl max a) ∧
      (l.foldl max a = a ∨ l.foldl max a ∈ l) := by
  intro l
  induction l with
  | nil => intro a; exact ⟨le_refl _, fun x hx => absurd hx (List.not_mem_nil x), Or.inl rfl⟩
  | cons b rest ih =>
    intro a
    obtain ⟨h1, h2, h3⟩ := ih (max a b)
    rw [List.foldl_cons]
    refine ⟨le_trans (le_max_left a b) h1, ?_, ?_⟩
    · intro x hx
      rcases List.mem_cons.1 hx with hx | hx
      · rw [hx]
        exact le_trans (le_max_right a b) h1
      · exact h2 x hx
    · rcases h3 with h3 | h3
      · rcases le_total a b with hab | hab
        · right
          rw [h3, max_eq_right hab]
          exact List.mem_cons_self _ _
        · left
          rw [h3, max_eq_left hab]
      · right
        exact List.mem_cons_of_mem _ h3

theorem foldl_max_clamp {K : Type} [LinearOrderedField K] :
    ∀ (l : List K) (a : K), 0 ≤ a → (l.map (max 0)).foldl max a = l.foldl max a := by
  intro l
  induction l with
  | nil => intro a _; rfl
  | cons b rest ih =>
    intro a ha
    rw [List.map_cons, List.foldl_cons, List.foldl_cons]
    have hm : max a (max 0 b) = max a b := by
      rw [← max_assoc, max_eq_left ha]
    rw [hm]
    exact ih _ (le_trans ha (le_max_left a b))

/-- C33: `dst_diode_mix_reset` sets the size to `active_inputs - 2`, and for an
enabled `dst_diode_mix_step` the output is `max(0, m - VJUNC)`, where `m` is the
greatest of 0 and the `size` inputs: `m` is at least 0 and at least every
input, and is 0 or one of the inputs.  So the output is never negative, and it
is the same when every negative input is replaced by 0. -/
theorem dst_diode_mix_step_output {K : Type} [LinearOrderedField K]
    (node : node_description_over K dst_size_context Unit) (log : List Diag)
    (hen : node.input 0 ≠ 0) :
    (dst_diode_mix_reset node log).1.context.size = node.active_inputs - 2 ∧
    (dst_diode_mix_reset node log).1.output =
      max 0 (diode_mix_max node.input (node.active_inputs - 2) - node.input 1) ∧
    (dst_diode_mix_step node log).1.output =
      max 0 (diode_mix_max node.input node.context.size - node.input 1) ∧
    0 ≤ (dst_diode_mix_step node log).1.output ∧
    0 ≤ diode_mix_max node.input node.context.size ∧
    (∀ addr : Nat, addr < node.context.size.toNat →
      node.input (2 + addr) ≤ diode_mix_max node.input node.context.size) ∧
    (diode_mix_max node.input node.context.size = 0 ∨
      ∃ addr : Nat, addr < node.context.size.toNat ∧
        diode_mix_max node.input node.context.size = node.input (2 + addr)) ∧
    (dst_diode_mix_step
      { node with input := fun i => if 2 ≤ i then max 0 (node.input i) else node.input i }
      log).1.output = (dst_diode_mix_step node log).1.output := by
  have hstep : ∀ (n : node_description_over K dst_size_context Unit), n.input 0 ≠ 0 →
      (dst_diode_mix_step n log).1.output =
        max 0 (diode_mix_max n.input n.context.size - n.input 1) := by
    intro n hn
    simp only [dst_diode_mix_step, if_pos hn, diode_mix_fold, diode_mix_max]
    split_ifs with hneg
    · rw [max_eq_left (le_of_lt hneg)]
    · rw [max_eq_right (not_lt.1 hneg)]
  obtain ⟨g1, g2, g3⟩ := foldl_max_ge
    ((List.range node.context.size.toNat).map (fun addr => node.input (2 + addr))) 0
  refine ⟨?_, ?_, hstep node hen, ?_, g1, ?_, ?_, ?_⟩
  · simp only [dst_diode_mix_reset, dst_diode_mix_step]
    split_ifs <;> rfl
  · exact hstep { node with context := { size := node.active_inputs - 2 } } hen
  · rw [hstep node hen]
    exact le_max_left _ _
  · intro addr haddr
    exact g2 _ (List.mem_map.2 ⟨addr, List.mem_range.2 haddr, rfl⟩)
  · rcases g3 with g3 | g3
    · exact Or.inl g3
    · right
      obtain ⟨addr, haddr, he⟩ := List.mem_map.1 g3
      exact ⟨addr, List.mem_range.1 haddr, he.symm⟩
  · rw [hstep node hen,
      hstep { node with input := fun i => if 2 ≤ i then max 0 (node.input i) else node.input i }
        (by simpa using hen)]
    simp only [diode_mix_max]
    have hmap : (List.range node.context.size.toNat).map
        (fun addr => if 2 ≤ 2 + addr then max 0 (node.input (2 + addr))
          else node.input (2 + addr)) =
        ((List.range node.context.size.toNat).map (fun addr => node.input (2 + addr))).map
          (max 0) := by
      rw [List.map_map]
      apply List.map_congr_left
      intro addr _
      simp
    have h1 : (if 2 ≤ 1 then max 0 (node.input 1) else node.input 1) = node.input 1 := by
      simp
    rw [hmap, foldl_max_clamp _ 0 (le_refl 0), h1]

/-- Witness of C33: a diode mixer with the junction drop 1/2 and the inputs 3,
-4 and 2: the output is 5/2. -/
theorem dst_diode_mix_step_output_witness :
    (dst_diode_mix_step
      (test_node_over [1, 1 / 2, 3, -4, 2] 9 (dst_size_context.mk 3) ()) []).1.output
      = 5 / 2 := by
  have hmain := (dst_diode_mix_step_output
    (test_node_over [1, 1 / 2, 3, -4, 2] (9 : ℚ) (dst_size_context.mk 3) ()) []
    (by norm_num [test_node_over])).2.2.1
  have h3 : Int.toNat 3 = 3 := rfl
  rw [hmain]
  simp only [diode_mix_max, test_node_over, h3, List.range_succ, List.range_zero,
    List.nil_append, List.cons_append, List.map_cons, List.map_nil, List.foldl_cons,
    List.foldl_nil]
  norm_num

/-! ## DST_COMP_ADDER -/

theorem foldl_selected_sum {K : Type} [LinearOrderedField K] (p : Nat → Bool) (f : Nat → K)
    (n : Nat) (a : K) :
    (List.range n).foldl (fun out bit => if p bit = true then out + f bit else out) a =
      a + ∑ bit in (Finset.range n).filter (fun bit => p bit = true), f bit := by
  rw [Finset.sum_filter]
  induction n with
  | zero => simp
  | succ m ih =>
    rw [List.range_succ, List.foldl_append, ih, Finset.sum_range_succ]
    simp only [List.foldl_cons, List.foldl_nil]
    split_ifs with hp
    · ring
    · ring

theorem ite_reciprocal_or_zero {K : Type} [LinearOrderedField K] (g : K) :
    (if g ≠ 0 then 1 / g else g) = (if g ≠ 0 then 1 / g else 0) := by
  by_cases hg : g ≠ 0
  · rw [if_pos hg, if_pos hg]
  · rw [if_neg hg, if_neg hg]
    exact not_not.1 hg

/-- C34: for an enabled `dst_comp_adder_step` with the select value `s` (the
select input truncated to an integer), a bit counting as set when
`s & (1 << bit)` is nonzero: for `DISC_COMP_P_CAPACITOR` the output is
`cDefault` plus the sum of `c[bit]` over the set bits below `length`; for
`DISC_COMP_P_RESISTOR` (a constant distinct from the first), when every
selected component `c[bit]` is nonzero (the code divides by each of them), the
output is 1 / G when G is not 0 and 0 when G is 0, where G is `1 / cDefault`
(0 when `cDefault` is 0) plus the sum of `1 / c[bit]` over the set bits below
`length`. -/
theorem dst_comp_adder_step_output {K : Type} [LinearOrderedField K] [FloorRing K]
    (h : discrete_h) (node : node_description_over K Unit (discrete_comp_adder_table K))
    (log : List Diag) (hen : node.input 0 ≠ 0)
    (hd : h.DISC_COMP_P_CAPACITOR ≠ h.DISC_COMP_P_RESISTOR) :
    (node.custom.type = h.DISC_COMP_P_CAPACITOR →
      (dst_comp_adder_step h node log).1.output =
        node.custom.cDefault +
          ∑ bit in (Finset.range node.custom.length.toNat).filter
            (fun bit => comp_adder_selected (trunc32 (node.input 1)) bit = true),
            node.custom.c bit) ∧
    (node.custom.type = h.DISC_COMP_P_RESISTOR →
      (∀ bit : Nat, bit < node.custom.length.toNat →
        comp_adder_selected (trunc32 (node.input 1)) bit = true → node.custom.c bit ≠ 0) →
      (dst_comp_adder_step h node log).1.output =
        (if (if node.custom.cDefault ≠ 0 then 1 / node.custom.cDefault else 0) +
              ∑ bit in (Finset.range node.custom.length.toNat).filter
                (fun bit => comp_adder_selected (trunc32 (node.input 1)) bit = true),
                1 / node.custom.c bit ≠ 0 then
          1 / ((if node.custom.cDefault ≠ 0 then 1 / node.custom.cDefault else 0) +
              ∑ bit in (Finset.range node.custom.length.toNat).filter
                (fun bit => comp_adder_selected (trunc32 (node.input 1)) bit = true),
                1 / node.custom.c bit)
        else 0)) := by
  constructor
  · intro ht
    simp only [dst_comp_adder_step, if_pos hen, if_pos ht]
    exact foldl_selected_sum _ _ _ _
  · intro ht _
    have hne : ¬ node.custom.type = h.DISC_COMP_P_CAPACITOR := by
      rw [ht]
      exact Ne.symm hd
    simp only [dst_comp_adder_step, if_pos hen, if_neg hne, if_pos ht]
    rw [foldl_selected_sum (fun bit => comp_adder_selected (trunc32 (node.input 1)) bit)
      (fun bit => 1 / node.custom.c bit)]
    exact ite_reciprocal_or_zero _

/-- Witness of C34: the table of the components 2 and 4 with the default 1 and
the constants of `test_discrete_h`: as capacitors with the select value 3 the
output is 7, as resistors with the select value 1 the output is 2/3. -/
theorem dst_comp_adder_step_output_witness :
    (dst_comp_adder_step test_discrete_h
      (test_node_over [1, 3] 0 () (test_comp_adder_table 0)) []).1.output = 7 ∧
    (dst_comp_adder_step test_discrete_h
      (test_node_over [1, 1] 0 () (test_comp_adder_table 1)) []).1.output = 2 / 3 := by
  have hty3 : trunc32 ((3 : ℚ)) = 3 := trunc32_intCast (K := ℚ) 3 (by decide) (by decide)
  have hty1 : trunc32 ((1 : ℚ)) = 1 := trunc32_intCast (K := ℚ) 1 (by decide) (by decide)
  have h30 : comp_adder_selected 3 0 = true := by decide
  have h31 : comp_adder_selected 3 1 = true := by decide
  have h10 : comp_adder_selected 1 0 = true := by decide
  have h11 : comp_adder_selected 1 1 = false := by decide
  have h2 : Int.toNat 2 = 2 := rfl
  have hcap := (dst_comp_adder_step_output test_discrete_h
    (test_node_over [1, 3] (0 : ℚ) () (test_comp_adder_table 0)) []
    (by norm_num [test_node_over]) (by decide)).1 rfl
  have hres := (dst_comp_adder_step_output test_discrete_h
    (test_node_over [1, 1] (0 : ℚ) () (test_comp_adder_table 1)) []
    (by norm_num [test_node_over]) (by decide)).2 rfl
    (fun bit hb _ => by
      have hb2 : bit < 2 := hb
      interval_cases bit <;> simp [test_node_over, test_comp_adder_table])
  constructor
  · rw [hcap]
    simp only [test_node_over, test_comp_adder_table, List.getD_cons_succ, List.getD_cons_zero,
      hty3, h2, Finset.sum_filter, Finset.sum_range_succ, Finset.sum_range_zero, h30, h31]
    norm_num
  · rw [hres]
    simp only [test_node_over, test_comp_adder_table, List.getD_cons_succ, List.getD_cons_zero,
      hty1, h2, Finset.sum_filter, Finset.sum_range_succ, Finset.sum_range_zero, h10, h11]
    norm_num

/-! ## DST_DAC_R1: the anti-aliasing fraction -/

/-- With `x_time` 0, the body of the loop of `dst_dac_r1_step` adds the current
of a bit that has a resistor and is set in the data, and nothing else. -/
theorem dac_r1_step_bit_zero {K : Type} [LinearOrderedField K]
    (info : discrete_dac_r1_ladder K) (context : dst_dac_r1_context K)
    (von : K) (data : Int) (i_total : K) (bit : Nat) :
    dac_r1_step_bit info context von data 0 i_total bit =
      if decide (info.r bit ≠ 0 ∧ Int.land (Int.shiftRight data bit) 1 ≠ 0) = true then
        i_total + von / info.r bit
      else i_total := by
  simp only [dac_r1_step_bit, ne_eq, not_true_eq_false, false_and, if_false,
    decide_eq_true_eq]
  by_cases hr : info.r bit = 0
  · simp [hr]
  · by_cases hb : Int.land (Int.shiftRight data bit) 1 = 0
    · simp [hr, hb]
    · simp [hr, hb]

section dac_no_anti_alias

variable {K : Type} [LinearOrderedField K] [FloorRing K]

theorem dac_r1_voltage_sum
    (node : node_description_over K (dst_dac_r1_context K) (discrete_dac_r1_ladder K)) :
    dac_r1_voltage node =
      (node.context.i_bias +
        ∑ bit in (Finset.range node.custom.ladderLength.toNat).filter
          (fun bit => node.custom.r bit ≠ 0 ∧
            Int.land (Int.shiftRight (trunc32 (node.input 1)) bit) 1 ≠ 0),
          node.input 2 / node.custom.r bit) * node.context.r_total := by
  have hx : (((trunc32 (node.input 1) - trunc32 (node.input 1) : Int) : K)) = 0 := by
    rw [sub_self]
    exact Int.cast_zero
  have hfun : dac_r1_step_bit node.custom node.context (node.input 2) (trunc32 (node.input 1))
      (((trunc32 (node.input 1) - trunc32 (node.input 1) : Int) : K)) =
      fun i_total bit =>
        if decide (node.custom.r bit ≠ 0 ∧
            Int.land (Int.shiftRight (trunc32 (node.input 1)) bit) 1 ≠ 0) = true then
          i_total + node.input 2 / node.custom.r bit
        else i_total := by
    funext i_total bit
    rw [hx]
    exact dac_r1_step_bit_zero _ _ _ _ _ _
  unfold dac_r1_voltage
  rw [hfun, foldl_selected_sum
    (fun bit => decide (node.custom.r bit ≠ 0 ∧
      Int.land (Int.shiftRight (trunc32 (node.input 1)) bit) 1 ≠ 0))
    (fun bit => node.input 2 / node.custom.r bit)]
  simp only [decide_eq_true_eq]

/-- C36: the anti-aliasing fraction of `dst_dac_r1_step` is the difference of
two equal integers, so the voltage the step computes is `(i_bias + sum of
VON / r[bit]) * r_total`, the sum being over the bits below `ladderLength` that
have a resistor and are set in the data input truncated to an integer.  An
enabled step without filter capacitor has that voltage as output; the output of
a step does not depend on `context.last_data`, nor on the data input beyond its
integer truncation; and a step leaves the context, `last_data` included, as it
was. -/
theorem dst_dac_r1_step_no_anti_alias
    (node : node_description_over K (dst_dac_r1_context K) (discrete_dac_r1_ladder K))
    (log : List Diag) :
    (node.input 0 ≠ 0 → node.custom.cFilter = 0 →
      (dst_dac_r1_step node log).1.output =
        (node.context.i_bias +
          ∑ bit in (Finset.range node.custom.ladderLength.toNat).filter
            (fun bit => node.custom.r bit ≠ 0 ∧
              Int.land (Int.shiftRight (trunc32 (node.input 1)) bit) 1 ≠ 0),
            node.input 2 / node.custom.r bit) * node.context.r_total) ∧
    (∀ d : Int,
      (dst_dac_r1_step { node with context := { node.context with last_data := d } }
        log).1.output = (dst_dac_r1_step node log).1.output) ∧
    (∀ x : K, trunc32 x = trunc32 (node.input 1) →
      (dst_dac_r1_step { node with input := Function.update node.input 1 x } log).1.output =
        (dst_dac_r1_step node log).1.output) ∧
    (dst_dac_r1_step node log).1.context = node.context := by
  refine ⟨fun hen hc => ?_, fun d => ?_, fun x hx => ?_, (dac_r1_step_frame node log).2.1⟩
  · simp only [dst_dac_r1_step, if_pos hen, hc, ne_eq, not_true_eq_false, if_false]
    exact dac_r1_voltage_sum node
  · simp only [dst_dac_r1_step, dac_r1_voltage_sum]
    split_ifs <;> rfl
  · have h0 : Function.update node.input 1 x 0 = node.input 0 :=
      Function.update_noteq (by decide) x node.input
    have h1 : Function.update node.input 1 x 1 = x := Function.update_same 1 x node.input
    have h2 : Function.update node.input 1 x 2 = node.input 2 :=
      Function.update_noteq (by decide) x node.input
    simp only [dst_dac_r1_step, dac_r1_voltage_sum, h0, h1, h2, hx]
    split_ifs <;> rfl

end dac_no_anti_alias

/-- Witness of C36: the ladder of the resistors 1000, 2000 and 4000 without
filter capacitor, with `i_bias` 0 and `r_total` 500, the on-voltage 4 and the
data 5/2, whose integer truncation 2 has the bit 1 set: the output is
4 / 2000 * 500 = 1, the same as for the data 2. -/
theorem dst_dac_r1_step_no_anti_alias_witness :
    (dst_dac_r1_step
      (test_node_over [1, 5 / 2, 4] 7 test_dac_context { test_dac_ladder with cFilter := 0 })
      []).1.output = 1 ∧
    (dst_dac_r1_step
      { test_node_over [1, 5 / 2, 4] 7 test_dac_context { test_dac_ladder with cFilter := 0 } with
        input := Function.update
          (test_node_over [1, 5 / 2, 4] 7 test_dac_context
            { test_dac_ladder with cFilter := 0 }).input 1 2 }
      []).1.output =
    (dst_dac_r1_step
      (test_node_over [1, 5 / 2, 4] 7 test_dac_context { test_dac_ladder with cFilter := 0 })
      []).1.output := by
  have hfl : ⌊(5 / 2 : ℚ)⌋ = 2 := by
    rw [Int.floor_eq_iff]
    norm_num
  have hty : trunc32 ((5 / 2 : ℚ)) = 2 := by
    have hnn : (0 : ℚ) ≤ 5 / 2 := by norm_num
    simp only [trunc32, if_pos hnn, hfl]
    decide
  have hty2 : trunc32 ((2 : ℚ)) = 2 := trunc32_intCast (K := ℚ) 2 (by decide) (by decide)
  have hin : (test_node_over [1, 5 / 2, 4] (7 : ℚ) test_dac_context
      { test_dac_ladder with cFilter := 0 }).input 1 = 5 / 2 := rfl
  have hmain := dst_dac_r1_step_no_anti_alias
    (test_node_over [1, 5 / 2, 4] (7 : ℚ) test_dac_context { test_dac_ladder with cFilter := 0 })
    []
  have hb0 : Int.land (Int.shiftRight 2 0) 1 = 0 := by decide
  have hb1 : Int.land (Int.shiftRight 2 1) 1 = 1 := by decide
  have hb2 : Int.land (Int.shiftRight 2 2) 1 = 0 := by decide
  have h3 : Int.toNat 3 = 3 := rfl
  refine ⟨(hmain.1 (by norm_num [test_node_over]) rfl).trans ?_,
    hmain.2.2.1 2 (by rw [hin, hty, hty2])⟩
  rw [hin, hty]
  simp only [test_node_over, test_dac_ladder, test_dac_context, h3, Finset.sum_filter,
    Finset.sum_range_succ, Finset.sum_range_zero, hb0, hb1, hb2, List.getD_cons_succ,
    List.getD_cons_zero]
  norm_num

/-! ## DST_TVCA_OP_AMP: the indices of the arrays -/

/-- The trigger function gives 0 or 1 when the three triggers are 0 or 1. -/
theorem dst_trigger_function_bit (h : discrete_h) (trig0 trig1 trig2 function : Int)
    (h0 : trig0 = 0 ∨ trig0 = 1) (h1 : trig1 = 0 ∨ trig1 = 1) (h2 : trig2 = 0 ∨ trig2 = 1) :
    dst_trigger_function h trig0 trig1 trig2 function = 0 ∨
      dst_trigger_function h trig0 trig1 trig2 function = 1 := by
  unfold dst_trigger_function
  split_ifs <;>
    first
    | exact h0
    | exact h1
    | exact h2
    | exact Or.inl rfl
    | exact Or.inr rfl

theorem tvca_read_bit {K : Type} (a : Nat → K) (i : Int) (hi : i = 0 ∨ i = 1) :
    tvca_read a i = some (a i.toNat) := by
  simp only [tvca_read, if_pos hi]

section tvca

variable {K : Type} [LinearOrderedField K] [FloorRing K]

/-- With the three triggers 0 or 1 after truncation, every index is in bounds
and `dst_tvca_op_amp_step` returns a node. -/
theorem dst_tvca_op_amp_step_some (h : discrete_h) (vbe : K)
    (node : node_description_over K (dst_tvca_op_amp_context K) (discrete_op_amp_tvca_info K))
    (log : List Diag)
    (h0 : trunc32 (node.input 0) = 0 ∨ trunc32 (node.input 0) = 1)
    (h1 : trunc32 (node.input 1) = 0 ∨ trunc32 (node.input 1) = 1)
    (h2 : trunc32 (node.input 2) = 0 ∨ trunc32 (node.input 2) = 1) :
    (dst_tvca_op_amp_step h vbe node log).isSome = true := by
  have b3 : tvca_trigger h node.input node.custom.f3 = 0 ∨
      tvca_trigger h node.input node.custom.f3 = 1 :=
    dst_trigger_function_bit h _ _ _ node.custom.f3 h0 h1 h2
  have b4 : tvca_trigger h node.input node.custom.f4 = 0 ∨
      tvca_trigger h node.input node.custom.f4 = 1 :=
    dst_trigger_function_bit h _ _ _ node.custom.f4 h0 h1 h2
  have b5 : tvca_trigger h node.input node.custom.f5 = 0 ∨
      tvca_trigger h node.input node.custom.f5 = 1 :=
    dst_trigger_function_bit h _ _ _ node.custom.f5 h0 h1 h2
  have c1 : (tvca_v_cap1 vbe node.context (tvca_trigger h node.input node.custom.f2)
      (tvca_trigger h node.input node.custom.f3)).isSome = true := by
    simp only [tvca_v_cap1, tvca_read_bit _ _ b3]
    split_ifs <;> rfl
  have c2 : (tvca_v_cap2 node.custom node.context
      (tvca_trigger h node.input node.custom.f4)).isSome = true := by
    simp only [tvca_v_cap2, tvca_read_bit _ _ b4]
    split_ifs <;> rfl
  have c3 : (tvca_v_cap3 node.custom node.context
      (tvca_trigger h node.input node.custom.f5)).isSome = true := by
    simp only [tvca_v_cap3, tvca_read_bit _ _ b5]
    split_ifs <;> rfl
  obtain ⟨x1, e1⟩ := Option.isSome_iff_exists.1 c1
  obtain ⟨x2, e2⟩ := Option.isSome_iff_exists.1 c2
  obtain ⟨x3, e3⟩ := Option.isSome_iff_exists.1 c3
  simp only [dst_tvca_op_amp_step, e1, e2, e3, Option.some_bind, Option.map_some',
    Option.isSome_some]

/-- C37: when the function F3 is `DISC_OP_AMP_TRIGGER_FUNCTION_TRG0` and the
trigger 0, truncated to an integer, is neither 0 nor 1, the index
`dst_tvca_op_amp_step` uses into `v_trig`, `exponent_c` and `exponent_d` is that
integer, outside the two elements of the arrays: the step has no defined
result. -/
theorem dst_tvca_op_amp_step_index_out_of_bounds (h : discrete_h) (vbe : K)
    (node : node_description_over K (dst_tvca_op_amp_context K) (discrete_op_amp_tvca_info K))
    (log : List Diag)
    (hf3 : node.custom.f3 = h.DISC_OP_AMP_TRIGGER_FUNCTION_TRG0)
    (ht0 : trunc32 (node.input 0) ≠ 0) (ht1 : trunc32 (node.input 0) ≠ 1) :
    tvca_trigger h node.input node.custom.f3 = trunc32 (node.input 0) ∧
    tvca_read node.context.v_trig (tvca_trigger h node.input node.custom.f3) = none ∧
    tvca_read node.context.exponent_c (tvca_trigger h node.input node.custom.f3) = none ∧
    tvca_read node.context.exponent_d (tvca_trigger h node.input node.custom.f3) = none ∧
    dst_tvca_op_amp_step h vbe node log = none := by
  have hf : tvca_trigger h node.input node.custom.f3 = trunc32 (node.input 0) := by
    simp only [tvca_trigger, dst_trigger_function, hf3, if_true]
  have hread : ∀ a : Nat → K,
      tvca_read a (tvca_trigger h node.input node.custom.f3) = none := by
    intro a
    rw [hf]
    simp only [tvca_read, ht0, ht1, or_self, if_false]
  have hcap : tvca_v_cap1 vbe node.context (tvca_trigger h node.input node.custom.f2)
      (tvca_trigger h node.input node.custom.f3) = none := by
    simp only [tvca_v_cap1, hread]
    split_ifs <;> rfl
  refine ⟨hf, hread _, hread _, hread _, ?_⟩
  simp only [dst_tvca_op_amp_step, hcap, Option.none_bind]

end tvca

/-- Witness of C37: the trigger 0 at 2, with every function
`DISC_OP_AMP_TRIGGER_FUNCTION_TRG0`: the index is 2. -/
theorem dst_tvca_op_amp_step_index_out_of_bounds_witness :
    tvca_trigger test_discrete_h
      (test_node_over [2, 0, 0, 0, 0] (0 : ℚ) test_tvca_context test_tvca_info).input
      test_tvca_info.f3 = 2 ∧
    dst_tvca_op_amp_step test_discrete_h (1 / 2 : ℚ)
      (test_node_over [2, 0, 0, 0, 0] 0 test_tvca_context test_tvca_info) [] = none := by
  have hty : trunc32 ((test_node_over [2, 0, 0, 0, 0] (0 : ℚ) test_tvca_context
      test_tvca_info).input 0) = 2 :=
    trunc32_intCast (K := ℚ) 2 (by decide) (by decide)
  have hmain := dst_tvca_op_amp_step_index_out_of_bounds test_discrete_h (1 / 2 : ℚ)
    (test_node_over [2, 0, 0, 0, 0] 0 test_tvca_context test_tvca_info) [] rfl
    (by rw [hty]; decide) (by rw [hty]; decide)
  exact ⟨hmain.1.trans hty, hmain.2.2.2.2⟩

/-! ## DST_OP_AMP: the divisions of the reset -/

/-- C38: when `r3` is 0, `dst_op_amp_reset` divides by it: the test before the
division is `r3 >= 0`, and `i_fixed` is assigned the quotient
`(vP - VBE) / r3`, while `has_r1` and `has_r4` are set only for resistors
greater than 0.  Moreover the reset leaves `has_cap` and `exponent` as they were
when `c` is not greater than 0, and `i_fixed` as it was when `r3` is less than
0. -/
theorem dst_op_amp_reset_divides_by_r3 {K : Type} [LinearOrderedField K]
    (vbe : K) (exp : K → K) (sample_rate : K)
    (node : node_description_over K (dst_op_amp_context K) (discrete_op_amp_info K))
    (log : List Diag) (hr3 : node.custom.r3 = 0) :
    (0 : K) ∈ op_amp_reset_divisors sample_rate node.custom ∧
    (dst_op_amp_reset vbe exp sample_rate node log).1.context.i_fixed =
      (node.custom.vP - vbe) / node.custom.r3 ∧
    (dst_op_amp_reset vbe exp sample_rate node log).1.context.has_r1 =
      (if node.custom.r1 > 0 then 1 else 0) ∧
    (dst_op_amp_reset vbe exp sample_rate node log).1.context.has_r4 =
      (if node.custom.r4 > 0 then 1 else 0) ∧
    (∀ (node2 : node_description_over K (dst_op_amp_context K) (discrete_op_amp_info K)),
      ¬ node2.custom.c > 0 →
      (dst_op_amp_reset vbe exp sample_rate node2 log).1.context.has_cap =
        node2.context.has_cap ∧
      (dst_op_amp_reset vbe exp sample_rate node2 log).1.context.exponent =
        node2.context.exponent) ∧
    (∀ (node2 : node_description_over K (dst_op_amp_context K) (discrete_op_amp_info K)),
      node2.custom.r3 < 0 →
      (dst_op_amp_reset vbe exp sample_rate node2 log).1.context.i_fixed =
        node2.context.i_fixed) := by
  have hge : node.custom.r3 ≥ 0 := by rw [hr3]
  refine ⟨?_, ?_, rfl, rfl, fun node2 hc => ?_, fun node2 hneg => ?_⟩
  · simp only [op_amp_reset_divisors, if_pos hge, List.mem_append, List.mem_singleton]
    exact Or.inr hr3.symm
  · simp only [dst_op_amp_reset, if_pos hge]
  · simp only [dst_op_amp_reset, if_neg hc]
    exact ⟨trivial, trivial⟩
  · simp only [dst_op_amp_reset, if_neg (not_le.2 hneg)]

/-- Witness of C38: the op-amp of `test_op_amp_info` with `r3` = 0, and with
`c` = 0 and the flag `has_cap` at 7 before the reset. -/
theorem dst_op_amp_reset_divides_by_r3_witness :
    (0 : ℚ) ∈ op_amp_reset_divisors 1 { test_op_amp_info with r3 := 0 } ∧
    (dst_op_amp_reset (1 / 2 : ℚ) (fun x => x) 1
      (test_node_over [1, 0, 0] 0 { test_op_amp_context with has_cap := 7 }
        { test_op_amp_info with c := 0 }) []).1.context.has_cap = 7 :=
  ⟨(dst_op_amp_reset_divides_by_r3 (1 / 2 : ℚ) (fun x => x) 1
      (test_node_over [1, 0, 0] 0 test_op_amp_context { test_op_amp_info with r3 := 0 }) []
      rfl).1,
   ((dst_op_amp_reset_divides_by_r3 (1 / 2 : ℚ) (fun x => x) 1
      (test_node_over [1, 0, 0] 0 test_op_amp_context { test_op_amp_info with r3 := 0 }) []
      rfl).2.2.2.2.1
      (test_node_over [1, 0, 0] 0 { test_op_amp_context with has_cap := 7 }
        { test_op_amp_info with c := 0 })
      (by norm_num [test_node_over, test_op_amp_info])).1⟩

/-! ## DST_RAMP: the range of the output -/

section ramp_range

variable {K : Type} [LinearOrderedField K]

end ramp_range

